import Mathlib

/-!
# FormSelect: form-reference resolution and the forms API

A shallow embedding of

* `component/src/index.js`: `processFormComponents` and
  `prepareFormComponentsForRender`, the two in-place walks over a form schema,
  `saveFormDefinition` and `createBuilderControls`;
* `src/formselect/FormSelect.js`: the methods `loadSelectedForm` and
  `resetFormSelect` of the selector widget;
* `Api/server.js`: the Express handlers over the `Formulario` collection.

JavaScript values are modelled by `Json`; a property that is absent (the JS
`undefined`) is `none`.  The walks mutate the schema in place and may throw
half-way, so their model returns the schema as it stands when the call ends
together with the error, if any, instead of discarding the state on a throw.
-/

namespace FormSelect

/-! ## JavaScript values -/

/-- A JavaScript value of the kind a form schema is made of.  Numbers are
abstracted to integers: the code only ever tests them for truthiness.  An
object is the list of its properties in insertion order; should a name be
listed twice, the first entry is the property. -/
inductive Json where
  | null
  | bool (b : Bool)
  | num (n : Int)
  | str (s : String)
  | arr (items : List Json)
  | obj (fields : List (String × Json))

/-- The only exception the walks can raise: reading a property of `null`, or
calling `forEach` on a value that has no such method. -/
inductive JsError where
  | typeError
  deriving DecidableEq, Repr

/-- JavaScript truthiness (`if (v)`), for a value that is not `undefined`. -/
def truthy : Json → Bool
  | .null => false
  | .bool b => b
  | .num n => n != 0
  | .str s => s != ""
  | .arr _ => true
  | .obj _ => true

/-- Truthiness of a property read; `none` is `undefined`. -/
def truthy? : Option Json → Bool
  | none => false
  | some v => truthy v

/-- Property assignment `o.k = v` on an object: an existing property keeps its
place, a new one is added at the end. -/
def setField (k : String) (v : Json) : List (String × Json) → List (String × Json)
  | [] => [(k, v)]
  | (k', v') :: rest =>
    if k' = k then (k, v) :: rest else (k', v') :: setField k v rest

/-- Property read `v.k` on a value that is not `null`: only objects carry the
properties the walks look at. -/
def Json.get? : Json → String → Option Json
  | .obj fields, k => fields.lookup k
  | _, _ => none

/-- The test `component.type === 'formselect'`. -/
def isFormSelect (fields : List (String × Json)) : Bool :=
  match fields.lookup "type" with
  | some (.str s) => s == "formselect"
  | _ => false

/-! ## The live widgets read by `processFormComponents` -/

/-- The part of a live `FormSelect` instance that `processFormComponents`
reads: its `component` configuration object and `selectedFormDefinition`
(`null` until a form has been loaded). -/
structure Widget where
  component : List (String × Json)
  selectedFormDefinition : Json

/-- A DOM element as seen by the walk: its `component` property, if set. -/
structure Element where
  component : Option Widget

/-- The document, as `document.querySelector` with the attribute selector built
from `component.key` sees it: the element matched for a given key value
(`none` for a key that is `undefined`), or no element.  The lookup is taken to
return for every key; a key out of which no valid selector can be built is
outside the model. -/
abbrev Dom := Option Json → Option Element

/-! ## The node blocks -/

/-- The body of `if (component.type === 'formselect')` in
`processFormComponents` (index.js 169-184), on the fields of the node. -/
def collectReference (dom : Dom) (fields : List (String × Json)) :
    List (String × Json) :=
  if isFormSelect fields then
    match dom (fields.lookup "key") with
    | none => fields
    | some formSelectElement =>
      match formSelectElement.component with
      | none => fields
      | some widget =>
        match widget.component.lookup "selectedFormId" with
        | none => fields
        | some selectedFormId =>
          if truthy selectedFormId then
            let fields1 := setField "selectedFormId" selectedFormId fields
            if truthy? (fields1.lookup "storeReference")
                && truthy widget.selectedFormDefinition then
              setField "referencedFormDefinition" widget.selectedFormDefinition fields1
            else fields1
          else fields
  else fields

/-- The node block of `prepareFormComponentsForRender` (index.js 286-289). -/
def restoreSelection (fields : List (String × Json)) : List (String × Json) :=
  if isFormSelect fields then
    match fields.lookup "selectedFormId" with
    | none => fields
    | some selectedFormId =>
      if truthy selectedFormId then setField "defaultValue" selectedFormId fields
      else fields
  else fields

/-! ## The traversal -/

/-- The three child-holding properties of a node. -/
inductive Shape where
  | components
  | rows
  | tabs
  deriving DecidableEq, Repr

/-- The property name of a shape. -/
def Shape.name : Shape → String
  | .components => "components"
  | .rows => "rows"
  | .tabs => "tabs"

/-- One step from a value into it: an array element or a child-holding
property. -/
inductive Seg where
  | item (i : Nat)
  | field (s : Shape)
  deriving DecidableEq, Repr

/-- The place of a value inside a schema. -/
abbrev Path := List Seg

/-- The state in which a piece of the walk ends: the value it worked on as it
now stands, the callback invocations of `components.forEach` made so far (each
named by the place of its node, relative to that value), and the exception that
ended it, if one did. -/
structure Outcome (α : Type) where
  value : α
  visited : List Path
  error : Option JsError

/-- The effect of a descent on the object it started from.  The source mutates
the child list in place, so that afterwards the property holds the list as the
descent left it; `none` stands for a descent that entered nothing. -/
def store (s : Shape) (v : Option Json) (fields : List (String × Json)) :
    List (String × Json) :=
  match v with
  | some w => setField s.name w fields
  | none => fields

/-- The three callbacks handed to `forEach` by the walks: the one over the
components of a child list, the one over the rows, and the one over the columns
of a row, which is also, up to the name of its parameter, the one over the
tabs. -/
inductive Callback where
  | component
  | row
  | holder
  deriving DecidableEq, Repr

/-- The callback that runs on the elements of a child-holding property. -/
def Shape.callback : Shape → Callback
  | .components => .component
  | .rows => .row
  | .tabs => .holder

mutual

/-- The loop `xs.forEach(cb)` from index `i` on: the callback runs on each
element in turn, and an exception ends the loop. -/
def forEach (block : List (String × Json) → List (String × Json))
    (cb : Callback) (i : Nat) : List Json → Outcome (List Json)
  | [] => ⟨[], [], none⟩
  | x :: rest =>
    let r := call block cb x
    match r.error with
    | some e => ⟨r.value :: rest, r.visited.map (Seg.item i :: ·), some e⟩
    | none =>
      let rs := forEach block cb (i + 1) rest
      ⟨r.value :: rs.value, r.visited.map (Seg.item i :: ·) ++ rs.visited, rs.error⟩

/-- One run of a callback.  For a component: the node block, then the descent
into `components`, `rows` and `tabs`, in that order; the three properties are
read from the node as found, which is what the source reads after the node
block, since the block writes none of them (`collectReference_lookup`,
`restoreSelection_lookup`).  For a row: `row.forEach(col => ...)`.  For a
column or tab: `if (col.components) { recurse(col.components) }`. -/
def call (block : List (String × Json) → List (String × Json)) :
    Callback → Json → Outcome Json
  | .component, .null => ⟨.null, [[]], some .typeError⟩
  | .component, .obj fields =>
    let r1 := descend block .components fields
    let fields1 := store .components r1.value (block fields)
    match r1.error with
    | some e => ⟨.obj fields1, [] :: r1.visited, some e⟩
    | none =>
      let r2 := descend block .rows fields
      let fields2 := store .rows r2.value fields1
      match r2.error with
      | some e => ⟨.obj fields2, [] :: (r1.visited ++ r2.visited), some e⟩
      | none =>
        let r3 := descend block .tabs fields
        ⟨.obj (store .tabs r3.value fields2),
          [] :: (r1.visited ++ r2.visited ++ r3.visited), r3.error⟩
  | .component, v => ⟨v, [[]], none⟩
  | .row, .arr cols =>
    let r := forEach block .holder 0 cols
    ⟨.arr r.value, r.visited, r.error⟩
  | .row, v => ⟨v, [], some .typeError⟩
  | .holder, .null => ⟨.null, [], some .typeError⟩
  | .holder, .obj fields =>
    let r := descend block .components fields
    ⟨.obj (store .components r.value fields), r.visited, r.error⟩
  | .holder, v => ⟨v, [], none⟩

/-- The statement `if (o.s) { ... }` for a child-holding property `s` of the
object with the given fields: nothing when the property is absent or falsy. -/
def descend (block : List (String × Json) → List (String × Json)) (s : Shape) :
    List (String × Json) → Outcome (Option Json)
  | [] => ⟨none, [], none⟩
  | (k, v) :: rest =>
    if k = s.name then
      if truthy v then enter block s v else ⟨none, [], none⟩
    else descend block s rest

/-- What is done with the truthy value `v` of the property `s`.  On an array:
the loop over its elements, which for `components` is the body of the recursive
call and for `rows` and `tabs` is `v.forEach(...)`.  On anything else: the
recursive call returns at once from its guard
`!components || !Array.isArray(components)`, whereas `v.forEach` is not a
function and the call throws.  The value is `none` when nothing was entered. -/
def enter (block : List (String × Json) → List (String × Json)) :
    Shape → Json → Outcome (Option Json)
  | s, .arr xs =>
    let r := forEach block s.callback 0 xs
    ⟨some (.arr r.value), r.visited.map (Seg.field s :: ·), r.error⟩
  | .components, _ => ⟨none, [], none⟩
  | _, _ => ⟨none, [], some .typeError⟩

end

/-- The function itself, called from outside (index.js 162-211 and 279-316):
the guard on its argument, then `components.forEach`; `block` is the node
block.  Its recursive calls are `enter block .components`
(`enter_components`). -/
def walk (block : List (String × Json) → List (String × Json)) :
    Json → Outcome Json
  | .arr components =>
    let r := forEach block .component 0 components
    ⟨.arr r.value, r.visited, r.error⟩
  | v => ⟨v, [], none⟩

/-- The function `processFormComponents(components)` of index.js, run against
the document `dom`. -/
def processFormComponents (dom : Dom) (components : Json) : Outcome Json :=
  walk (collectReference dom) components

/-- The function `prepareFormComponentsForRender(components)` of index.js. -/
def prepareFormComponentsForRender (components : Json) : Outcome Json :=
  walk restoreSelection components

/-! ## Places in a schema -/

/-- One step into a value. -/
def Json.step : Json → Seg → Option Json
  | .arr items, .item i => items[i]?
  | .obj fields, .field s => fields.lookup s.name
  | _, _ => none

/-- The value found at a place, if the place exists. -/
def Json.at (v : Json) : Path → Option Json
  | [] => some v
  | s :: p =>
    match v.step s with
    | some w => w.at p
    | none => none

mutual

/-- The places, relative to a child list, at which a component can sit: an
element of the list, or further down from such an element. -/
def isNodePath : Path → Bool
  | .item _ :: rest => isNodeRel rest
  | _ => false

/-- The places of components relative to a component: the component itself, or
an element of its `components`, of the `components` of a column of one of its
`rows`, or of the `components` of one of its `tabs`, and so on down. -/
def isNodeRel : Path → Bool
  | [] => true
  | .field .components :: rest => isNodePath rest
  | .field .rows :: .item _ :: .item _ :: .field .components :: rest => isNodePath rest
  | .field .tabs :: .item _ :: .field .components :: rest => isNodePath rest
  | _ => false

end

/-- The order of the three descents at a node. -/
def Shape.rank : Shape → Nat
  | .components => 0
  | .rows => 1
  | .tabs => 2

/-- Earlier sibling: a smaller index in a list, or an earlier descent. -/
def Seg.lt : Seg → Seg → Bool
  | .item i, .item j => decide (i < j)
  | .field s, .field t => decide (s.rank < t.rank)
  | _, _ => false

/-- Depth-first pre-order on places: a place comes before every place below
it, and below a common ancestor the earlier sibling's subtree comes first. -/
def Path.before : Path → Path → Bool
  | [], _ :: _ => true
  | a :: p, b :: q => Seg.lt a b || (decide (a = b) && Path.before p q)
  | _, _ => false

mutual

/-- Every element of a list is well shaped for the callback that runs on it. -/
def shapedAll (cb : Callback) : List Json → Bool
  | [] => true
  | x :: rest => shapedFor cb x && shapedAll cb rest

/-- The value is well shaped for the callback that runs on it: a component, a
column and a tab are not `null`, a row is an array, and what they hold is well
shaped in turn. -/
def shapedFor : Callback → Json → Bool
  | .component, .null => false
  | .component, .obj fields =>
    shapedField .components fields && shapedField .rows fields && shapedField .tabs fields
  | .component, _ => true
  | .row, .arr cols => shapedAll .holder cols
  | .row, _ => false
  | .holder, .null => false
  | .holder, .obj fields => shapedField .components fields
  | .holder, _ => true

/-- The child-holding property `s` of an object is absent, falsy, or well
shaped. -/
def shapedField (s : Shape) : List (String × Json) → Bool
  | [] => true
  | (k, v) :: rest =>
    if k = s.name then
      if truthy v then shapedValue s v else true
    else shapedField s rest

/-- The truthy value of the property `s` is an array of well-shaped elements;
for `components` it may also be anything that is not an array. -/
def shapedValue : Shape → Json → Bool
  | s, .arr xs => shapedAll s.callback xs
  | .components, _ => true
  | _, _ => false

end

/-- The argument of the walk nests the way the walk expects: below it every
element of a child list is a value with properties (not `null`), every truthy
`rows` is an array of arrays, every truthy `tabs` is an array, and no column or
tab is `null`. -/
def wellShaped : Json → Bool
  | .arr components => shapedAll .component components
  | _ => true

/-- The places of components under a callback argument, relative to it. -/
def relFor : Callback → Path → Bool
  | .component, p => isNodeRel p
  | .row, .item _ :: .field .components :: q => isNodePath q
  | .row, _ => false
  | .holder, .field .components :: q => isNodePath q
  | .holder, _ => false

/-- The names of the child-holding properties. -/
def descentNames : List String := ["components", "rows", "tabs"]

/-- What a value holds itself, as opposed to what lies below it in the
schema: an object with the values of its child-holding properties blanked, an
array with its elements blanked, any other value as it is.  Two objects with
the same `own` have the same properties in the same order, with the same
values except under `components`, `rows` and `tabs`. -/
def Json.own : Json → Json
  | .obj fields =>
    .obj (fields.map fun kv => if kv.1 ∈ descentNames then (kv.1, Json.null) else kv)
  | .arr items => .arr (items.map fun _ => Json.null)
  | v => v

/-- The node block as run by the component callback: on an object. -/
def onNode (block : List (String × Json) → List (String × Json)) : Json → Json
  | .obj fields => .obj (block fields)
  | v => v

/-- The facts about one descent that the component callback relies on. -/
def GoodDescent (block : List (String × Json) → List (String × Json))
    (fields : List (String × Json)) (s : Shape) (o : Outcome (Option Json)) : Prop :=
  (∀ p ∈ o.visited, ∃ q, p = Seg.field s :: q) ∧
  (o.value ≠ none → fields.lookup s.name ≠ none) ∧
  ∀ v q c, fields.lookup s.name = some v → v.at q = some c →
    ∃ c', (o.value.getD v).at q = some c' ∧
      c'.own = (if Seg.field s :: q ∈ o.visited then onNode block c else c).own

/-! ## The order of the visits as the spec words it -/

mutual

/-- The places of the components below a list of callback arguments, from
index `i` on, in the order of the spec (4.2): the elements in list order, each
with all that is below it before the next. -/
def preorderAll (cb : Callback) (i : Nat) : List Json → List Path
  | [] => []
  | x :: rest => (preorderFor cb x).map (Seg.item i :: ·) ++ preorderAll cb (i + 1) rest

/-- The places of the components at and below a callback argument, in the
order of the spec (4.2).  For a component: the node itself first, then what is
below its direct child list, then what is below its rows, then what is below
its tabs.  For a row: what is below its columns, in order.  For a column or a
tab: what is below its child list. -/
def preorderFor : Callback → Json → List Path
  | .component, .obj fields =>
    [] :: (preorderField .components fields ++ preorderField .rows fields
      ++ preorderField .tabs fields)
  | .component, _ => [[]]
  | .row, .arr cols => preorderAll .holder 0 cols
  | .row, _ => []
  | .holder, .obj fields => preorderField .components fields
  | .holder, _ => []

/-- The places of the components below the child-holding property `s` of an
object; none when the property is absent or falsy. -/
def preorderField (s : Shape) : List (String × Json) → List Path
  | [] => []
  | (k, v) :: rest =>
    if k = s.name then
      if truthy v then preorderValue s v else []
    else preorderField s rest

/-- The places of the components below the value of the property `s`: those
below its elements when it is a list, none otherwise. -/
def preorderValue : Shape → Json → List Path
  | s, .arr xs => (preorderAll s.callback 0 xs).map (Seg.field s :: ·)
  | _, _ => []

end

/-- The places of all components of a schema in depth-first pre-order, as the
spec describes the traversal (4.2): every node before what is below it, its
direct child list before its rows before its tabs, rows in row-major order,
and the elements of every list in list order. -/
def preorder : Json → List Path
  | .arr components => preorderAll .component 0 components
  | _ => []

/-! ## Sample schemas and documents -/

/-- A schema with a selector at top level and one under each of the three
nesting shapes of a panel, followed by a text field. -/
def sampleSchema : Json :=
  .arr [
    .obj [("type", .str "formselect"), ("key", .str "pick"), ("storeReference", .bool true)],
    .obj [("type", .str "panel"), ("key", .str "panel"),
      ("components", .arr [
        .obj [("type", .str "formselect"), ("key", .str "inner"),
          ("selectedFormId", .str "contact")]]),
      ("rows", .arr [.arr [
        .obj [("components", .arr [
          .obj [("type", .str "formselect"), ("key", .str "cell"),
            ("selectedFormId", .str "survey")]])]]]),
      ("tabs", .arr [
        .obj [("label", .str "first"), ("components", .arr [
          .obj [("type", .str "formselect"), ("key", .str "tab"),
            ("selectedFormId", .str "")]])]])],
    .obj [("type", .str "textfield"), ("key", .str "name")]]

/-- A schema without any selector: a single text field. -/
def plainSchema : Json :=
  .arr [.obj [("type", .str "textfield"), ("key", .str "name")]]

/-- A schema as the form builder produces it for a text area followed by a
selector: the text area's `rows` is its number of lines. -/
def textAreaSchema : Json :=
  .arr [
    .obj [("type", .str "textarea"), ("key", .str "notes"), ("rows", .num 3)],
    .obj [("type", .str "formselect"), ("key", .str "pick"),
      ("selectedFormId", .str "contact")]]

/-- A schema that nests through the three shapes at the same time: a panel
with a selector in its direct child list, one in a column of a row and one in
a tab, followed by a selector at top level.  The first child of the panel is a
text area, whose `rows` is its number of lines. -/
def mixedSchema : Json :=
  .arr [
    .obj [("type", .str "panel"), ("key", .str "panel"),
      ("components", .arr [
        .obj [("type", .str "textarea"), ("key", .str "notes"), ("rows", .num 3)],
        .obj [("type", .str "formselect"), ("key", .str "inner"),
          ("selectedFormId", .str "contact")]]),
      ("rows", .arr [.arr [
        .obj [("components", .arr [
          .obj [("type", .str "formselect"), ("key", .str "cell"),
            ("selectedFormId", .str "survey")]])]]]),
      ("tabs", .arr [
        .obj [("label", .str "first"), ("components", .arr [
          .obj [("type", .str "formselect"), ("key", .str "tab"),
            ("selectedFormId", .str "contact")]])]])],
    .obj [("type", .str "formselect"), ("key", .str "pick"),
      ("selectedFormId", .str "contact")]]

/-- A document in which the element named `pick` carries a widget that has
the form `contact` selected and loaded, and no other element carries one. -/
def sampleDom : Dom := fun key =>
  match key with
  | some (.str "pick") =>
    some ⟨some ⟨[("key", .str "pick"), ("selectedFormId", .str "contact")],
      .obj [("title", .str "Contact")]⟩⟩
  | some (.str "inner") => some ⟨none⟩
  | _ => none

/-! ## Saving a form definition (`saveFormDefinition`, index.js 96-159) -/

/-- The object `formData` that `saveFormDefinition` posts to the API (index.js
125-129); a property whose value is `undefined` is `none`. -/
structure FormData where
  formId : Option Json
  title : Option Json
  formDefinition : Json

/-- How a call of `saveFormDefinition` ends: with an error message shown to the
user and nothing sent; with an exception out of `processFormComponents`, the
schema standing as the walk left it, and nothing sent; or with `formData`
posted to the API. -/
inductive SaveOutcome where
  | refused (text : String)
  | threw (schema : List (String × Json)) (error : JsError)
  | posted (formData : FormData)

/-- The statement of index.js 116-119, on the properties of `formDefinition`:
`if (!formDefinition.formId && formDefinition.title)
formDefinition.formId = formDefinition.title`. -/
def defaultFormId (formDefinition : List (String × Json)) : List (String × Json) :=
  match formDefinition.lookup "title" with
  | some title =>
    if !truthy? (formDefinition.lookup "formId") && truthy title then
      setField "formId" title formDefinition
    else formDefinition
  | none => formDefinition

/-- The statements of index.js 121-138, on the properties of `formDefinition`:
the call `processFormComponents(formDefinition.components)`, which works on
the component list in place, and then the `formData` that is posted. -/
def postDefinition (dom : Dom) (formDefinition : List (String × Json)) : SaveOutcome :=
  match formDefinition.lookup "components" with
  | none =>
    .posted ⟨formDefinition.lookup "formId", formDefinition.lookup "title",
      .obj formDefinition⟩
  | some components =>
    let r := processFormComponents dom components
    let formDefinition1 := setField "components" r.value formDefinition
    match r.error with
    | some e => .threw formDefinition1 e
    | none =>
      .posted ⟨formDefinition1.lookup "formId", formDefinition1.lookup "title",
        .obj formDefinition1⟩

/-- The function `saveFormDefinition()` of index.js, up to the `fetch` call
whose argument it builds.  `formBuilder` is the module variable: `none` while
the builder is not ready, and otherwise the properties of the object
`formBuilder.schema`.  `answer` is what `prompt` returns if it is called: the
text entered, or `none` when the user cancels. -/
def saveFormDefinition (dom : Dom) (answer : Option String)
    (formBuilder : Option (List (String × Json))) : SaveOutcome :=
  match formBuilder with
  | none => .refused "Error: El constructor de formularios no está inicializado"
  | some formDefinition =>
    if truthy? (formDefinition.lookup "title") then
      postDefinition dom (defaultFormId formDefinition)
    else
      match answer with
      | none => .refused "Error: Se requiere un título para guardar el formulario"
      | some formTitle =>
        if formTitle = "" then
          .refused "Error: Se requiere un título para guardar el formulario"
        else
          postDefinition dom (defaultFormId
            (setField "formId" (.str formTitle)
              (setField "title" (.str formTitle) formDefinition)))

/-- A form built without a title, whose `formId` is `contact`. -/
def untitledSchema : List (String × Json) :=
  [("formId", .str "contact"),
   ("components", .arr [.obj [("type", .str "textfield"), ("key", .str "name")]])]

/-- A form built with the title `Contact` and without a `formId`. -/
def titledSchema : List (String × Json) :=
  [("title", .str "Contact"),
   ("components", .arr [.obj [("type", .str "textfield"), ("key", .str "name")]])]

/-! ## The selector widget (`formselect/FormSelect.js`) -/

/-- The `select` element of the widget: its inline `style.display` and its
`value`. -/
structure SelectControl where
  display : String
  value : String

/-- The element into which the selected form is rendered: its `innerHTML`. -/
structure FormContainer where
  innerHTML : String

/-- The button that brings the selector back: its inline `style.display`. -/
structure ResetButton where
  display : String

/-- The element to which the widget is attached, with the three references
`this.refs.select`, `this.refs.formContainer` and `this.refs.resetButton` that
`attach` loads from it (FormSelect.js 238-244); a reference that found nothing
is `none`.  `attach` sets `this.element` before it loads the references, so
the references exist only on an attached widget. -/
structure Refs where
  select : Option SelectControl
  formContainer : Option FormContainer
  resetButton : Option ResetButton

/-- A form instance as `Formio.createForm` resolves with it; the library is
not part of the repository, and the widget only keeps the instance and calls
its `destroy`. -/
structure EmbeddedForm where
  formDefinition : Json

/-- What a method of the widget does to the world outside its own state, in
the order of the calls: `console.error(text, formId)`, `formInstance.destroy()`,
`Formio.createForm(this.refs.formContainer, formDefinition, ...)`, and
`fetch(url)`. -/
inductive Effect where
  | consoleError (text : String) (formId : Json)
  | destroy (form : EmbeddedForm)
  | createForm (formDefinition : Json)
  | fetch (url : Option Json)

/-- A live `FormSelect` instance: the configuration object `component` and
`selectedFormDefinition` as above, the candidate list `forms` as `loadForms`
stored it (whatever the server answered), `formInstance`, `originalElement`,
the value `dataValue` of the component, the element it is attached to (`none`
before `attach`), and the calls it has made so far. -/
structure LiveWidget extends Widget where
  forms : Json
  formInstance : Option EmbeddedForm
  originalElement : Option Refs
  dataValue : Json
  element : Option Refs
  effects : List Effect

/-- The comparison `a === b` between a property read and a value.  Arrays and
objects are equal only to themselves; the values compared here come from two
different sources, the candidate list and the caller, and are never the same
object. -/
def strictEq : Option Json → Option Json → Bool
  | none, none => true
  | some .null, some .null => true
  | some (.bool a), some (.bool b) => a == b
  | some (.num a), some (.num b) => a == b
  | some (.str a), some (.str b) => a == b
  | _, _ => false

/-- The call `forms.find(form => form[key] === formId)` of FormSelect.js 143 on
the elements of an array: the first element on which the test holds.  Reading
a property of `null` throws, which ends the search. -/
def find (key : String) (formId : Json) : List Json → Except JsError (Option Json)
  | [] => .ok none
  | .null :: _ => .error .typeError
  | form :: rest =>
    if strictEq (form.get? key) (some formId) then .ok (some form)
    else find key formId rest

/-- The method `loadSelectedForm(formId)` (FormSelect.js 141-201), up to the
call of `Formio.createForm`, whose promise settles later.  `toKey` is the
conversion of a value to a property name that `form[...]` applies to
`this.component.valueProperty`.  Returns the widget as the call leaves it, and
the exception that ended the call, if one did: the widget is mutated in place,
so that what was assigned before a throw stays assigned. -/
def loadSelectedForm (toKey : Option Json → String) (formId : Json) (w : LiveWidget) :
    LiveWidget × Option JsError :=
  match w.forms with
  | .arr forms =>
    match find (toKey (w.component.lookup "valueProperty")) formId forms with
    | .error e => (w, some e)
    | .ok none =>
      ({ w with effects := w.effects ++ [.consoleError "Form not found with ID:" formId] },
        none)
    | .ok (some selectedForm) =>
      if truthy selectedForm = false then
        ({ w with effects := w.effects ++ [.consoleError "Form not found with ID:" formId] },
          none)
      else
        match selectedForm.get? "formDefinition" with
        | none =>
          ({ w with effects := w.effects ++
              [.consoleError "Form definition not found for form with ID:" formId] }, none)
        | some formDefinition =>
          if truthy formDefinition = false then
            ({ w with effects := w.effects ++
                [.consoleError "Form definition not found for form with ID:" formId] }, none)
          else
            let w1 : LiveWidget :=
              { w with
                selectedFormDefinition := formDefinition
                component := setField "selectedFormId" formId w.component }
            match w1.element with
            | none => (w1, some .typeError)
            | some refs =>
              ({ w1 with
                  originalElement := some refs
                  element := some
                    { select := refs.select.map (fun s => { s with display := "none" })
                      resetButton := refs.resetButton.map (fun b => { b with display := "block" })
                      formContainer := refs.formContainer.map (fun c => { c with innerHTML := "" }) }
                  effects := w1.effects ++
                    (match refs.formContainer with
                      | some _ => [.createForm formDefinition]
                      | none => []) },
                none)
  | _ => (w, some .typeError)

/-- Modelled from the spec: the method `updateValue(value)` that the widget
inherits from the library's `Field`, which is not part of the repository: the
value of the component becomes `value`. -/
def updateValue (value : Json) (w : LiveWidget) : LiveWidget :=
  { w with dataValue := value }

/-- The method `resetFormSelect()` (FormSelect.js 206-233). -/
def resetFormSelect (w : LiveWidget) : LiveWidget :=
  let w1 : LiveWidget :=
    match w.formInstance with
    | some form => { w with formInstance := none, effects := w.effects ++ [.destroy form] }
    | none => w
  let w2 : LiveWidget :=
    { w1 with
      element := w1.element.map (fun refs =>
        { formContainer := refs.formContainer.map (fun c => { c with innerHTML := "" })
          select := refs.select.map (fun _ => { display := "block", value := "" })
          resetButton := refs.resetButton.map (fun b => { b with display := "none" }) }) }
  let w3 := updateValue (.str "") w2
  { w3 with
    component := setField "selectedFormId" (.str "") w3.component
    selectedFormDefinition := .null }

/-- The call `fetch(this.component.dataUrl)` with which `loadForms` starts
(FormSelect.js 66-67); what follows runs when the response arrives. -/
def loadForms (w : LiveWidget) : LiveWidget :=
  { w with effects := w.effects ++ [.fetch (w.component.lookup "dataUrl")] }

/-- The conversion to a property name, on the values the samples use: a string
is its own name. -/
def sampleToKey : Option Json → String
  | some (.str s) => s
  | _ => "undefined"

/-- A widget attached to its element, in the state `LOADED`: the selector is
shown, the reset button is hidden, nothing is selected, and three candidates
have been fetched: `contact`, `draft`, which has no `formDefinition`, and a
second `contact`. -/
def sampleWidget : LiveWidget where
  component :=
    [("type", .str "formselect"), ("key", .str "formSelect"),
     ("dataUrl", .str "http://localhost:3000/forms"),
     ("valueProperty", .str "formId"), ("selectedFormId", .str "")]
  selectedFormDefinition := .null
  forms := .arr
    [.obj [("_id", .str "65f0c0ffee0000000000abcd"), ("formId", .str "contact"),
       ("formDefinition", .obj [("title", .str "Contact")])],
     .obj [("_id", .str "65f0c0ffee0000000000beef"), ("formId", .str "draft")],
     .obj [("_id", .str "65f0c0ffee0000000000cafe"), ("formId", .str "contact"),
       ("formDefinition", .obj [("title", .str "Second")])]]
  formInstance := none
  originalElement := none
  dataValue := .str ""
  element := some ⟨some ⟨"", ""⟩, some ⟨""⟩, some ⟨"none"⟩⟩
  effects := []

/-- The sample widget after `GET /forms` has answered 500: `loadForms` has
stored the body of that answer (server.js 138) as the candidate list
(FormSelect.js 70). -/
def failedWidget : LiveWidget :=
  { sampleWidget with
    forms := .obj [("message", .str "Error al obtener la lista de formularios."),
      ("error", .str "connection refused")] }

/-- The sample widget in the state `RESOLVED`, once `contact` has been selected
and its form has been created. -/
def resolvedWidget : LiveWidget where
  component :=
    [("type", .str "formselect"), ("key", .str "formSelect"),
     ("dataUrl", .str "http://localhost:3000/forms"),
     ("valueProperty", .str "formId"), ("selectedFormId", .str "contact")]
  selectedFormDefinition := .obj [("title", .str "Contact")]
  forms := sampleWidget.forms
  formInstance := some ⟨.obj [("title", .str "Contact")]⟩
  originalElement := sampleWidget.element
  dataValue := .str "contact"
  element := some ⟨some ⟨"none", "contact"⟩, some ⟨"<form></form>"⟩, some ⟨"block"⟩⟩
  effects := [.createForm (.obj [("title", .str "Contact")])]

/-! ## The builder page (`createBuilderControls`, index.js 60-93) -/

/-- The functions that the page installs as event handlers. -/
inductive Handler where
  | saveFormDefinition
  deriving DecidableEq, Repr

/-- A node of the page: an element with its tag, `id`, `className`, `onclick`
handler and child nodes, or a text node.  Setting `textContent` on an element
makes a single text node its only child. -/
inductive DomNode where
  | element (tag : String) (id : String) (className : String)
      (onclick : Option Handler) (children : List DomNode)
  | text (content : String)

/-- The child nodes of a node. -/
def DomNode.children : DomNode → List DomNode
  | .element _ _ _ _ children => children
  | .text _ => []

/-- The node with its child nodes replaced. -/
def DomNode.setChildren : DomNode → List DomNode → DomNode
  | .element tag id className onclick _, children =>
    .element tag id className onclick children
  | .text content, _ => .text content

/-- The page as the functions of index.js see it: the child nodes of
`document.body`.  An element of the page is named by the indices that lead to
it from the body; the empty list names the body itself. -/
abbrev Page := List DomNode

mutual

/-- The first element with the given `id` among the nodes from index `i` on and
what is below them, in document order. -/
def findIn (id : String) (i : Nat) : List DomNode → Option (List Nat)
  | [] => none
  | node :: rest =>
    match findAt id node with
    | some p => some (i :: p)
    | none => findIn id (i + 1) rest

/-- The first element with the given `id` at a node or below it. -/
def findAt (id : String) : DomNode → Option (List Nat)
  | .text _ => none
  | .element _ id1 _ _ children =>
    if id1 = id then some [] else findIn id 0 children

end

/-- The call `document.getElementById(id)`: the first element of the page with
that `id`, in document order, or `none` for `null`. -/
def getElementById (id : String) (page : Page) : Option (List Nat) :=
  findIn id 0 page

/-- The call `document.createElement(tag)`: a new element outside the page,
with no `id`, no class, no handler and no child. -/
def createElement (tag : String) : DomNode :=
  .element tag "" "" none []

/-- The call `parent.appendChild(child)` for the element `parent` of the page,
with a `child` that is not in the page: the child becomes the last child node
of the parent. -/
def appendChild (child : DomNode) : List Nat → Page → Page
  | [], nodes => nodes ++ [child]
  | i :: p, nodes =>
    match nodes[i]? with
    | some node => nodes.set i (node.setChildren (appendChild child p node.children))
    | none => nodes

/-- The call `el.parentNode.insertBefore(child, el.nextSibling)` for the
element `el` of the page, with a `child` that is not in the page: the child
becomes the node that follows `el` under the parent of `el`.  An element that
`getElementById` found is in the page, below the body, and so has a parent. -/
def insertAfter (child : DomNode) : List Nat → Page → Page
  | [], nodes => nodes
  | [i], nodes => nodes.take (i + 1) ++ child :: nodes.drop (i + 1)
  | i :: j :: p, nodes =>
    match nodes[i]? with
    | some node => nodes.set i (node.setChildren (insertAfter child (j :: p) node.children))
    | none => nodes

/-- The container that `createBuilderControls` makes when the page has none
(index.js 64-66). -/
def newControlsContainer : DomNode :=
  .element "div" "builder-controls" "mt-3" none []

/-- The save button (index.js 80-83). -/
def saveButton : DomNode :=
  .element "button" "" "btn btn-primary mr-2" (some .saveFormDefinition)
    [.text "Guardar Formulario"]

/-- The element for messages (index.js 89-91). -/
def messageDiv : DomNode :=
  .element "div" "save-message" "mt-2" none []

/-- The function `createBuilderControls()` of index.js 60-93.  Returns the page
as the call leaves it, and the exception that ended the call, if one did.
`controlsContainer` is declared with `const` (line 61), so that the assignment
`controlsContainer = newControlsContainer` of line 76 throws a `TypeError`
when it is reached, which is after the new container has been put into the
page. -/
def createBuilderControls (page : Page) : Page × Option JsError :=
  match getElementById "builder-controls" page with
  | none =>
    let page1 :=
      match getElementById "builder" page with
      | some builderElement => insertAfter newControlsContainer builderElement page
      | none => appendChild newControlsContainer [] page
    (page1, some .typeError)
  | some controlsContainer =>
    let page1 := appendChild saveButton controlsContainer page
    (appendChild messageDiv controlsContainer page1, none)

/-- The page that the comment of index.js 13-17 recommends, without the
element `builder-controls`. -/
def barePage : Page :=
  [.element "div" "form-selector" "" none [],
   .element "div" "formio" "" none [],
   .element "div" "builder" "" none []]

/-- The page that the comment of index.js 13-17 recommends. -/
def recommendedPage : Page :=
  [.element "div" "form-selector" "" none [],
   .element "div" "formio" "" none [],
   .element "div" "builder" "" none [],
   .element "div" "builder-controls" "" none []]

/-- A page that has neither `builder-controls` nor `builder`. -/
def emptyPage : Page :=
  [.element "div" "formio" "" none []]

/-- A page whose `builder` sits inside a wrapper, followed by a text node. -/
def nestedPage : Page :=
  [.element "main" "" "container" none
    [.element "div" "builder" "" none [], .text "footer"]]

end FormSelect

/-! ## The forms API (`Api/server.js`) -/

namespace FormsApi

open FormSelect (Json truthy)

/-- A document of the `Formulario` model (server.js 45-49): the storage id
`_id` that the database assigns, and the three fields of the schema. -/
structure Formulario where
  id : String
  formId : String
  formDefinition : Json
  createdAt : Nat

/-- The errors with which an operation on the collection is rejected. -/
inductive StoreError where
  | castError
  | duplicateKey
  deriving DecidableEq, Repr

/-- Modelled from the spec: the MongoDB collection behind the model, which is
not part of the repository: the stored documents, oldest first. -/
abbrev Collection := List Formulario

/-- Modelled from the spec: Mongoose's `Model.findOne({ formId })`, which is not
part of the repository: the stored document with that `formId`, if there is
one. -/
def findOne (docs : Collection) (formId : String) : Option Formulario :=
  docs.find? (fun d => d.formId == formId)

/-- Modelled from the spec: Mongoose's `Model.findById(id)`, which is not part
of the repository: rejected with a cast error when `id` is not a well-formed
storage id (`validId` tells which strings are), and otherwise the stored
document with that storage id, if there is one. -/
def findById (validId : String → Bool) (docs : Collection) (id : String) :
    Except StoreError (Option Formulario) :=
  if validId id then .ok (docs.find? (fun d => d.id == id)) else .error .castError

/-- Modelled from the spec: Mongoose's `document.save()` of a new document,
which is not part of the repository: rejected with a duplicate-key error when a
stored document has the same `formId` (`unique: true`, server.js 46), and
otherwise the document is stored as given, after the existing ones.  The
storage id of the document is the one the store assigned to it; storage ids
are unique by construction of the store, which the model does not check
again. -/
def save (docs : Collection) (doc : Formulario) : Except StoreError Collection :=
  if docs.any (fun d => d.formId == doc.formId) then .error .duplicateKey
  else .ok (docs ++ [doc])

/-- What a handler sends as the body of its response. -/
inductive Payload where
  | document (doc : Formulario)
  | message (text : String)

/-- The response of a handler: `res.status(status).json(body)`. -/
structure Response where
  status : Nat
  body : Payload

/-- The body of a `POST /forms` request; a field that is missing is `none`. -/
structure PostBody where
  formId : Option String
  formDefinition : Option Json

/-- The handler `app.post('/forms')` (server.js 82-112), for a `formId` that is
a string.  `newId` and `now` are the storage id and the `createdAt` default
that `new Formulario(...)` draws.  Returns the collection as the handler leaves
it, and the response. -/
def postForms (newId : String) (now : Nat) (docs : Collection) (body : PostBody) :
    Collection × Response :=
  match body.formId, body.formDefinition with
  | some formId, some formDefinition =>
    if formId = "" ∨ truthy formDefinition = false then
      (docs, ⟨400,
        .message "Se requiere 'formId' y 'formDefinition' en el cuerpo de la petición."⟩)
    else
      match findOne docs formId with
      | some _ => (docs, ⟨409, .message "Ya existe un formulario con ese formId."⟩)
      | none =>
        match save docs ⟨newId, formId, formDefinition, now⟩ with
        | .ok docs' => (docs', ⟨201, .document ⟨newId, formId, formDefinition, now⟩⟩)
        | .error _ => (docs, ⟨500, .message "Error al guardar."⟩)
  | _, _ =>
    (docs, ⟨400,
      .message "Se requiere 'formId' y 'formDefinition' en el cuerpo de la petición."⟩)

/-- The lookup `await Formulario.findById(id).catch(() => null)`: a rejected
lookup counts as a miss. -/
def findByIdOrNull (validId : String → Bool) (docs : Collection) (id : String) :
    Option Formulario :=
  match findById validId docs id with
  | .ok found => found
  | .error _ => none

/-- The handler `app.get('/forms/:id')` (server.js 167-189). -/
def getForm (validId : String → Bool) (docs : Collection) (id : String) : Response :=
  let form := findByIdOrNull validId docs id
  let form := match form with
    | some found => some found
    | none => findOne docs id
  match form with
  | none => ⟨404, .message "Formulario no encontrado."⟩
  | some found => ⟨200, .document found⟩

/-- The first document that satisfies `p`, with its place in the collection. -/
def firstMatch (p : Formulario → Bool) : Collection → Option (Nat × Formulario)
  | [] => none
  | d :: rest =>
    if p d then some (0, d) else (firstMatch p rest).map (fun r => (r.1 + 1, r.2))

/-- Modelled from the spec: the update `{ formDefinition }` with `new: true`
of the first stored document that satisfies `p`, as Mongoose's
`findOneAndUpdate` does it, which is not part of the repository: that document
gets the new `formDefinition` and keeps everything else, the other documents
are untouched, and the updated document is returned; `none` when no document
satisfies `p`. -/
def updateFirst (p : Formulario → Bool) (formDefinition : Json) :
    Collection → Collection × Option Formulario
  | [] => ([], none)
  | d :: rest =>
    if p d then
      ({ d with formDefinition := formDefinition } :: rest,
        some { d with formDefinition := formDefinition })
    else
      let r := updateFirst p formDefinition rest
      (d :: r.1, r.2)

/-- Modelled from the spec: the removal of the first stored document that
satisfies `p`, as Mongoose's `findOneAndDelete` does it, which is not part of
the repository: the removed document is returned; `none` when no document
satisfies `p`. -/
def removeFirst (p : Formulario → Bool) : Collection → Collection × Option Formulario
  | [] => ([], none)
  | d :: rest =>
    if p d then (rest, some d)
    else
      let r := removeFirst p rest
      (d :: r.1, r.2)

/-- Modelled from the spec: Mongoose's
`Model.findByIdAndUpdate(id, { formDefinition }, { new: true, ... })`, rejected
with a cast error when `id` is not a well-formed storage id. -/
def findByIdAndUpdate (validId : String → Bool) (docs : Collection) (id : String)
    (formDefinition : Json) : Except StoreError (Collection × Option Formulario) :=
  if validId id then .ok (updateFirst (fun d => d.id == id) formDefinition docs)
  else .error .castError

/-- Modelled from the spec: Mongoose's
`Model.findOneAndUpdate({ formId }, { formDefinition }, { new: true, ... })`. -/
def findOneAndUpdate (docs : Collection) (formId : String) (formDefinition : Json) :
    Collection × Option Formulario :=
  updateFirst (fun d => d.formId == formId) formDefinition docs

/-- Modelled from the spec: Mongoose's `Model.findByIdAndDelete(id)`, rejected
with a cast error when `id` is not a well-formed storage id. -/
def findByIdAndDelete (validId : String → Bool) (docs : Collection) (id : String) :
    Except StoreError (Collection × Option Formulario) :=
  if validId id then .ok (removeFirst (fun d => d.id == id) docs) else .error .castError

/-- Modelled from the spec: Mongoose's `Model.findOneAndDelete({ formId })`. -/
def findOneAndDelete (docs : Collection) (formId : String) :
    Collection × Option Formulario :=
  removeFirst (fun d => d.formId == formId) docs

/-- The body of a `PUT /forms/:id` request; a field that is missing is
`none`. -/
structure PutBody where
  formDefinition : Option Json

/-- The handler `app.put('/forms/:id')` (server.js 225-260).  Returns the
collection as the handler leaves it, and the response. -/
def putForm (validId : String → Bool) (docs : Collection) (id : String) (body : PutBody) :
    Collection × Response :=
  match body.formDefinition with
  | none =>
    (docs, ⟨400, .message "Se requiere 'formDefinition' en el cuerpo de la petición."⟩)
  | some formDefinition =>
    if truthy formDefinition = false then
      (docs, ⟨400, .message "Se requiere 'formDefinition' en el cuerpo de la petición."⟩)
    else
      let byId := match findByIdAndUpdate validId docs id formDefinition with
        | .ok r => r
        | .error _ => (docs, none)
      match byId.2 with
      | some updatedForm => (byId.1, ⟨200, .document updatedForm⟩)
      | none =>
        let byFormId := findOneAndUpdate byId.1 id formDefinition
        match byFormId.2 with
        | some updatedForm => (byFormId.1, ⟨200, .document updatedForm⟩)
        | none => (byFormId.1, ⟨404, .message "Formulario no encontrado."⟩)

/-- The handler `app.delete('/forms/:id')` (server.js 283-305). -/
def deleteForm (validId : String → Bool) (docs : Collection) (id : String) :
    Collection × Response :=
  let byId := match findByIdAndDelete validId docs id with
    | .ok r => r
    | .error _ => (docs, none)
  match byId.2 with
  | some _ => (byId.1, ⟨200, .message "Formulario eliminado correctamente."⟩)
  | none =>
    let byFormId := findOneAndDelete byId.1 id
    match byFormId.2 with
    | some _ => (byFormId.1, ⟨200, .message "Formulario eliminado correctamente."⟩)
    | none => (byFormId.1, ⟨404, .message "Formulario no encontrado."⟩)

/-- The dual-key resolution as the spec words it (4.1, `findByEitherId`): the
document that `id` designates, with its place: the first whose storage id is
`id`, when `id` is a well-formed storage id and there is such a document, and
otherwise the first whose `formId` is `id`. -/
def resolve (validId : String → Bool) (docs : Collection) (id : String) :
    Option (Nat × Formulario) :=
  match (if validId id then firstMatch (fun d => d.id == id) docs else none) with
  | some r => some r
  | none => firstMatch (fun d => d.formId == id) docs

/-- What holds of the collection by construction of the store: the storage ids
are well formed and no two documents share one. -/
def StorageIdsOk (validId : String → Bool) (docs : Collection) : Prop :=
  (∀ d ∈ docs, validId d.id = true) ∧ (docs.map (fun d => d.id)).Nodup

/-- A request that changes the collection. -/
inductive Request where
  | post (newId : String) (now : Nat) (body : PostBody)
  | put (id : String) (body : PutBody)
  | delete (id : String)

/-- The handler of a request. -/
def handle (validId : String → Bool) (docs : Collection) : Request → Collection × Response
  | .post newId now body => postForms newId now docs body
  | .put id body => putForm validId docs id body
  | .delete id => deleteForm validId docs id

/-- The collection after a sequence of requests handled one after another. -/
def handleAll (validId : String → Bool) : Collection → List Request → Collection
  | docs, [] => docs
  | docs, r :: rest => handleAll validId (handle validId docs r).1 rest

/-- Every `POST` of the sequence draws a storage id that no stored document
has at that moment, as the store's generator of ids guarantees. -/
def drawsFreshIds (validId : String → Bool) : Collection → List Request → Bool
  | _, [] => true
  | docs, r :: rest =>
    (match r with
      | .post newId _ _ => docs.all (fun d => d.id != newId)
      | _ => true)
    && drawsFreshIds validId (handle validId docs r).1 rest

/-- The body that `POST /forms` receives when the builder page posts `formData`
(index.js 132-138): `JSON.stringify` leaves out a property that is
`undefined`, and the handler reads `formId` and `formDefinition` only, so that
`title` is dropped.  The handler is modelled for a `formId` that is a string;
for another value there is no body in the model. -/
def postBodyOf (formData : FormSelect.FormData) : Option PostBody :=
  match formData.formId with
  | none => some ⟨none, some formData.formDefinition⟩
  | some (.str formId) => some ⟨some formId, some formData.formDefinition⟩
  | some _ => none

/-- A collection holding the form `contact` under the storage id
`65f0c0ffee0000000000abcd`. -/
def sampleDocs : Collection :=
  [⟨"65f0c0ffee0000000000abcd", "contact", .obj [("title", .str "Contact")], 1700000000⟩]

/-- A collection in which the `formId` of the second document is the storage
id of the first. -/
def collidingDocs : Collection :=
  [⟨"65f0c0ffee0000000000abcd", "contact", .obj [("title", .str "Contact")], 1700000000⟩,
   ⟨"65f0c0ffee0000000000beef", "65f0c0ffee0000000000abcd",
      .obj [("title", .str "Survey")], 1700000600⟩]

/-- Storage ids as the sample uses them: strings of twenty-four characters. -/
def sampleValidId (id : String) : Bool := id.length == 24

/-- A session on the empty collection: `contact` is created, a second `POST`
with the same `formId` is refused, `survey` is created, `contact` is updated
through its `formId`, and `survey` is deleted through its storage id. -/
def sampleRequests : List Request :=
  [.post "65f0c0ffee0000000000abcd" 1700000000
      ⟨some "contact", some (.obj [("title", .str "Contact")])⟩,
   .post "65f0c0ffee0000000000beef" 1700000100
      ⟨some "contact", some (.obj [("title", .str "Again")])⟩,
   .post "65f0c0ffee0000000000cafe" 1700000200
      ⟨some "survey", some (.obj [("title", .str "Survey")])⟩,
   .put "contact" ⟨some (.obj [("title", .str "Contact v2")])⟩,
   .delete "65f0c0ffee0000000000cafe"]

end FormsApi

namespace FormSelect

/-! ## Properties and assignments -/

theorem lookup_setField_self (k : String) (v : Json) (fields : List (String × Json)) :
    (setField k v fields).lookup k = some v := by
  induction fields with
  | nil => simp [setField, List.lookup]
  | cons kv rest ih =>
    obtain ⟨k', v'⟩ := kv
    by_cases h : k' = k
    · simp [setField, h, List.lookup]
    · have h' : (k == k') = false := by simpa using fun e => h e.symm
      simp [setField, h, List.lookup, h', ih]

theorem lookup_setField_ne (k k' : String) (v : Json) (fields : List (String × Json))
    (hne : k' ≠ k) : (setField k v fields).lookup k' = fields.lookup k' := by
  induction fields with
  | nil =>
    have h' : (k' == k) = false := by simpa using hne
    simp [setField, List.lookup, h']
  | cons kv rest ih =>
    obtain ⟨k1, v1⟩ := kv
    by_cases h : k1 = k
    · subst h
      have h' : (k' == k1) = false := by simpa using hne
      simp [setField, List.lookup, h']
    · simp only [setField, h, if_false, List.lookup]
      cases hk : (k' == k1) <;> simp [ih]

theorem setField_lookup_same (k : String) (v : Json) (fields : List (String × Json))
    (h : fields.lookup k = some v) : setField k v fields = fields := by
  induction fields with
  | nil => simp [List.lookup] at h
  | cons kv rest ih =>
    obtain ⟨k1, v1⟩ := kv
    by_cases hk : k1 = k
    · subst hk
      simp [List.lookup] at h
      simp [setField, h]
    · have h' : (k == k1) = false := by simpa using fun e => hk e.symm
      simp only [List.lookup, h'] at h
      simp [setField, hk, ih h]

/-- The node block of `processFormComponents` writes `selectedFormId` and
`referencedFormDefinition` only. -/
theorem collectReference_lookup (dom : Dom) (fields : List (String × Json)) (k : String)
    (h1 : k ≠ "selectedFormId") (h2 : k ≠ "referencedFormDefinition") :
    (collectReference dom fields).lookup k = fields.lookup k := by
  unfold collectReference
  split
  · split
    · rfl
    · split
      · rfl
      · split
        · rfl
        · split
          · simp only []
            split
            · rw [lookup_setField_ne _ _ _ _ h2, lookup_setField_ne _ _ _ _ h1]
            · rw [lookup_setField_ne _ _ _ _ h1]
          · rfl
  · rfl

/-- The node block of `prepareFormComponentsForRender` writes `defaultValue`
only. -/
theorem restoreSelection_lookup (fields : List (String × Json)) (k : String)
    (h1 : k ≠ "defaultValue") :
    (restoreSelection fields).lookup k = fields.lookup k := by
  unfold restoreSelection
  split
  · split
    · rfl
    · split
      · rw [lookup_setField_ne _ _ _ _ h1]
      · rfl
  · rfl

/-! ## Unfolding the walk -/

theorem descend_nil (block : List (String × Json) → List (String × Json)) (s : Shape) :
    descend block s [] = ⟨none, [], none⟩ := by
  rw [descend]

theorem descend_cons (block : List (String × Json) → List (String × Json))
    (s : Shape) (k : String) (v : Json) (rest : List (String × Json)) :
    descend block s ((k, v) :: rest) =
      if k = s.name then
        if truthy v then enter block s v else ⟨none, [], none⟩
      else descend block s rest := by
  rw [descend]

theorem enter_arr (block : List (String × Json) → List (String × Json))
    (s : Shape) (xs : List Json) :
    enter block s (.arr xs) =
      ⟨some (.arr (forEach block s.callback 0 xs).value),
        (forEach block s.callback 0 xs).visited.map (Seg.field s :: ·),
        (forEach block s.callback 0 xs).error⟩ := by
  rw [enter]

theorem enter_other (block : List (String × Json) → List (String × Json))
    (s : Shape) (v : Json) (hv : ∀ xs, v ≠ .arr xs) :
    enter block s v =
      ⟨none, [], if s = .components then none else some .typeError⟩ := by
  cases s <;> cases v <;> first | exact absurd rfl (hv _) | simp [enter]

/-- The recursive call is the function itself: it leaves the same value in
the property, makes the same visits and ends the same way. -/
theorem enter_components (block : List (String × Json) → List (String × Json))
    (v : Json) :
    (enter block .components v).value.getD v = (walk block v).value
      ∧ (enter block .components v).visited =
        (walk block v).visited.map (Seg.field .components :: ·)
      ∧ (enter block .components v).error = (walk block v).error := by
  cases v <;> simp [enter, walk, Shape.callback]

/-! ## The order of the visits -/

theorem Seg.lt_irrefl (a : Seg) : Seg.lt a a = false := by
  cases a <;> simp [Seg.lt]

theorem Path.before_cons_same (a : Seg) (p q : Path) :
    Path.before (a :: p) (a :: q) = Path.before p q := by
  simp [Path.before, Seg.lt_irrefl]

theorem Path.before_irrefl (p : Path) : Path.before p p = false := by
  induction p with
  | nil => rfl
  | cons a p ih => rw [Path.before_cons_same, ih]

theorem pairwise_before_map (a : Seg) (l : List Path)
    (h : l.Pairwise (fun p q => Path.before p q = true)) :
    (l.map (a :: ·)).Pairwise (fun p q => Path.before p q = true) := by
  rw [List.pairwise_map]
  exact h.imp (fun h => by rw [Path.before_cons_same]; exact h)

theorem forEach_head (block : List (String × Json) → List (String × Json))
    (cb : Callback) (xs : List Json) :
    ∀ (i : Nat) (p : Path), p ∈ (forEach block cb i xs).visited →
      ∃ j q, p = Seg.item j :: q ∧ i ≤ j := by
  induction xs with
  | nil => intro i p hp; simp [forEach] at hp
  | cons x rest ih =>
    intro i p hp
    rw [forEach] at hp
    split at hp
    · simp only [List.mem_map] at hp
      obtain ⟨q, _, rfl⟩ := hp
      exact ⟨i, q, rfl, le_refl _⟩
    · simp only [List.mem_append, List.mem_map] at hp
      rcases hp with ⟨q, _, rfl⟩ | hp
      · exact ⟨i, q, rfl, le_refl _⟩
      · obtain ⟨j, q, rfl, hj⟩ := ih (i + 1) p hp
        exact ⟨j, q, rfl, by omega⟩

theorem enter_head (block : List (String × Json) → List (String × Json))
    (s : Shape) (v : Json) (p : Path) (hp : p ∈ (enter block s v).visited) :
    ∃ q, p = Seg.field s :: q := by
  by_cases hv : ∃ xs, v = .arr xs
  · obtain ⟨xs, rfl⟩ := hv
    rw [enter_arr] at hp
    simp only [List.mem_map] at hp
    obtain ⟨q, _, rfl⟩ := hp
    exact ⟨q, rfl⟩
  · rw [enter_other block s v (fun xs e => hv ⟨xs, e⟩)] at hp
    simp at hp

theorem descend_head (block : List (String × Json) → List (String × Json))
    (s : Shape) (fields : List (String × Json)) :
    ∀ p : Path, p ∈ (descend block s fields).visited → ∃ q, p = Seg.field s :: q := by
  induction fields with
  | nil => intro p hp; simp [descend_nil] at hp
  | cons kv rest ih =>
    obtain ⟨k, v⟩ := kv
    intro p hp
    rw [descend_cons] at hp
    split at hp
    · split at hp
      · exact enter_head block s v p hp
      · simp at hp
    · exact ih p hp

theorem before_of_heads (s t : Shape) (h : s.rank < t.rank) (l1 l2 : List Path)
    (h1 : ∀ p ∈ l1, ∃ q, p = Seg.field s :: q) (h2 : ∀ p ∈ l2, ∃ q, p = Seg.field t :: q) :
    ∀ a ∈ l1, ∀ b ∈ l2, Path.before a b = true := by
  intro a ha b hb
  obtain ⟨_, rfl⟩ := h1 a ha
  obtain ⟨_, rfl⟩ := h2 b hb
  simp [Path.before, Seg.lt, h]

mutual

theorem forEach_sorted (block : List (String × Json) → List (String × Json))
    (cb : Callback) : ∀ (i : Nat) (xs : List Json),
      (forEach block cb i xs).visited.Pairwise (fun a b => Path.before a b = true)
  | _, [] => by simp [forEach]
  | i, x :: rest => by
    have h1 := pairwise_before_map (Seg.item i) _ (call_sorted block cb x)
    rw [forEach]
    split
    · exact h1
    · simp only []
      rw [List.pairwise_append]
      refine ⟨h1, forEach_sorted block cb (i + 1) rest, ?_⟩
      intro a ha b hb
      simp only [List.mem_map] at ha
      obtain ⟨a', _, rfl⟩ := ha
      obtain ⟨j, q, rfl, hj⟩ := forEach_head block cb rest (i + 1) b hb
      have : i < j := by omega
      simp [Path.before, Seg.lt, this]

theorem call_sorted (block : List (String × Json) → List (String × Json)) :
    ∀ (cb : Callback) (c : Json),
      (call block cb c).visited.Pairwise (fun a b => Path.before a b = true)
  | .component, .null => by simp [call]
  | .component, .obj fields => by
    have h1 := descend_sorted block .components fields
    have h2 := descend_sorted block .rows fields
    have h3 := descend_sorted block .tabs fields
    have g1 := descend_head block .components fields
    have g2 := descend_head block .rows fields
    have g3 := descend_head block .tabs fields
    have first : ∀ l : List Path, (∀ p ∈ l, ∃ s q, p = Seg.field s :: q) →
        ∀ p ∈ l, Path.before [] p = true := by
      intro l hl p hp
      obtain ⟨s, q, rfl⟩ := hl p hp
      rfl
    have h12 := before_of_heads .components .rows (by decide) _ _ g1 g2
    have h13 := before_of_heads .components .tabs (by decide) _ _ g1 g3
    have h23 := before_of_heads .rows .tabs (by decide) _ _ g2 g3
    rw [call]
    split
    · rw [List.pairwise_cons]
      exact ⟨first _ (fun p hp => ⟨_, g1 p hp⟩), h1⟩
    · simp only []
      split
      · rw [List.pairwise_cons, List.pairwise_append]
        refine ⟨first _ ?_, h1, h2, h12⟩
        intro p hp
        rcases List.mem_append.mp hp with hp | hp
        · exact ⟨_, g1 p hp⟩
        · exact ⟨_, g2 p hp⟩
      · rw [List.pairwise_cons, List.pairwise_append, List.pairwise_append]
        refine ⟨first _ ?_, ⟨h1, h2, h12⟩, h3, ?_⟩
        · intro p hp
          rcases List.mem_append.mp hp with hp | hp
          · rcases List.mem_append.mp hp with hp | hp
            · exact ⟨_, g1 p hp⟩
            · exact ⟨_, g2 p hp⟩
          · exact ⟨_, g3 p hp⟩
        · intro a ha b hb
          rcases List.mem_append.mp ha with ha | ha
          · exact h13 a ha b hb
          · exact h23 a ha b hb
  | .component, .bool _ => by simp [call]
  | .component, .num _ => by simp [call]
  | .component, .str _ => by simp [call]
  | .component, .arr _ => by simp [call]
  | .row, .arr cols => by
    rw [call]
    exact forEach_sorted block .holder 0 cols
  | .row, .null => by simp [call]
  | .row, .bool _ => by simp [call]
  | .row, .num _ => by simp [call]
  | .row, .str _ => by simp [call]
  | .row, .obj _ => by simp [call]
  | .holder, .null => by simp [call]
  | .holder, .obj fields => by
    rw [call]
    exact descend_sorted block .components fields
  | .holder, .bool _ => by simp [call]
  | .holder, .num _ => by simp [call]
  | .holder, .str _ => by simp [call]
  | .holder, .arr _ => by simp [call]

theorem descend_sorted (block : List (String × Json) → List (String × Json))
    (s : Shape) : ∀ fields : List (String × Json),
      (descend block s fields).visited.Pairwise (fun a b => Path.before a b = true)
  | [] => by simp [descend_nil]
  | (k, v) :: rest => by
    rw [descend_cons]
    split
    · split
      · exact enter_sorted block s v
      · simp
    · exact descend_sorted block s rest

theorem enter_sorted (block : List (String × Json) → List (String × Json))
    (s : Shape) : ∀ v : Json,
      (enter block s v).visited.Pairwise (fun a b => Path.before a b = true)
  | .arr xs => by
    rw [enter_arr]
    exact pairwise_before_map _ _ (forEach_sorted block s.callback 0 xs)
  | .null => by rw [enter_other block s _ (by simp)]; simp
  | .bool _ => by rw [enter_other block s _ (by simp)]; simp
  | .num _ => by rw [enter_other block s _ (by simp)]; simp
  | .str _ => by rw [enter_other block s _ (by simp)]; simp
  | .obj _ => by rw [enter_other block s _ (by simp)]; simp

end

theorem walk_sorted (block : List (String × Json) → List (String × Json)) (v : Json) :
    (walk block v).visited.Pairwise (fun a b => Path.before a b = true) := by
  cases v with
  | arr components => exact forEach_sorted block .component 0 components
  | _ => simp [walk]

/-! ## The visits are the components of the schema -/

theorem isNodeRel_field_item (s : Shape) (j : Nat) (q : Path) :
    isNodeRel (Seg.field s :: Seg.item j :: q) = relFor s.callback q := by
  cases s with
  | components => simp [isNodeRel, isNodePath, relFor, Shape.callback]
  | rows =>
    match q with
    | [] => simp [isNodeRel, relFor, Shape.callback]
    | [.item _] => simp [isNodeRel, relFor, Shape.callback]
    | [.field _] => simp [isNodeRel, relFor, Shape.callback]
    | .field _ :: _ :: _ => simp [isNodeRel, relFor, Shape.callback]
    | .item _ :: .item _ :: _ => simp [isNodeRel, relFor, Shape.callback]
    | .item _ :: .field .components :: _ => simp [isNodeRel, relFor, Shape.callback]
    | .item _ :: .field .rows :: _ => simp [isNodeRel, relFor, Shape.callback]
    | .item _ :: .field .tabs :: _ => simp [isNodeRel, relFor, Shape.callback]
  | tabs =>
    match q with
    | [] => simp [isNodeRel, relFor, Shape.callback]
    | .item _ :: _ => simp [isNodeRel, relFor, Shape.callback]
    | .field .components :: _ => simp [isNodeRel, relFor, Shape.callback]
    | .field .rows :: _ => simp [isNodeRel, relFor, Shape.callback]
    | .field .tabs :: _ => simp [isNodeRel, relFor, Shape.callback]

theorem isNodeRel_field (s : Shape) (q : Path) (h : isNodeRel (Seg.field s :: q) = true) :
    ∃ j q', q = Seg.item j :: q' := by
  cases s with
  | components =>
    match q, h with
    | .item j :: q', _ => exact ⟨j, q', rfl⟩
    | [], h => simp [isNodeRel, isNodePath] at h
    | .field _ :: _, h => simp [isNodeRel, isNodePath] at h
  | rows =>
    match q, h with
    | .item j :: q', _ => exact ⟨j, q', rfl⟩
    | [], h => simp [isNodeRel] at h
    | .field _ :: _, h => simp [isNodeRel] at h
  | tabs =>
    match q, h with
    | .item j :: q', _ => exact ⟨j, q', rfl⟩
    | [], h => simp [isNodeRel] at h
    | .field _ :: _, h => simp [isNodeRel] at h

theorem relFor_row_item (j : Nat) (q : Path) :
    relFor .row (Seg.item j :: q) = relFor .holder q := by
  match q with
  | [] => simp [relFor]
  | .item _ :: _ => simp [relFor]
  | .field .components :: _ => simp [relFor]
  | .field .rows :: _ => simp [relFor]
  | .field .tabs :: _ => simp [relFor]

theorem relFor_row (q : Path) (h : relFor .row q = true) : ∃ j q', q = Seg.item j :: q' := by
  match q, h with
  | .item j :: q', _ => exact ⟨j, q', rfl⟩
  | [], h => simp [relFor] at h
  | .field _ :: _, h => simp [relFor] at h

theorem relFor_holder (q : Path) (h : relFor .holder q = true) :
    ∃ q', q = Seg.field .components :: q' ∧ isNodeRel q = true := by
  match q, h with
  | .field .components :: q', h => exact ⟨q', rfl, by simpa [relFor, isNodeRel] using h⟩
  | [], h => simp [relFor] at h
  | .item _ :: _, h => simp [relFor] at h
  | .field .rows :: _, h => simp [relFor] at h
  | .field .tabs :: _, h => simp [relFor] at h

theorem relFor_holder_of_nodeRel (q : Path) (h : isNodeRel (Seg.field .components :: q) = true) :
    relFor .holder (Seg.field .components :: q) = true := by
  simpa [relFor, isNodeRel] using h

theorem Json.at_nil (v : Json) : v.at [] = some v := rfl

theorem Json.at_arr_item (xs : List Json) (i : Nat) (q : Path) :
    (Json.arr xs).at (Seg.item i :: q) = (xs[i]?).bind (fun x => x.at q) := by
  simp only [Json.at, Json.step]
  cases xs[i]? <;> rfl

theorem Json.at_obj_field (fields : List (String × Json)) (s : Shape) (q : Path) :
    (Json.obj fields).at (Seg.field s :: q) = (fields.lookup s.name).bind (fun x => x.at q) := by
  simp only [Json.at, Json.step]
  cases fields.lookup s.name <;> rfl

theorem Json.at_item_of_not_arr (v : Json) (i : Nat) (q : Path) (hv : ∀ xs, v ≠ .arr xs) :
    v.at (Seg.item i :: q) = none := by
  cases v <;> first | exact absurd rfl (hv _) | rfl

mutual

theorem forEach_visited (block : List (String × Json) → List (String × Json))
    (cb : Callback) : ∀ (i : Nat) (xs : List Json) (p : Path),
      p ∈ (forEach block cb i xs).visited →
      ∃ j q x, p = Seg.item (i + j) :: q ∧ relFor cb q = true ∧ xs[j]? = some x
        ∧ (x.at q).isSome = true
  | _, [], p => by simp [forEach]
  | i, x :: rest, p => by
    intro hp
    have here : p ∈ (call block cb x).visited.map (Seg.item i :: ·) →
        ∃ j q y, p = Seg.item (i + j) :: q ∧ relFor cb q = true ∧ (x :: rest)[j]? = some y
          ∧ (y.at q).isSome = true := by
      intro h
      simp only [List.mem_map] at h
      obtain ⟨q, hq, rfl⟩ := h
      obtain ⟨h1, h2⟩ := call_visited block cb x q hq
      exact ⟨0, q, x, rfl, h1, by simp, h2⟩
    rw [forEach] at hp
    split at hp
    · exact here hp
    · simp only [List.mem_append] at hp
      rcases hp with hp | hp
      · exact here hp
      · obtain ⟨j, q, y, rfl, h1, h2, h3⟩ := forEach_visited block cb (i + 1) rest p hp
        refine ⟨j + 1, q, y, ?_, h1, ?_, h3⟩
        · congr 2; omega
        · simpa using h2

theorem call_visited (block : List (String × Json) → List (String × Json)) :
    ∀ (cb : Callback) (c : Json) (p : Path), p ∈ (call block cb c).visited →
      relFor cb p = true ∧ (c.at p).isSome = true
  | .component, .null, p => by
    intro hp; simp [call] at hp; subst hp; exact ⟨rfl, rfl⟩
  | .component, .obj fields, p => by
    intro hp
    have g : ∀ s, p ∈ (descend block s fields).visited →
        relFor .component p = true ∧ ((Json.obj fields).at p).isSome = true :=
      fun s h => descend_visited block s fields p h
    have hmem : p = [] ∨ p ∈ (descend block .components fields).visited
        ∨ p ∈ (descend block .rows fields).visited
        ∨ p ∈ (descend block .tabs fields).visited := by
      rw [call] at hp
      split at hp
      · simp only [List.mem_cons] at hp; tauto
      · simp only [] at hp
        split at hp
        · simp only [List.mem_cons, List.mem_append] at hp; tauto
        · simp only [List.mem_cons, List.mem_append] at hp; tauto
    rcases hmem with rfl | h | h | h
    · exact ⟨rfl, rfl⟩
    · exact g _ h
    · exact g _ h
    · exact g _ h
  | .component, .bool _, p => by
    intro hp; simp [call] at hp; subst hp; exact ⟨rfl, rfl⟩
  | .component, .num _, p => by
    intro hp; simp [call] at hp; subst hp; exact ⟨rfl, rfl⟩
  | .component, .str _, p => by
    intro hp; simp [call] at hp; subst hp; exact ⟨rfl, rfl⟩
  | .component, .arr _, p => by
    intro hp; simp [call] at hp; subst hp; exact ⟨rfl, rfl⟩
  | .row, .arr cols, p => by
    intro hp
    rw [call] at hp
    obtain ⟨j, q, y, rfl, h1, h2, h3⟩ := forEach_visited block .holder 0 cols p hp
    refine ⟨?_, ?_⟩
    · rw [relFor_row_item]; exact h1
    · rw [Json.at_arr_item]; simpa [h2] using h3
  | .row, .null, p => by simp [call]
  | .row, .bool _, p => by simp [call]
  | .row, .num _, p => by simp [call]
  | .row, .str _, p => by simp [call]
  | .row, .obj _, p => by simp [call]
  | .holder, .null, p => by simp [call]
  | .holder, .obj fields, p => by
    intro hp
    rw [call] at hp
    obtain ⟨q, rfl⟩ := descend_head block _ fields p hp
    obtain ⟨h1, h2⟩ := descend_visited block .components fields _ hp
    exact ⟨relFor_holder_of_nodeRel q h1, h2⟩
  | .holder, .bool _, p => by simp [call]
  | .holder, .num _, p => by simp [call]
  | .holder, .str _, p => by simp [call]
  | .holder, .arr _, p => by simp [call]

theorem descend_visited (block : List (String × Json) → List (String × Json))
    (s : Shape) : ∀ (fields : List (String × Json)) (p : Path),
      p ∈ (descend block s fields).visited →
      isNodeRel p = true ∧ ((Json.obj fields).at p).isSome = true
  | [], p => by simp [descend_nil]
  | (k, v) :: rest, p => by
    intro hp
    rw [descend_cons] at hp
    split at hp
    · rename_i hk
      split at hp
      · obtain ⟨q, rfl, h1, h2⟩ := enter_visited block s v p hp
        refine ⟨h1, ?_⟩
        rw [Json.at_obj_field]
        simpa [List.lookup, hk] using h2
      · simp at hp
    · rename_i hk
      obtain ⟨q, rfl⟩ := descend_head block s rest p hp
      obtain ⟨h1, h2⟩ := descend_visited block s rest _ hp
      refine ⟨h1, ?_⟩
      rw [Json.at_obj_field] at h2 ⊢
      have : (s.name == k) = false := by simpa using fun e => hk e.symm
      simpa [List.lookup, this] using h2

theorem enter_visited (block : List (String × Json) → List (String × Json))
    (s : Shape) : ∀ (v : Json) (p : Path), p ∈ (enter block s v).visited →
      ∃ q, p = Seg.field s :: q ∧ isNodeRel p = true ∧ (v.at q).isSome = true
  | .arr xs, p => by
    intro hp
    rw [enter_arr] at hp
    simp only [List.mem_map] at hp
    obtain ⟨q, hq, rfl⟩ := hp
    obtain ⟨j, q', y, rfl, h1, h2, h3⟩ := forEach_visited block s.callback 0 xs q hq
    refine ⟨_, rfl, ?_, ?_⟩
    · rw [isNodeRel_field_item]; exact h1
    · rw [Json.at_arr_item]; simpa [h2] using h3
  | .null, p => by rw [enter_other block s _ (by simp)]; simp
  | .bool _, p => by rw [enter_other block s _ (by simp)]; simp
  | .num _, p => by rw [enter_other block s _ (by simp)]; simp
  | .str _, p => by rw [enter_other block s _ (by simp)]; simp
  | .obj _, p => by rw [enter_other block s _ (by simp)]; simp

end

theorem walk_visited (block : List (String × Json) → List (String × Json)) (v : Json)
    (p : Path) (hp : p ∈ (walk block v).visited) :
    isNodePath p = true ∧ (v.at p).isSome = true := by
  cases v with
  | arr components =>
    obtain ⟨j, q, y, rfl, h1, h2, h3⟩ := forEach_visited block .component 0 components p hp
    refine ⟨?_, ?_⟩
    · simpa [isNodePath, relFor] using h1
    · rw [Json.at_arr_item]; simpa [h2] using h3
  | _ => simp [walk] at hp

/-! ## On a well-shaped schema the walk ends normally and misses no component -/

theorem shapedField_cons (s : Shape) (k : String) (v : Json) (rest : List (String × Json)) :
    shapedField s ((k, v) :: rest) =
      if k = s.name then
        if truthy v then shapedValue s v else true
      else shapedField s rest := by
  rw [shapedField]

theorem shapedValue_arr (s : Shape) (xs : List Json) :
    shapedValue s (.arr xs) = shapedAll s.callback xs := by
  rw [shapedValue]

theorem not_arr_of_falsy (v : Json) (h : ¬ truthy v = true) : ∀ xs, v ≠ .arr xs := by
  intro xs e
  subst e
  exact h rfl

mutual

theorem forEach_complete (block : List (String × Json) → List (String × Json))
    (cb : Callback) : ∀ (i : Nat) (xs : List Json), shapedAll cb xs = true →
      (forEach block cb i xs).error = none ∧
      ∀ j x q, xs[j]? = some x → relFor cb q = true → (x.at q).isSome = true →
        Seg.item (i + j) :: q ∈ (forEach block cb i xs).visited
  | _, [] => by
    intro _
    simp [forEach]
  | i, x :: rest => by
    intro h
    rw [shapedAll, Bool.and_eq_true] at h
    obtain ⟨e1, c1⟩ := call_complete block cb x h.1
    obtain ⟨e2, c2⟩ := forEach_complete block cb (i + 1) rest h.2
    rw [forEach]
    simp only [e1]
    refine ⟨e2, ?_⟩
    intro j y q hj hq hat
    rw [List.mem_append]
    cases j with
    | zero =>
      left
      simp only [List.getElem?_cons_zero, Option.some.injEq] at hj
      subst hj
      exact List.mem_map.mpr ⟨q, c1 q hq hat, rfl⟩
    | succ j =>
      right
      simp only [List.getElem?_cons_succ] at hj
      have := c2 j y q hj hq hat
      have e : i + (j + 1) = i + 1 + j := by omega
      rw [e]
      exact this

theorem call_complete (block : List (String × Json) → List (String × Json)) :
    ∀ (cb : Callback) (c : Json), shapedFor cb c = true →
      (call block cb c).error = none ∧
      ∀ p, relFor cb p = true → (c.at p).isSome = true → p ∈ (call block cb c).visited
  | .component, .null => by intro h; simp [shapedFor] at h
  | .component, .obj fields => by
    intro h
    rw [shapedFor, Bool.and_eq_true, Bool.and_eq_true] at h
    obtain ⟨e1, c1⟩ := descend_complete block .components fields h.1.1
    obtain ⟨e2, c2⟩ := descend_complete block .rows fields h.1.2
    obtain ⟨e3, c3⟩ := descend_complete block .tabs fields h.2
    rw [call]
    simp only [e1, e2]
    refine ⟨e3, ?_⟩
    intro p hp hat
    match p, hp, hat with
    | [], _, _ => exact List.mem_cons_self _ _
    | .field .components :: q, hp, hat =>
      exact List.mem_cons_of_mem _
        (List.mem_append_left _ (List.mem_append_left _ (c1 q hp hat)))
    | .field .rows :: q, hp, hat =>
      exact List.mem_cons_of_mem _
        (List.mem_append_left _ (List.mem_append_right _ (c2 q hp hat)))
    | .field .tabs :: q, hp, hat =>
      exact List.mem_cons_of_mem _ (List.mem_append_right _ (c3 q hp hat))
    | .item _ :: _, hp, _ => simp [relFor, isNodeRel] at hp
  | .component, .bool b => by
    intro _
    refine ⟨by simp [call], ?_⟩
    intro p hp hat
    match p, hat with
    | [], _ => simp [call]
    | _ :: _, hat => cases hat
  | .component, .num _ => by
    intro _
    refine ⟨by simp [call], ?_⟩
    intro p hp hat
    match p, hat with
    | [], _ => simp [call]
    | _ :: _, hat => cases hat
  | .component, .str _ => by
    intro _
    refine ⟨by simp [call], ?_⟩
    intro p hp hat
    match p, hat with
    | [], _ => simp [call]
    | _ :: _, hat => cases hat
  | .component, .arr _ => by
    intro _
    refine ⟨by simp [call], ?_⟩
    intro p hp hat
    match p, hp with
    | [], _ => simp [call]
    | .item _ :: _, hp => simp [relFor, isNodeRel] at hp
    | .field _ :: _, _ => cases hat
  | .row, .arr cols => by
    intro h
    rw [shapedFor] at h
    obtain ⟨e1, c1⟩ := forEach_complete block .holder 0 cols h
    rw [call]
    refine ⟨e1, ?_⟩
    intro p hp hat
    obtain ⟨j, q, rfl⟩ := relFor_row p hp
    rw [relFor_row_item] at hp
    rw [Json.at_arr_item] at hat
    cases hx : cols[j]? with
    | none => simp [hx] at hat
    | some x =>
      have := c1 j x q hx hp (by simpa [hx] using hat)
      simpa using this
  | .row, .null => by intro h; simp [shapedFor] at h
  | .row, .bool _ => by intro h; simp [shapedFor] at h
  | .row, .num _ => by intro h; simp [shapedFor] at h
  | .row, .str _ => by intro h; simp [shapedFor] at h
  | .row, .obj _ => by intro h; simp [shapedFor] at h
  | .holder, .null => by intro h; simp [shapedFor] at h
  | .holder, .obj fields => by
    intro h
    rw [shapedFor] at h
    obtain ⟨e1, c1⟩ := descend_complete block .components fields h
    rw [call]
    refine ⟨e1, ?_⟩
    intro p hp hat
    obtain ⟨q, rfl, hn⟩ := relFor_holder p hp
    exact c1 q hn hat
  | .holder, .bool _ => by
    intro _
    refine ⟨by simp [call], ?_⟩
    intro p hp hat
    obtain ⟨q, rfl, _⟩ := relFor_holder p hp
    cases hat
  | .holder, .num _ => by
    intro _
    refine ⟨by simp [call], ?_⟩
    intro p hp hat
    obtain ⟨q, rfl, _⟩ := relFor_holder p hp
    cases hat
  | .holder, .str _ => by
    intro _
    refine ⟨by simp [call], ?_⟩
    intro p hp hat
    obtain ⟨q, rfl, _⟩ := relFor_holder p hp
    cases hat
  | .holder, .arr _ => by
    intro _
    refine ⟨by simp [call], ?_⟩
    intro p hp hat
    obtain ⟨q, rfl, _⟩ := relFor_holder p hp
    cases hat

theorem descend_complete (block : List (String × Json) → List (String × Json))
    (s : Shape) : ∀ fields : List (String × Json), shapedField s fields = true →
      (descend block s fields).error = none ∧
      ∀ q, isNodeRel (Seg.field s :: q) = true →
        ((Json.obj fields).at (Seg.field s :: q)).isSome = true →
        Seg.field s :: q ∈ (descend block s fields).visited
  | [] => by
    intro _
    refine ⟨by simp [descend_nil], ?_⟩
    intro q _ hat
    simp [Json.at_obj_field, List.lookup] at hat
  | (k, v) :: rest => by
    intro h
    rw [shapedField_cons] at h
    rw [descend_cons]
    by_cases hk : k = s.name
    · simp only [hk, if_true] at h ⊢
      by_cases ht : truthy v = true
      · simp only [ht, if_true] at h ⊢
        obtain ⟨e1, c1⟩ := enter_complete block s v h
        refine ⟨e1, ?_⟩
        intro q hq hat
        rw [Json.at_obj_field] at hat
        exact c1 q hq (by simpa [List.lookup] using hat)
      · simp only [ht] at h ⊢
        refine ⟨rfl, ?_⟩
        intro q hq hat
        obtain ⟨j, q', rfl⟩ := isNodeRel_field s q hq
        rw [Json.at_obj_field] at hat
        simp [List.lookup, Json.at_item_of_not_arr v j q' (not_arr_of_falsy v ht)] at hat
    · simp only [hk, if_false] at h ⊢
      obtain ⟨e1, c1⟩ := descend_complete block s rest h
      refine ⟨e1, ?_⟩
      intro q hq hat
      apply c1 q hq
      rw [Json.at_obj_field] at hat ⊢
      have : (s.name == k) = false := by simpa using fun e => hk e.symm
      simpa [List.lookup, this] using hat

theorem enter_complete (block : List (String × Json) → List (String × Json))
    (s : Shape) : ∀ v : Json, shapedValue s v = true →
      (enter block s v).error = none ∧
      ∀ q, isNodeRel (Seg.field s :: q) = true → (v.at q).isSome = true →
        Seg.field s :: q ∈ (enter block s v).visited
  | .arr xs => by
    intro h
    rw [shapedValue_arr] at h
    obtain ⟨e1, c1⟩ := forEach_complete block s.callback 0 xs h
    rw [enter_arr]
    refine ⟨e1, ?_⟩
    intro q hq hat
    obtain ⟨j, q', rfl⟩ := isNodeRel_field s q hq
    rw [isNodeRel_field_item] at hq
    rw [Json.at_arr_item] at hat
    cases hx : xs[j]? with
    | none => simp [hx] at hat
    | some x =>
      have := c1 j x q' hx hq (by simpa [hx] using hat)
      exact List.mem_map.mpr ⟨_, by simpa using this, rfl⟩
  | .null => by
    intro h
    cases s <;> first | (simp [shapedValue] at h; done) | skip
    rw [enter_other block _ _ (by simp)]
    refine ⟨by simp, ?_⟩
    intro q hq hat
    obtain ⟨j, q', rfl⟩ := isNodeRel_field _ q hq
    cases hat
  | .bool _ => by
    intro h
    cases s <;> first | (simp [shapedValue] at h; done) | skip
    rw [enter_other block _ _ (by simp)]
    refine ⟨by simp, ?_⟩
    intro q hq hat
    obtain ⟨j, q', rfl⟩ := isNodeRel_field _ q hq
    cases hat
  | .num _ => by
    intro h
    cases s <;> first | (simp [shapedValue] at h; done) | skip
    rw [enter_other block _ _ (by simp)]
    refine ⟨by simp, ?_⟩
    intro q hq hat
    obtain ⟨j, q', rfl⟩ := isNodeRel_field _ q hq
    cases hat
  | .str _ => by
    intro h
    cases s <;> first | (simp [shapedValue] at h; done) | skip
    rw [enter_other block _ _ (by simp)]
    refine ⟨by simp, ?_⟩
    intro q hq hat
    obtain ⟨j, q', rfl⟩ := isNodeRel_field _ q hq
    cases hat
  | .obj _ => by
    intro h
    cases s <;> first | (simp [shapedValue] at h; done) | skip
    rw [enter_other block _ _ (by simp)]
    refine ⟨by simp, ?_⟩
    intro q hq hat
    obtain ⟨j, q', rfl⟩ := isNodeRel_field _ q hq
    cases hat

end

theorem walk_complete (block : List (String × Json) → List (String × Json)) (v : Json)
    (h : wellShaped v = true) :
    (walk block v).error = none ∧
    ∀ p, isNodePath p = true → (v.at p).isSome = true → p ∈ (walk block v).visited := by
  cases v with
  | arr components =>
    obtain ⟨e1, c1⟩ := forEach_complete block .component 0 components h
    refine ⟨e1, ?_⟩
    intro p hp hat
    match p, hp with
    | .item j :: q, hp =>
      rw [Json.at_arr_item] at hat
      cases hx : components[j]? with
      | none => simp [hx] at hat
      | some x =>
        have := c1 j x q hx (by simpa [isNodePath, relFor] using hp) (by simpa [hx] using hat)
        simpa [walk] using this
    | [], hp => simp [isNodePath] at hp
    | .field _ :: _, hp => simp [isNodePath] at hp
  | null => exact ⟨rfl, fun p hp hat => by
      match p, hp with
      | .item _ :: _, _ => cases hat
      | [], hp => simp [isNodePath] at hp
      | .field _ :: _, hp => simp [isNodePath] at hp⟩
  | bool _ => exact ⟨rfl, fun p hp hat => by
      match p, hp with
      | .item _ :: _, _ => cases hat
      | [], hp => simp [isNodePath] at hp
      | .field _ :: _, hp => simp [isNodePath] at hp⟩
  | num _ => exact ⟨rfl, fun p hp hat => by
      match p, hp with
      | .item _ :: _, _ => cases hat
      | [], hp => simp [isNodePath] at hp
      | .field _ :: _, hp => simp [isNodePath] at hp⟩
  | str _ => exact ⟨rfl, fun p hp hat => by
      match p, hp with
      | .item _ :: _, _ => cases hat
      | [], hp => simp [isNodePath] at hp
      | .field _ :: _, hp => simp [isNodePath] at hp⟩
  | obj _ => exact ⟨rfl, fun p hp hat => by
      match p, hp with
      | .item _ :: _, _ => cases hat
      | [], hp => simp [isNodePath] at hp
      | .field _ :: _, hp => simp [isNodePath] at hp⟩

/-! ## The walk ends normally only on a well-shaped schema -/

mutual

theorem forEach_shaped (block : List (String × Json) → List (String × Json))
    (cb : Callback) : ∀ (i : Nat) (xs : List Json),
      (forEach block cb i xs).error = none → shapedAll cb xs = true
  | _, [] => by intro _; rfl
  | i, x :: rest => by
    intro h
    rw [forEach] at h
    rw [shapedAll, Bool.and_eq_true]
    split at h
    · cases h
    · rename_i h1
      exact ⟨call_shaped block cb x h1, forEach_shaped block cb (i + 1) rest h⟩

theorem call_shaped (block : List (String × Json) → List (String × Json)) :
    ∀ (cb : Callback) (c : Json), (call block cb c).error = none → shapedFor cb c = true
  | .component, .null => by intro h; simp [call] at h
  | .component, .obj fields => by
    intro h
    rw [call] at h
    rw [shapedFor, Bool.and_eq_true, Bool.and_eq_true]
    split at h
    · cases h
    · rename_i h1
      simp only [] at h
      split at h
      · cases h
      · rename_i h2
        exact ⟨⟨descend_shaped block .components fields h1,
          descend_shaped block .rows fields h2⟩, descend_shaped block .tabs fields h⟩
  | .component, .bool _ => by intro _; rfl
  | .component, .num _ => by intro _; rfl
  | .component, .str _ => by intro _; rfl
  | .component, .arr _ => by intro _; rfl
  | .row, .arr cols => by
    intro h
    rw [call] at h
    rw [shapedFor]
    exact forEach_shaped block .holder 0 cols h
  | .row, .null => by intro h; simp [call] at h
  | .row, .bool _ => by intro h; simp [call] at h
  | .row, .num _ => by intro h; simp [call] at h
  | .row, .str _ => by intro h; simp [call] at h
  | .row, .obj _ => by intro h; simp [call] at h
  | .holder, .null => by intro h; simp [call] at h
  | .holder, .obj fields => by
    intro h
    rw [call] at h
    rw [shapedFor]
    exact descend_shaped block .components fields h
  | .holder, .bool _ => by intro _; rfl
  | .holder, .num _ => by intro _; rfl
  | .holder, .str _ => by intro _; rfl
  | .holder, .arr _ => by intro _; rfl

theorem descend_shaped (block : List (String × Json) → List (String × Json))
    (s : Shape) : ∀ fields : List (String × Json),
      (descend block s fields).error = none → shapedField s fields = true
  | [] => by intro _; rw [shapedField]
  | (k, v) :: rest => by
    intro h
    rw [descend_cons] at h
    rw [shapedField_cons]
    by_cases hk : k = s.name
    · simp only [hk, if_true] at h ⊢
      by_cases ht : truthy v = true
      · simp only [ht, if_true] at h ⊢
        exact enter_shaped block s v h
      · simp [ht]
    · simp only [hk, if_false] at h ⊢
      exact descend_shaped block s rest h

theorem enter_shaped (block : List (String × Json) → List (String × Json))
    (s : Shape) : ∀ v : Json, (enter block s v).error = none → shapedValue s v = true
  | .arr xs => by
    intro h
    rw [enter_arr] at h
    rw [shapedValue_arr]
    exact forEach_shaped block s.callback 0 xs h
  | .null => by
    intro h
    rw [enter_other block s _ (by simp)] at h
    cases s <;> first | rfl | (simp at h)
  | .bool _ => by
    intro h
    rw [enter_other block s _ (by simp)] at h
    cases s <;> first | rfl | (simp at h)
  | .num _ => by
    intro h
    rw [enter_other block s _ (by simp)] at h
    cases s <;> first | rfl | (simp at h)
  | .str _ => by
    intro h
    rw [enter_other block s _ (by simp)] at h
    cases s <;> first | rfl | (simp at h)
  | .obj _ => by
    intro h
    rw [enter_other block s _ (by simp)] at h
    cases s <;> first | rfl | (simp at h)

end

/-- The walk ends normally exactly on the well-shaped schemas, whatever the
node block. -/
theorem walk_error_none_iff (block : List (String × Json) → List (String × Json))
    (root : Json) : (walk block root).error = none ↔ wellShaped root = true := by
  refine ⟨?_, fun h => (walk_complete block root h).1⟩
  intro h
  cases root with
  | arr xs => exact forEach_shaped block .component 0 xs h
  | _ => rfl

/-! ## What the walk leaves at each place -/

theorem Shape.name_mem (s : Shape) : s.name ∈ descentNames := by
  cases s <;> simp [Shape.name, descentNames]

theorem own_setField (k : String) (w : Json) (fields : List (String × Json))
    (hk : k ∈ descentNames) (hex : fields.lookup k ≠ none) :
    (Json.obj (setField k w fields)).own = (Json.obj fields).own := by
  simp only [Json.own, Json.obj.injEq]
  induction fields with
  | nil => simp [List.lookup] at hex
  | cons kv rest ih =>
    obtain ⟨k1, v1⟩ := kv
    by_cases h : k1 = k
    · subst h
      simp [setField, hk]
    · have h' : (k == k1) = false := by simpa using fun e => h e.symm
      simp only [List.lookup, h'] at hex
      simp only [setField, h, if_false, List.map_cons, ih hex]

theorem own_store (s : Shape) (g : Option Json) (fields : List (String × Json))
    (hex : g ≠ none → fields.lookup s.name ≠ none) :
    (Json.obj (store s g fields)).own = (Json.obj fields).own := by
  cases g with
  | none => rfl
  | some w => exact own_setField _ w fields s.name_mem (hex (by simp))

theorem lookup_store_self (s : Shape) (g : Option Json) (v : Json)
    (fields : List (String × Json)) (h : fields.lookup s.name = some v) :
    (store s g fields).lookup s.name = some (g.getD v) := by
  cases g with
  | none => simpa [store] using h
  | some w => simp [store, lookup_setField_self]

theorem lookup_store_ne (s : Shape) (g : Option Json) (k : String)
    (fields : List (String × Json)) (h : k ≠ s.name) :
    (store s g fields).lookup k = fields.lookup k := by
  cases g with
  | none => rfl
  | some w => simp [store, lookup_setField_ne _ _ _ _ h]

theorem lookup_of_own_eq (f g : List (String × Json)) (k : String)
    (h : (Json.obj f).own = (Json.obj g).own) (hk : k ∉ descentNames) :
    f.lookup k = g.lookup k := by
  simp only [Json.own, Json.obj.injEq] at h
  induction f generalizing g with
  | nil =>
    cases g with
    | nil => rfl
    | cons _ _ => simp at h
  | cons kv rest ih =>
    cases g with
    | nil => simp at h
    | cons kv' rest' =>
      obtain ⟨k1, v1⟩ := kv
      obtain ⟨k2, v2⟩ := kv'
      simp only [List.map_cons, List.cons.injEq] at h
      obtain ⟨h1, h2⟩ := h
      have hkeys : k1 = k2 := by
        by_cases a : k1 ∈ descentNames <;> by_cases b : k2 ∈ descentNames <;>
          simp [a, b] at h1 <;> first | exact h1 | exact h1.1
      subst hkeys
      by_cases hkk : k = k1
      · subst hkk
        simp only [hk, if_false, Prod.mk.injEq, true_and] at h1
        simp [List.lookup, h1]
      · have h' : (k == k1) = false := by simpa using hkk
        simp only [List.lookup, h']
        exact ih rest' h2

theorem forEach_length (block : List (String × Json) → List (String × Json))
    (cb : Callback) (xs : List Json) :
    ∀ i : Nat, (forEach block cb i xs).value.length = xs.length := by
  induction xs with
  | nil => intro i; simp [forEach]
  | cons x rest ih =>
    intro i
    rw [forEach]
    split
    · simp
    · simp [ih]

theorem own_forEach (block : List (String × Json) → List (String × Json))
    (cb : Callback) (xs : List Json) (i : Nat) :
    (Json.arr (forEach block cb i xs).value).own = (Json.arr xs).own := by
  simp only [Json.own, Json.arr.injEq]
  apply List.ext_getElem
  · simp [forEach_length]
  · intro n h1 h2
    simp

theorem enter_value_getD (block : List (String × Json) → List (String × Json))
    (s : Shape) (v : Json) (hv : ∀ xs, v ≠ .arr xs) :
    (enter block s v).value.getD v = v := by
  rw [enter_other block s v hv]
  rfl

theorem descend_value (block : List (String × Json) → List (String × Json))
    (s : Shape) (fields : List (String × Json)) :
    (descend block s fields).value ≠ none → fields.lookup s.name ≠ none := by
  induction fields with
  | nil => simp [descend_nil]
  | cons kv rest ih =>
    obtain ⟨k, v⟩ := kv
    rw [descend_cons]
    by_cases hk : k = s.name
    · simp [hk, List.lookup]
    · have h' : (s.name == k) = false := by simpa using fun e => hk e.symm
      simpa [hk, List.lookup, h'] using ih

/-- The component callback on an object, with the three descents it may have
made: each is the descent itself or, when an earlier one threw, nothing. -/
theorem call_component_obj (block : List (String × Json) → List (String × Json))
    (fields : List (String × Json)) :
    ∃ o1 o2 o3 : Outcome (Option Json),
      (o1 = descend block .components fields ∨ o1 = ⟨none, [], none⟩) ∧
      (o2 = descend block .rows fields ∨ o2 = ⟨none, [], none⟩) ∧
      (o3 = descend block .tabs fields ∨ o3 = ⟨none, [], none⟩) ∧
      (call block .component (.obj fields)).value =
        .obj (store .tabs o3.value (store .rows o2.value
          (store .components o1.value (block fields)))) ∧
      (call block .component (.obj fields)).visited =
        [] :: (o1.visited ++ o2.visited ++ o3.visited) := by
  rw [call]
  split
  · exact ⟨_, ⟨none, [], none⟩, ⟨none, [], none⟩, Or.inl rfl, Or.inr rfl, Or.inr rfl,
      rfl, by simp⟩
  · simp only []
    split
    · exact ⟨_, _, ⟨none, [], none⟩, Or.inl rfl, Or.inl rfl, Or.inr rfl, rfl, by simp⟩
    · exact ⟨_, _, _, Or.inl rfl, Or.inl rfl, Or.inl rfl, rfl, rfl⟩

theorem Json.at_obj_field_some (fields : List (String × Json)) (s : Shape) (q : Path)
    (c : Json) (h : (Json.obj fields).at (Seg.field s :: q) = some c) :
    ∃ v, fields.lookup s.name = some v ∧ v.at q = some c := by
  rw [Json.at_obj_field] at h
  cases hv : fields.lookup s.name with
  | none => simp [hv] at h
  | some v => exact ⟨v, rfl, by simpa [hv] using h⟩

theorem Json.at_arr_item_some (xs : List Json) (j : Nat) (q : Path)
    (c : Json) (h : (Json.arr xs).at (Seg.item j :: q) = some c) :
    ∃ x, xs[j]? = some x ∧ x.at q = some c := by
  rw [Json.at_arr_item] at h
  cases hv : xs[j]? with
  | none => simp [hv] at h
  | some v => exact ⟨v, rfl, by simpa [hv] using h⟩

theorem goodDescent_of (block : List (String × Json) → List (String × Json))
    (fields : List (String × Json)) (s : Shape) (o : Outcome (Option Json))
    (ih : ∀ v q c, fields.lookup s.name = some v → v.at q = some c →
      ∃ c', ((descend block s fields).value.getD v).at q = some c' ∧
        c'.own = (if Seg.field s :: q ∈ (descend block s fields).visited
          then onNode block c else c).own)
    (h : o = descend block s fields ∨ o = ⟨none, [], none⟩) :
    GoodDescent block fields s o := by
  rcases h with rfl | rfl
  · exact ⟨descend_head block s fields, descend_value block s fields, ih⟩
  · refine ⟨by simp, by simp, ?_⟩
    intro v q c _ hc
    exact ⟨c, by simpa using hc, by simp⟩

theorem component_obj_loc (block : List (String × Json) → List (String × Json))
    (hb : ∀ (f : List (String × Json)) (s : Shape), (block f).lookup s.name = f.lookup s.name)
    (fields : List (String × Json))
    (ih : ∀ s v q c, fields.lookup s.name = some v → v.at q = some c →
      ∃ c', ((descend block s fields).value.getD v).at q = some c' ∧
        c'.own = (if Seg.field s :: q ∈ (descend block s fields).visited
          then onNode block c else c).own) :
    ∀ q c, (Json.obj fields).at q = some c →
      ∃ c', (call block .component (.obj fields)).value.at q = some c' ∧
        c'.own = (if q ∈ (call block .component (.obj fields)).visited
          then onNode block c else c).own := by
  obtain ⟨o1, o2, o3, h1, h2, h3, hval, hvis⟩ := call_component_obj block fields
  obtain ⟨a1, b1, c1⟩ := goodDescent_of block fields .components o1 (ih .components) h1
  obtain ⟨a2, b2, c2⟩ := goodDescent_of block fields .rows o2 (ih .rows) h2
  obtain ⟨a3, b3, c3⟩ := goodDescent_of block fields .tabs o3 (ih .tabs) h3
  rw [hval, hvis]
  intro q c hc
  match q, hc with
  | [], hc =>
    simp only [Json.at_nil, Option.some.injEq] at hc
    subst hc
    refine ⟨_, rfl, ?_⟩
    simp only [List.mem_cons, true_or, if_true, onNode]
    rw [own_store, own_store, own_store]
    · intro h; rw [hb]; exact b1 h
    · intro h; rw [lookup_store_ne _ _ _ _ (by decide), hb]; exact b2 h
    · intro h
      rw [lookup_store_ne _ _ _ _ (by decide), lookup_store_ne _ _ _ _ (by decide), hb]
      exact b3 h
  | .item _ :: _, hc => cases hc
  | .field .components :: q, hc =>
    obtain ⟨v, hv, hat⟩ := Json.at_obj_field_some _ _ _ _ hc
    obtain ⟨c', hc', hown⟩ := c1 v q c hv hat
    refine ⟨c', ?_, ?_⟩
    · rw [Json.at_obj_field, lookup_store_ne _ _ _ _ (by decide),
        lookup_store_ne _ _ _ _ (by decide),
        lookup_store_self _ _ v _ (by rw [hb]; exact hv)]
      simpa using hc'
    · rw [hown]
      have n2 : Seg.field Shape.components :: q ∉ o2.visited := by
        intro h; obtain ⟨_, e⟩ := a2 _ h; cases e
      have n3 : Seg.field Shape.components :: q ∉ o3.visited := by
        intro h; obtain ⟨_, e⟩ := a3 _ h; cases e
      simp [n2, n3]
  | .field .rows :: q, hc =>
    obtain ⟨v, hv, hat⟩ := Json.at_obj_field_some _ _ _ _ hc
    obtain ⟨c', hc', hown⟩ := c2 v q c hv hat
    refine ⟨c', ?_, ?_⟩
    · rw [Json.at_obj_field, lookup_store_ne _ _ _ _ (by decide),
        lookup_store_self _ _ v _
          (by rw [lookup_store_ne _ _ _ _ (by decide), hb]; exact hv)]
      simpa using hc'
    · rw [hown]
      have n1 : Seg.field Shape.rows :: q ∉ o1.visited := by
        intro h; obtain ⟨_, e⟩ := a1 _ h; cases e
      have n3 : Seg.field Shape.rows :: q ∉ o3.visited := by
        intro h; obtain ⟨_, e⟩ := a3 _ h; cases e
      simp [n1, n3]
  | .field .tabs :: q, hc =>
    obtain ⟨v, hv, hat⟩ := Json.at_obj_field_some _ _ _ _ hc
    obtain ⟨c', hc', hown⟩ := c3 v q c hv hat
    refine ⟨c', ?_, ?_⟩
    · rw [Json.at_obj_field,
        lookup_store_self _ _ v _
          (by rw [lookup_store_ne _ _ _ _ (by decide),
                lookup_store_ne _ _ _ _ (by decide), hb]; exact hv)]
      simpa using hc'
    · rw [hown]
      have n1 : Seg.field Shape.tabs :: q ∉ o1.visited := by
        intro h; obtain ⟨_, e⟩ := a1 _ h; cases e
      have n2 : Seg.field Shape.tabs :: q ∉ o2.visited := by
        intro h; obtain ⟨_, e⟩ := a2 _ h; cases e
      simp [n1, n2]

theorem holder_obj_loc (block : List (String × Json) → List (String × Json))
    (fields : List (String × Json))
    (ih : ∀ v q c, fields.lookup Shape.components.name = some v → v.at q = some c →
      ∃ c', ((descend block .components fields).value.getD v).at q = some c' ∧
        c'.own = (if Seg.field .components :: q ∈ (descend block .components fields).visited
          then onNode block c else c).own) :
    ∀ q c, (Json.obj fields).at q = some c →
      ∃ c', (call block .holder (.obj fields)).value.at q = some c' ∧
        c'.own = (if q ∈ (call block .holder (.obj fields)).visited
          then onNode block c else c).own := by
  have hd := descend_head block .components fields
  rw [call]
  intro q c hc
  match q, hc with
  | [], hc =>
    simp only [Json.at_nil, Option.some.injEq] at hc
    subst hc
    refine ⟨_, rfl, ?_⟩
    have n : ([] : Path) ∉ (descend block .components fields).visited := by
      intro h; obtain ⟨_, e⟩ := hd _ h; cases e
    simp only [n, if_false]
    exact own_store _ _ _ (descend_value block .components fields)
  | .item _ :: _, hc => cases hc
  | .field .components :: q, hc =>
    obtain ⟨v, hv, hat⟩ := Json.at_obj_field_some _ _ _ _ hc
    obtain ⟨c', hc', hown⟩ := ih v q c hv hat
    refine ⟨c', ?_, hown⟩
    rw [Json.at_obj_field, lookup_store_self _ _ v _ hv]
    simpa using hc'
  | .field .rows :: q, hc =>
    refine ⟨c, ?_, ?_⟩
    · rw [Json.at_obj_field, lookup_store_ne _ _ _ _ (by decide), ← Json.at_obj_field]
      exact hc
    · have n : Seg.field Shape.rows :: q ∉ (descend block .components fields).visited := by
        intro h; obtain ⟨_, e⟩ := hd _ h; cases e
      simp [n]
  | .field .tabs :: q, hc =>
    refine ⟨c, ?_, ?_⟩
    · rw [Json.at_obj_field, lookup_store_ne _ _ _ _ (by decide), ← Json.at_obj_field]
      exact hc
    · have n : Seg.field Shape.tabs :: q ∉ (descend block .components fields).visited := by
        intro h; obtain ⟨_, e⟩ := hd _ h; cases e
      simp [n]

theorem forEach_cons_loc (block : List (String × Json) → List (String × Json))
    (cb : Callback) (i : Nat) (x : Json) (rest : List Json)
    (ih1 : ∀ q c, x.at q = some c →
      ∃ c', (call block cb x).value.at q = some c' ∧
        c'.own = (if q ∈ (call block cb x).visited then onNode block c else c).own)
    (ih2 : ∀ j y q c, rest[j]? = some y → y.at q = some c →
      ∃ y' c', (forEach block cb (i + 1) rest).value[j]? = some y' ∧ y'.at q = some c' ∧
        c'.own = (if Seg.item (i + 1 + j) :: q ∈ (forEach block cb (i + 1) rest).visited
          then onNode block c else c).own) :
    ∀ j y q c, (x :: rest)[j]? = some y → y.at q = some c →
      ∃ y' c', (forEach block cb i (x :: rest)).value[j]? = some y' ∧ y'.at q = some c' ∧
        c'.own = (if Seg.item (i + j) :: q ∈ (forEach block cb i (x :: rest)).visited
          then onNode block c else c).own := by
  have hh := forEach_head block cb rest (i + 1)
  have memHere : ∀ (q : Path) (l : List Path),
      (Seg.item i :: q ∈ l.map (Seg.item i :: ·)) ↔ q ∈ l := by
    intro q l
    simp
  have notLater : ∀ q : Path, Seg.item i :: q ∉ (forEach block cb (i + 1) rest).visited := by
    intro q h
    obtain ⟨j, _, e, hj⟩ := hh _ h
    simp only [List.cons.injEq, Seg.item.injEq] at e
    omega
  have notHere : ∀ (j : Nat) (q : Path) (l : List Path),
      Seg.item (i + (j + 1)) :: q ∉ l.map (Seg.item i :: ·) := by
    intro j q l h
    simp only [List.mem_map, List.cons.injEq, Seg.item.injEq] at h
    obtain ⟨_, _, e, _⟩ := h
    omega
  intro j y q c hy hc
  rw [forEach]
  split
  · cases j with
    | zero =>
      simp only [List.getElem?_cons_zero, Option.some.injEq] at hy
      subst hy
      obtain ⟨c', h1, h2⟩ := ih1 q c hc
      refine ⟨_, c', by simp, h1, ?_⟩
      rw [h2]
      simp only [Nat.add_zero, memHere]
    | succ j =>
      simp only [List.getElem?_cons_succ] at hy
      refine ⟨y, c, by simpa using hy, hc, ?_⟩
      simp only [notHere, if_false]
  · cases j with
    | zero =>
      simp only [List.getElem?_cons_zero, Option.some.injEq] at hy
      subst hy
      obtain ⟨c', h1, h2⟩ := ih1 q c hc
      refine ⟨_, c', by simp, h1, ?_⟩
      rw [h2]
      simp only [Nat.add_zero, List.mem_append, notLater, or_false, memHere]
    | succ j =>
      simp only [List.getElem?_cons_succ] at hy
      obtain ⟨y', c', h0, h1, h2⟩ := ih2 j y q c hy hc
      refine ⟨y', c', by simpa using h0, h1, ?_⟩
      rw [h2]
      have e : i + 1 + j = i + (j + 1) := by omega
      simp only [List.mem_append, notHere, false_or, e]

mutual

theorem forEach_loc (block : List (String × Json) → List (String × Json))
    (hb : ∀ (f : List (String × Json)) (s : Shape), (block f).lookup s.name = f.lookup s.name)
    (cb : Callback) : ∀ (i : Nat) (xs : List Json) (j : Nat) (y : Json) (q : Path) (c : Json),
      xs[j]? = some y → y.at q = some c →
      ∃ y' c', (forEach block cb i xs).value[j]? = some y' ∧ y'.at q = some c' ∧
        c'.own = (if Seg.item (i + j) :: q ∈ (forEach block cb i xs).visited
          then onNode block c else c).own
  | _, [] => by
    intro j y q c hy
    simp at hy
  | i, x :: rest =>
    forEach_cons_loc block cb i x rest (call_loc block hb cb x)
      (forEach_loc block hb cb (i + 1) rest)

theorem call_loc (block : List (String × Json) → List (String × Json))
    (hb : ∀ (f : List (String × Json)) (s : Shape), (block f).lookup s.name = f.lookup s.name) :
    ∀ (cb : Callback) (c0 : Json) (q : Path) (c : Json), c0.at q = some c →
      ∃ c', (call block cb c0).value.at q = some c' ∧
        c'.own = (if q ∈ (call block cb c0).visited then onNode block c else c).own
  | .component, .obj fields =>
    component_obj_loc block hb fields (fun s => descend_loc block hb s fields)
  | .component, .null => by
    intro q c hc
    match q, hc with
    | [], hc => cases hc; exact ⟨_, rfl, by simp [call, onNode]⟩
    | _ :: _, hc => cases hc
  | .component, .bool _ => by
    intro q c hc
    match q, hc with
    | [], hc => cases hc; exact ⟨_, rfl, by simp [call, onNode]⟩
    | _ :: _, hc => cases hc
  | .component, .num _ => by
    intro q c hc
    match q, hc with
    | [], hc => cases hc; exact ⟨_, rfl, by simp [call, onNode]⟩
    | _ :: _, hc => cases hc
  | .component, .str _ => by
    intro q c hc
    match q, hc with
    | [], hc => cases hc; exact ⟨_, rfl, by simp [call, onNode]⟩
    | _ :: _, hc => cases hc
  | .component, .arr xs => by
    intro q c hc
    match q, hc with
    | [], hc => cases hc; exact ⟨_, rfl, by simp [call, onNode]⟩
    | .field _ :: _, hc => cases hc
    | .item j :: q, hc => exact ⟨c, by simpa [call] using hc, by simp [call]⟩
  | .row, .arr cols => by
    intro q c hc
    have hh := forEach_head block .holder cols 0
    rw [call]
    match q, hc with
    | [], hc =>
      cases hc
      refine ⟨_, rfl, ?_⟩
      have n : ([] : Path) ∉ (forEach block .holder 0 cols).visited := by
        intro h; obtain ⟨_, _, e, _⟩ := hh _ h; cases e
      simp only [n, if_false]
      exact own_forEach block .holder cols 0
    | .field _ :: _, hc => cases hc
    | .item j :: q, hc =>
      obtain ⟨y, hy, hat⟩ := Json.at_arr_item_some _ _ _ _ hc
      obtain ⟨y', c', h0, h1, h2⟩ := forEach_loc block hb .holder 0 cols j y q c hy hat
      refine ⟨c', ?_, ?_⟩
      · rw [Json.at_arr_item, h0]; simpa using h1
      · rw [h2]; simp
  | .row, .null => by intro q c hc; exact ⟨c, by simpa [call] using hc, by simp [call]⟩
  | .row, .bool _ => by intro q c hc; exact ⟨c, by simpa [call] using hc, by simp [call]⟩
  | .row, .num _ => by intro q c hc; exact ⟨c, by simpa [call] using hc, by simp [call]⟩
  | .row, .str _ => by intro q c hc; exact ⟨c, by simpa [call] using hc, by simp [call]⟩
  | .row, .obj _ => by intro q c hc; exact ⟨c, by simpa [call] using hc, by simp [call]⟩
  | .holder, .obj fields =>
    holder_obj_loc block fields (descend_loc block hb .components fields)
  | .holder, .null => by intro q c hc; exact ⟨c, by simpa [call] using hc, by simp [call]⟩
  | .holder, .bool _ => by intro q c hc; exact ⟨c, by simpa [call] using hc, by simp [call]⟩
  | .holder, .num _ => by intro q c hc; exact ⟨c, by simpa [call] using hc, by simp [call]⟩
  | .holder, .str _ => by intro q c hc; exact ⟨c, by simpa [call] using hc, by simp [call]⟩
  | .holder, .arr _ => by intro q c hc; exact ⟨c, by simpa [call] using hc, by simp [call]⟩

theorem descend_loc (block : List (String × Json) → List (String × Json))
    (hb : ∀ (f : List (String × Json)) (s : Shape), (block f).lookup s.name = f.lookup s.name)
    (s : Shape) : ∀ (fields : List (String × Json)) (v : Json) (q : Path) (c : Json),
      fields.lookup s.name = some v → v.at q = some c →
      ∃ c', ((descend block s fields).value.getD v).at q = some c' ∧
        c'.own = (if Seg.field s :: q ∈ (descend block s fields).visited
          then onNode block c else c).own
  | [] => by
    intro v q c hv
    simp [List.lookup] at hv
  | (k, w) :: rest => by
    intro v q c hv hc
    rw [descend_cons]
    by_cases hk : k = s.name
    · simp only [hk, List.lookup, beq_self_eq_true, Option.some.injEq] at hv
      subst hv
      simp only [hk, if_true]
      by_cases ht : truthy w = true
      · simp only [ht, if_true]
        exact enter_loc block hb s w q c hc
      · simp only [ht]
        exact ⟨c, by simpa using hc, by simp⟩
    · have h' : (s.name == k) = false := by simpa using fun e => hk e.symm
      simp only [List.lookup, h'] at hv
      simp only [hk, if_false]
      exact descend_loc block hb s rest v q c hv hc

theorem enter_loc (block : List (String × Json) → List (String × Json))
    (hb : ∀ (f : List (String × Json)) (s : Shape), (block f).lookup s.name = f.lookup s.name)
    (s : Shape) : ∀ (v : Json) (q : Path) (c : Json), v.at q = some c →
      ∃ c', ((enter block s v).value.getD v).at q = some c' ∧
        c'.own = (if Seg.field s :: q ∈ (enter block s v).visited
          then onNode block c else c).own
  | .arr xs => by
    intro q c hc
    have hh := forEach_head block s.callback xs 0
    rw [enter_arr]
    match q, hc with
    | [], hc =>
      cases hc
      refine ⟨_, rfl, ?_⟩
      have n : ([] : Path) ∉ (forEach block s.callback 0 xs).visited := by
        intro h; obtain ⟨_, _, e, _⟩ := hh _ h; cases e
      simp only [List.mem_map, List.cons.injEq, true_and, exists_eq_right, n, if_false]
      exact own_forEach block s.callback xs 0
    | .field _ :: _, hc => cases hc
    | .item j :: q, hc =>
      obtain ⟨y, hy, hat⟩ := Json.at_arr_item_some _ _ _ _ hc
      obtain ⟨y', c', h0, h1, h2⟩ := forEach_loc block hb s.callback 0 xs j y q c hy hat
      refine ⟨c', ?_, ?_⟩
      · simp only [Option.getD_some]
        rw [Json.at_arr_item, h0]; simpa using h1
      · rw [h2]; simp
  | .null => by
    intro q c hc
    rw [enter_other block s _ (by simp)]
    exact ⟨c, by simpa using hc, by simp⟩
  | .bool _ => by
    intro q c hc
    rw [enter_other block s _ (by simp)]
    exact ⟨c, by simpa using hc, by simp⟩
  | .num _ => by
    intro q c hc
    rw [enter_other block s _ (by simp)]
    exact ⟨c, by simpa using hc, by simp⟩
  | .str _ => by
    intro q c hc
    rw [enter_other block s _ (by simp)]
    exact ⟨c, by simpa using hc, by simp⟩
  | .obj _ => by
    intro q c hc
    rw [enter_other block s _ (by simp)]
    exact ⟨c, by simpa using hc, by simp⟩

end

/-- What the walk leaves at a place of its argument: at a place it visited, a
value that holds what the node block made of the original; at any other place,
a value that holds what the original held. -/
theorem walk_loc (block : List (String × Json) → List (String × Json))
    (hb : ∀ (f : List (String × Json)) (s : Shape), (block f).lookup s.name = f.lookup s.name)
    (root : Json) (q : Path) (c : Json) (hc : root.at q = some c) :
    ∃ c', (walk block root).value.at q = some c' ∧
      c'.own = (if q ∈ (walk block root).visited then onNode block c else c).own := by
  cases root with
  | arr xs =>
    have hh := forEach_head block .component xs 0
    match q, hc with
    | [], hc =>
      cases hc
      refine ⟨_, rfl, ?_⟩
      have n : ([] : Path) ∉ (walk block (.arr xs)).visited := by
        intro h; obtain ⟨_, _, e, _⟩ := hh _ h; cases e
      simp only [n, if_false]
      exact own_forEach block .component xs 0
    | .field _ :: _, hc => cases hc
    | .item j :: q, hc =>
      obtain ⟨y, hy, hat⟩ := Json.at_arr_item_some _ _ _ _ hc
      obtain ⟨y', c', h0, h1, h2⟩ := forEach_loc block hb .component 0 xs j y q c hy hat
      refine ⟨c', ?_, ?_⟩
      · simp only [walk]
        rw [Json.at_arr_item, h0]; simpa using h1
      · rw [h2]; simp [walk]
  | null => exact ⟨c, by simpa [walk] using hc, by simp [walk]⟩
  | bool _ => exact ⟨c, by simpa [walk] using hc, by simp [walk]⟩
  | num _ => exact ⟨c, by simpa [walk] using hc, by simp [walk]⟩
  | str _ => exact ⟨c, by simpa [walk] using hc, by simp [walk]⟩
  | obj _ => exact ⟨c, by simpa [walk] using hc, by simp [walk]⟩

/-! ## A walk whose node block changes no component changes nothing -/

theorem store_same (s : Shape) (o : Option Json) (fields : List (String × Json))
    (h1 : o ≠ none → fields.lookup s.name ≠ none)
    (h2 : ∀ v, fields.lookup s.name = some v → o.getD v = v) :
    store s o fields = fields := by
  cases o with
  | none => rfl
  | some w =>
    cases hv : fields.lookup s.name with
    | none => exact absurd hv (h1 (by simp))
    | some v =>
      have := h2 v hv
      simp only [Option.getD_some] at this
      subst this
      exact setField_lookup_same _ _ _ hv

theorem component_obj_same (block : List (String × Json) → List (String × Json))
    (fields : List (String × Json)) (hblock : block fields = fields)
    (ih : ∀ s v, fields.lookup s.name = some v → (descend block s fields).value.getD v = v) :
    (call block .component (.obj fields)).value = .obj fields := by
  obtain ⟨o1, o2, o3, h1, h2, h3, hval, _⟩ := call_component_obj block fields
  have key : ∀ (s : Shape) (o : Outcome (Option Json)),
      (o = descend block s fields ∨ o = ⟨none, [], none⟩) →
      store s o.value fields = fields := by
    intro s o h
    rcases h with rfl | rfl
    · exact store_same s _ fields (descend_value block s fields) (ih s)
    · rfl
  rw [hval, hblock, key _ o1 h1, key _ o2 h2, key _ o3 h3]

mutual

theorem forEach_same (block : List (String × Json) → List (String × Json))
    (cb : Callback) : ∀ (i : Nat) (xs : List Json),
      (∀ (j : Nat) (x : Json) (q : Path) (f : List (String × Json)),
        xs[j]? = some x → relFor cb q = true → x.at q = some (.obj f) → block f = f) →
      (forEach block cb i xs).value = xs
  | _, [] => by intro _; simp [forEach]
  | i, x :: rest => by
    intro h
    have e1 := call_same block cb x (fun q f hq hat => h 0 x q f (by simp) hq hat)
    have e2 := forEach_same block cb (i + 1) rest
      (fun j y q f hy hq hat => h (j + 1) y q f (by simpa using hy) hq hat)
    rw [forEach]
    split
    · simp [e1]
    · simp [e1, e2]

theorem call_same (block : List (String × Json) → List (String × Json)) :
    ∀ (cb : Callback) (c : Json),
      (∀ (q : Path) (f : List (String × Json)),
        relFor cb q = true → c.at q = some (.obj f) → block f = f) →
      (call block cb c).value = c
  | .component, .obj fields => by
    intro h
    refine component_obj_same block fields (h [] fields rfl rfl) ?_
    intro s v hv
    refine descend_same block s fields ?_ v hv
    intro v q f hv hq hat
    refine h (Seg.field s :: q) f hq ?_
    rw [Json.at_obj_field, hv]
    simpa using hat
  | .component, .null => by intro _; simp [call]
  | .component, .bool _ => by intro _; simp [call]
  | .component, .num _ => by intro _; simp [call]
  | .component, .str _ => by intro _; simp [call]
  | .component, .arr _ => by intro _; simp [call]
  | .row, .arr cols => by
    intro h
    rw [call]
    simp only [Json.arr.injEq]
    refine forEach_same block .holder 0 cols ?_
    intro j x q f hx hq hat
    refine h (Seg.item j :: q) f (by rw [relFor_row_item]; exact hq) ?_
    rw [Json.at_arr_item, hx]
    simpa using hat
  | .row, .null => by intro _; simp [call]
  | .row, .bool _ => by intro _; simp [call]
  | .row, .num _ => by intro _; simp [call]
  | .row, .str _ => by intro _; simp [call]
  | .row, .obj _ => by intro _; simp [call]
  | .holder, .obj fields => by
    intro h
    rw [call]
    simp only [Json.obj.injEq]
    refine store_same _ _ fields (descend_value block .components fields) ?_
    refine descend_same block .components fields ?_
    intro v q f hv hq hat
    refine h (Seg.field .components :: q) f (relFor_holder_of_nodeRel q hq) ?_
    rw [Json.at_obj_field, hv]
    simpa using hat
  | .holder, .null => by intro _; simp [call]
  | .holder, .bool _ => by intro _; simp [call]
  | .holder, .num _ => by intro _; simp [call]
  | .holder, .str _ => by intro _; simp [call]
  | .holder, .arr _ => by intro _; simp [call]

theorem descend_same (block : List (String × Json) → List (String × Json))
    (s : Shape) : ∀ fields : List (String × Json),
      (∀ (v : Json) (q : Path) (f : List (String × Json)),
        fields.lookup s.name = some v → isNodeRel (Seg.field s :: q) = true →
        v.at q = some (.obj f) → block f = f) →
      ∀ v, fields.lookup s.name = some v → (descend block s fields).value.getD v = v
  | [] => by
    intro _ v hv
    simp [List.lookup] at hv
  | (k, w) :: rest => by
    intro h v hv
    rw [descend_cons]
    by_cases hk : k = s.name
    · have hw : ((k, w) :: rest).lookup s.name = some w := by simp [List.lookup, hk]
      rw [hw] at hv
      simp only [Option.some.injEq] at hv
      subst hv
      simp only [hk, if_true]
      by_cases ht : truthy w = true
      · simp only [ht, if_true]
        exact enter_same block s w (fun q f hq hat => h w q f hw hq hat)
      · simp [ht]
    · have h' : (s.name == k) = false := by simpa using fun e => hk e.symm
      simp only [hk, if_false]
      refine descend_same block s rest ?_ v (by simpa [List.lookup, h'] using hv)
      intro v' q f hv' hq hat
      exact h v' q f (by simpa [List.lookup, h'] using hv') hq hat

theorem enter_same (block : List (String × Json) → List (String × Json))
    (s : Shape) : ∀ v : Json,
      (∀ (q : Path) (f : List (String × Json)),
        isNodeRel (Seg.field s :: q) = true → v.at q = some (.obj f) → block f = f) →
      (enter block s v).value.getD v = v
  | .arr xs => by
    intro h
    rw [enter_arr]
    simp only [Option.getD_some, Json.arr.injEq]
    refine forEach_same block s.callback 0 xs ?_
    intro j x q f hx hq hat
    refine h (Seg.item j :: q) f (by rw [isNodeRel_field_item]; exact hq) ?_
    rw [Json.at_arr_item, hx]
    simpa using hat
  | .null => by intro _; exact enter_value_getD block s _ (by simp)
  | .bool _ => by intro _; exact enter_value_getD block s _ (by simp)
  | .num _ => by intro _; exact enter_value_getD block s _ (by simp)
  | .str _ => by intro _; exact enter_value_getD block s _ (by simp)
  | .obj _ => by intro _; exact enter_value_getD block s _ (by simp)

end

theorem walk_same (block : List (String × Json) → List (String × Json)) (root : Json)
    (h : ∀ (p : Path) (f : List (String × Json)),
      isNodePath p = true → root.at p = some (.obj f) → block f = f) :
    (walk block root).value = root := by
  cases root with
  | arr xs =>
    simp only [walk, Json.arr.injEq]
    refine forEach_same block .component 0 xs ?_
    intro j x q f hx hq hat
    refine h (Seg.item j :: q) f (by simpa [isNodePath, relFor] using hq) ?_
    rw [Json.at_arr_item, hx]
    simpa using hat
  | _ => rfl

/-! ## The two walks -/

theorem collectReference_frame (dom : Dom) (f : List (String × Json)) (s : Shape) :
    (collectReference dom f).lookup s.name = f.lookup s.name := by
  cases s <;> exact collectReference_lookup dom f _ (by decide) (by decide)

theorem restoreSelection_frame (f : List (String × Json)) (s : Shape) :
    (restoreSelection f).lookup s.name = f.lookup s.name := by
  cases s <;> exact restoreSelection_lookup f _ (by decide)

theorem own_eq_obj (c : Json) (g : List (String × Json))
    (h : c.own = (Json.obj g).own) : ∃ f, c = .obj f := by
  cases c with
  | obj f => exact ⟨f, rfl⟩
  | _ => simp [Json.own] at h

theorem collectReference_selected (dom : Dom) (fields : List (String × Json))
    (el : Element) (w : Widget) (sid : Json)
    (htype : isFormSelect fields = true)
    (hel : dom (fields.lookup "key") = some el)
    (hw : el.component = some w)
    (hsid : w.component.lookup "selectedFormId" = some sid)
    (htruthy : truthy sid = true) :
    (collectReference dom fields).lookup "selectedFormId" = some sid ∧
    (truthy? (fields.lookup "storeReference") = true →
      truthy w.selectedFormDefinition = true →
      (collectReference dom fields).lookup "referencedFormDefinition"
        = some w.selectedFormDefinition) := by
  have hstore : (setField "selectedFormId" sid fields).lookup "storeReference"
      = fields.lookup "storeReference" := lookup_setField_ne _ _ _ _ (by decide)
  refine ⟨?_, ?_⟩
  · simp only [collectReference, htype, if_true, hel, hw, hsid, htruthy, hstore]
    split
    · rw [lookup_setField_ne _ _ _ _ (by decide), lookup_setField_self]
    · exact lookup_setField_self _ _ _
  · intro h1 h2
    simp only [collectReference, htype, if_true, hel, hw, hsid, htruthy, hstore, h1, h2,
      Bool.and_self]
    exact lookup_setField_self _ _ _

theorem collectReference_idle (dom : Dom) (fields : List (String × Json))
    (h : dom (fields.lookup "key") = none
      ∨ (∃ el, dom (fields.lookup "key") = some el ∧ el.component = none)
      ∨ (∃ el w, dom (fields.lookup "key") = some el ∧ el.component = some w
          ∧ truthy? (w.component.lookup "selectedFormId") = false)) :
    collectReference dom fields = fields := by
  unfold collectReference
  split
  · rcases h with h | ⟨el, h1, h2⟩ | ⟨el, w, h1, h2, h3⟩
    · simp [h]
    · simp [h1, h2]
    · simp only [h1, h2]
      cases hs : w.component.lookup "selectedFormId" with
      | none => rfl
      | some sid =>
        simp only [hs, truthy?] at h3
        simp [h3]
  · rfl

theorem restoreSelection_selected (fields : List (String × Json)) (sid : Json)
    (htype : isFormSelect fields = true)
    (hsid : fields.lookup "selectedFormId" = some sid) (htruthy : truthy sid = true) :
    restoreSelection fields = setField "defaultValue" sid fields := by
  simp [restoreSelection, htype, hsid, htruthy]

theorem restoreSelection_idle (fields : List (String × Json))
    (h : (isFormSelect fields && truthy? (fields.lookup "selectedFormId")) = false) :
    restoreSelection fields = fields := by
  unfold restoreSelection
  split
  · rename_i ht
    simp only [ht, Bool.true_and] at h
    cases hs : fields.lookup "selectedFormId" with
    | none => rfl
    | some sid =>
      simp only [hs, truthy?] at h
      simp [h]
  · rfl

theorem descend_absent (block : List (String × Json) → List (String × Json))
    (s : Shape) (fields : List (String × Json)) (h : truthy? (fields.lookup s.name) = false) :
    descend block s fields = ⟨none, [], none⟩ := by
  induction fields with
  | nil => exact descend_nil block s
  | cons kv rest ih =>
    obtain ⟨k, v⟩ := kv
    rw [descend_cons]
    by_cases hk : k = s.name
    · simp only [hk, List.lookup, beq_self_eq_true, truthy?] at h
      simp [hk, h]
    · have h' : (s.name == k) = false := by simpa using fun e => hk e.symm
      simp only [List.lookup, h'] at h
      simp only [hk, if_false]
      exact ih h

/-- C1. `processFormComponents` (the spec's `collectReferences`): a visited node
of type `formselect` whose live instance holds a non-empty `selectedFormId` ends
with that `selectedFormId`, and, when its `storeReference` is truthy and the
instance holds a definition, with that definition as
`referencedFormDefinition`.  This holds for every schema and every document,
also when the walk throws later on. -/
theorem processFormComponents_collects (dom : Dom) (root : Json) (p : Path)
    (fields : List (String × Json)) (el : Element) (w : Widget) (sid : Json)
    (hvisited : p ∈ (processFormComponents dom root).visited)
    (hnode : root.at p = some (.obj fields))
    (htype : isFormSelect fields = true)
    (hel : dom (fields.lookup "key") = some el)
    (hw : el.component = some w)
    (hsid : w.component.lookup "selectedFormId" = some sid)
    (htruthy : truthy sid = true) :
    ∃ fields', (processFormComponents dom root).value.at p = some (.obj fields') ∧
      fields'.lookup "selectedFormId" = some sid ∧
      (truthy? (fields.lookup "storeReference") = true →
        truthy w.selectedFormDefinition = true →
        fields'.lookup "referencedFormDefinition" = some w.selectedFormDefinition) := by
  obtain ⟨c', hc', hown⟩ :=
    walk_loc (collectReference dom) (collectReference_frame dom) root p _ hnode
  have hv : p ∈ (walk (collectReference dom) root).visited := hvisited
  simp only [hv, if_true, onNode] at hown
  obtain ⟨f', rfl⟩ := own_eq_obj c' _ hown
  obtain ⟨h1, h2⟩ := collectReference_selected dom fields el w sid htype hel hw hsid htruthy
  refine ⟨f', hc', ?_, ?_⟩
  · rw [lookup_of_own_eq _ _ _ hown (by decide)]; exact h1
  · intro a b
    rw [lookup_of_own_eq _ _ _ hown (by decide)]; exact h2 a b

theorem processFormComponents_collects_witness :
    ∃ fields', (processFormComponents sampleDom sampleSchema).value.at [.item 0]
        = some (.obj fields') ∧
      fields'.lookup "selectedFormId" = some (.str "contact") ∧
      (truthy? (some (.bool true)) = true →
        truthy (.obj [("title", .str "Contact")]) = true →
        fields'.lookup "referencedFormDefinition"
          = some (.obj [("title", .str "Contact")])) :=
  processFormComponents_collects sampleDom sampleSchema [.item 0]
    [("type", .str "formselect"), ("key", .str "pick"), ("storeReference", .bool true)]
    ⟨some ⟨[("key", .str "pick"), ("selectedFormId", .str "contact")],
      .obj [("title", .str "Contact")]⟩⟩
    ⟨[("key", .str "pick"), ("selectedFormId", .str "contact")],
      .obj [("title", .str "Contact")]⟩
    (.str "contact") (by decide) rfl (by decide) rfl rfl rfl (by decide)

/-- What `prepareFormComponentsForRender` (the spec's `prepareForRender`) does
on a well-shaped schema.  It returns normally, and at every place `p` of the
schema, with `c` the value found there: if `p` is the place of a component
(reached through any mix of `components`, `rows` and `tabs`) that is a
`formselect` object with a truthy `selectedFormId`, the value left there has
`defaultValue` equal to that `selectedFormId` and otherwise the same own
content as `c`; at every other place the value left has the same own content
as `c` (`Json.own`: the same properties in the same order with the same values
outside the child-holding ones, the same length for an array, the same value
otherwise). -/
theorem prepareFormComponentsForRender_restores (root : Json)
    (hshape : wellShaped root = true) (p : Path) (c : Json)
    (hat : root.at p = some c) :
    (prepareFormComponentsForRender root).error = none ∧
    ∃ c', (prepareFormComponentsForRender root).value.at p = some c' ∧
      (∀ (f : List (String × Json)) (sid : Json), isNodePath p = true → c = .obj f →
        isFormSelect f = true → f.lookup "selectedFormId" = some sid → truthy sid = true →
        c'.get? "defaultValue" = some sid ∧
          c'.own = (Json.obj (setField "defaultValue" sid f)).own) ∧
      ((isNodePath p = true → ∀ f : List (String × Json), c = .obj f →
          (isFormSelect f && truthy? (f.lookup "selectedFormId")) = false) →
        c'.own = c.own) := by
  obtain ⟨herr, hall⟩ := walk_complete restoreSelection root hshape
  obtain ⟨c', hc', hown⟩ := walk_loc restoreSelection restoreSelection_frame root p c hat
  refine ⟨herr, c', hc', ?_, ?_⟩
  · intro f sid hp hf htype hsid htruthy
    subst hf
    have hv := hall p hp (by simp [hat])
    simp only [hv, if_true, onNode,
      restoreSelection_selected f sid htype hsid htruthy] at hown
    obtain ⟨f', rfl⟩ := own_eq_obj c' _ hown
    refine ⟨?_, hown⟩
    simp only [Json.get?]
    rw [lookup_of_own_eq _ _ _ hown (by decide), lookup_setField_self]
  · intro hother
    by_cases hv : p ∈ (walk restoreSelection root).visited
    · simp only [hv, if_true] at hown
      rw [hown]
      cases c with
      | obj f =>
        have hp := (walk_visited restoreSelection root p hv).1
        simp only [onNode, restoreSelection_idle f (hother hp f rfl)]
      | _ => rfl
    · simpa only [hv, if_false] using hown

/-- In the sample schema the selector in the table cell, which has the form
`survey` stored, ends with `defaultValue` `survey`. -/
theorem prepareFormComponentsForRender_restores_sample :
    ∃ c', (prepareFormComponentsForRender sampleSchema).value.at
        [.item 1, .field .rows, .item 0, .item 0, .field .components, .item 0] = some c' ∧
      c'.get? "defaultValue" = some (.str "survey") := by
  obtain ⟨_, c', h1, h2, _⟩ := prepareFormComponentsForRender_restores sampleSchema
    (by decide) [.item 1, .field .rows, .item 0, .item 0, .field .components, .item 0] _ rfl
  exact ⟨c', h1, (h2 _ (.str "survey") (by decide) rfl (by decide) rfl (by decide)).1⟩

/-- C2, the code at the failing input.  On the schema of a text area followed
by a selector with the form `contact` stored, `prepareFormComponentsForRender`
throws a `TypeError` in the callback for the text area, whose `rows` is the
number 3: that callback is its only visit, the schema is left as it was, and
the selector, a `formselect` with a non-empty `selectedFormId`, ends without a
`defaultValue`. -/
theorem prepareFormComponentsForRender_stops_at_rows :
    (prepareFormComponentsForRender textAreaSchema).error = some .typeError ∧
    (prepareFormComponentsForRender textAreaSchema).visited = [[.item 0]] ∧
    (prepareFormComponentsForRender textAreaSchema).value = textAreaSchema ∧
    textAreaSchema.at [.item 1] =
      some (.obj [("type", .str "formselect"), ("key", .str "pick"),
        ("selectedFormId", .str "contact")]) ∧
    ((prepareFormComponentsForRender textAreaSchema).value.at [.item 1]).bind
      (fun c => c.get? "defaultValue") = none := by
  refine ⟨?_, ?_, ?_, ?_, ?_⟩ <;> rfl

/-- C3, the code at the failing input.  `processFormComponents` returns
normally exactly on the well-shaped schemas.  It tolerates a `components` that
is not an array, but on a node whose `rows` is a number (a text area's
`rows: 3`) or whose `tabs` is a string, on a row that is not an array and on a
column that is `null` it throws a `TypeError`, whatever the document. -/
theorem processFormComponents_throws (dom : Dom) :
    (∀ root : Json, (processFormComponents dom root).error = none ↔ wellShaped root = true) ∧
    (processFormComponents dom
      (.arr [.obj [("type", .str "panel"), ("components", .num 3)]])).error = none ∧
    (processFormComponents dom
      (.arr [.obj [("type", .str "textarea"), ("key", .str "notes"), ("rows", .num 3)]])).error
        = some .typeError ∧
    (processFormComponents dom
      (.arr [.obj [("type", .str "tabs"), ("tabs", .str "none")]])).error
        = some .typeError ∧
    (processFormComponents dom
      (.arr [.obj [("type", .str "table"), ("rows", .arr [.num 1])]])).error
        = some .typeError ∧
    (processFormComponents dom
      (.arr [.obj [("type", .str "table"), ("rows", .arr [.arr [.null]])]])).error
        = some .typeError := by
  refine ⟨fun root => walk_error_none_iff _ root, ?_, ?_, ?_, ?_, ?_⟩ <;> rfl

/-- On a well-shaped schema, one that nests through `components`, `rows` and
`tabs` in any mix and on which the walks do not throw, both walks return
normally and visit every component exactly once: no place occurs twice among
the visits, and a place is visited if and only if it is the place of a
component of the schema. -/
theorem walks_visit_every_component_once (dom : Dom) (root : Json)
    (hshape : wellShaped root = true) :
    ((processFormComponents dom root).error = none ∧
      (processFormComponents dom root).visited.Nodup ∧
      ∀ p, p ∈ (processFormComponents dom root).visited ↔
        (isNodePath p = true ∧ (root.at p).isSome = true)) ∧
    ((prepareFormComponentsForRender root).error = none ∧
      (prepareFormComponentsForRender root).visited.Nodup ∧
      ∀ p, p ∈ (prepareFormComponentsForRender root).visited ↔
        (isNodePath p = true ∧ (root.at p).isSome = true)) := by
  have key : ∀ block : List (String × Json) → List (String × Json),
      (walk block root).error = none ∧ (walk block root).visited.Nodup ∧
      ∀ p, p ∈ (walk block root).visited ↔
        (isNodePath p = true ∧ (root.at p).isSome = true) := by
    intro block
    obtain ⟨herr, hall⟩ := walk_complete block root hshape
    refine ⟨herr, ?_, fun p => ⟨walk_visited block root p, fun h => hall p h.1 h.2⟩⟩
    refine (walk_sorted block root).imp ?_
    intro a b hab e
    subst e
    rw [Path.before_irrefl] at hab
    cases hab
  exact ⟨key _, key _⟩

theorem walks_visit_every_component_once_witness :
    ((processFormComponents sampleDom sampleSchema).error = none ∧
      (processFormComponents sampleDom sampleSchema).visited.Nodup ∧
      ∀ p, p ∈ (processFormComponents sampleDom sampleSchema).visited ↔
        (isNodePath p = true ∧ (sampleSchema.at p).isSome = true)) ∧
    ((prepareFormComponentsForRender sampleSchema).error = none ∧
      (prepareFormComponentsForRender sampleSchema).visited.Nodup ∧
      ∀ p, p ∈ (prepareFormComponentsForRender sampleSchema).visited ↔
        (isNodePath p = true ∧ (sampleSchema.at p).isSome = true)) :=
  walks_visit_every_component_once sampleDom sampleSchema (by decide)

/-- The visits of both walks come in depth-first pre-order: the sequence
of visits is strictly increasing in the order in which a place comes before
every place below it, the subtree under `components` before the one under
`rows` before the one under `tabs`, and within a list (of components, of rows,
of the columns of a row, of tabs) the subtree of an earlier element before that
of a later one. -/
theorem walks_visit_in_preorder (dom : Dom) (root : Json) :
    (processFormComponents dom root).visited.Pairwise
        (fun a b => Path.before a b = true) ∧
    (prepareFormComponentsForRender root).visited.Pairwise
        (fun a b => Path.before a b = true) :=
  ⟨walk_sorted _ root, walk_sorted _ root⟩

/-- C6. `prepareFormComponentsForRender`, run on the schema as
`processFormComponents` left it, changes no `selectedFormId`: every object of
the schema is still an object at the same place, with the same
`selectedFormId`. -/
theorem prepare_after_process_keeps_selectedFormId (dom : Dom) (tree : Json) (p : Path)
    (f : List (String × Json))
    (hat : (processFormComponents dom tree).value.at p = some (.obj f)) :
    ∃ f', (prepareFormComponentsForRender (processFormComponents dom tree).value).value.at p
        = some (.obj f') ∧
      f'.lookup "selectedFormId" = f.lookup "selectedFormId" := by
  obtain ⟨c', hc', hown⟩ := walk_loc restoreSelection restoreSelection_frame _ p _ hat
  have hown' : c'.own = (Json.obj f).own ∨ c'.own = (Json.obj (restoreSelection f)).own := by
    by_cases hv : p ∈ (walk restoreSelection (processFormComponents dom tree).value).visited
    · right; simpa only [hv, if_true, onNode] using hown
    · left; simpa only [hv, if_false] using hown
  rcases hown' with h | h
  · obtain ⟨f', rfl⟩ := own_eq_obj c' _ h
    exact ⟨f', hc', lookup_of_own_eq _ _ _ h (by decide)⟩
  · obtain ⟨f', rfl⟩ := own_eq_obj c' _ h
    refine ⟨f', hc', ?_⟩
    rw [lookup_of_own_eq _ _ _ h (by decide), restoreSelection_lookup _ _ (by decide)]

theorem prepare_after_process_keeps_selectedFormId_witness :
    ∃ f', (prepareFormComponentsForRender
        (processFormComponents sampleDom sampleSchema).value).value.at [.item 0]
        = some (.obj f') ∧
      f'.lookup "selectedFormId" =
        List.lookup "selectedFormId"
          [("type", .str "formselect"), ("key", .str "pick"), ("storeReference", .bool true),
            ("selectedFormId", .str "contact"),
            ("referencedFormDefinition", .obj [("title", .str "Contact")])] :=
  prepare_after_process_keeps_selectedFormId sampleDom sampleSchema [.item 0] _ rfl

/-- C7. On a schema without any component of type `formselect`, at any depth,
both walks leave the schema as it was. -/
theorem walks_leave_schema_without_selector (dom : Dom) (root : Json)
    (hnone : ∀ (p : Path) (f : List (String × Json)),
      isNodePath p = true → root.at p = some (.obj f) → isFormSelect f = false) :
    (processFormComponents dom root).value = root ∧
    (prepareFormComponentsForRender root).value = root := by
  refine ⟨walk_same _ root ?_, walk_same _ root ?_⟩
  · intro p f hp hat
    simp [collectReference, hnone p f hp hat]
  · intro p f hp hat
    simp [restoreSelection, hnone p f hp hat]

theorem plainSchema_has_no_selector (p : Path) (f : List (String × Json))
    (_hp : isNodePath p = true) (hat : plainSchema.at p = some (.obj f)) :
    isFormSelect f = false := by
  match p, hat with
  | [.item 0], hat =>
    simp only [plainSchema, Json.at, Json.step, List.getElem?_cons_zero, Option.some.injEq,
      Json.obj.injEq] at hat
    subst hat
    decide
  | [], hat => simp [plainSchema, Json.at] at hat
  | .field _ :: _, hat => simp [plainSchema, Json.at, Json.step] at hat
  | .item (_ + 1) :: _, hat => simp [plainSchema, Json.at, Json.step] at hat
  | .item 0 :: .item _ :: _, hat => simp [plainSchema, Json.at, Json.step] at hat
  | .item 0 :: .field s :: _, hat =>
    cases s <;> simp [plainSchema, Json.at, Json.step, Shape.name, List.lookup] at hat

theorem walks_leave_schema_without_selector_witness :
    (processFormComponents sampleDom plainSchema).value = plainSchema ∧
    (prepareFormComponentsForRender plainSchema).value = plainSchema :=
  walks_leave_schema_without_selector sampleDom plainSchema plainSchema_has_no_selector

/-- C8. `processFormComponents` leaves a `formselect` node as it is when no
element is found for its key, the element carries no widget, or the widget's
`selectedFormId` is absent or falsy: the node block returns the node's fields
unchanged, a node without children ends the callback normally with exactly
these fields, and wherever such a node sits in a schema the value left there
holds what the node held, a stored `selectedFormId` and
`referencedFormDefinition` included. -/
theorem processFormComponents_leaves_unselected (dom : Dom) (fields : List (String × Json))
    (hidle : dom (fields.lookup "key") = none
      ∨ (∃ el, dom (fields.lookup "key") = some el ∧ el.component = none)
      ∨ (∃ el w, dom (fields.lookup "key") = some el ∧ el.component = some w
          ∧ truthy? (w.component.lookup "selectedFormId") = false)) :
    collectReference dom fields = fields ∧
    ((∀ s : Shape, truthy? (fields.lookup s.name) = false) →
      call (collectReference dom) .component (.obj fields) = ⟨.obj fields, [[]], none⟩) ∧
    ∀ (root : Json) (p : Path), root.at p = some (.obj fields) →
      ∃ fields', (processFormComponents dom root).value.at p = some (.obj fields') ∧
        (Json.obj fields').own = (Json.obj fields).own ∧
        fields'.lookup "selectedFormId" = fields.lookup "selectedFormId" ∧
        fields'.lookup "referencedFormDefinition"
          = fields.lookup "referencedFormDefinition" := by
  have hid := collectReference_idle dom fields hidle
  refine ⟨hid, ?_, ?_⟩
  · intro hleaf
    rw [call]
    simp only [descend_absent _ _ fields (hleaf _), hid, store]
    rfl
  · intro root p hat
    obtain ⟨c', hc', hown⟩ :=
      walk_loc (collectReference dom) (collectReference_frame dom) root p _ hat
    simp only [onNode, hid, ite_self] at hown
    obtain ⟨f', rfl⟩ := own_eq_obj c' _ hown
    exact ⟨f', hc', hown, lookup_of_own_eq _ _ _ hown (by decide),
      lookup_of_own_eq _ _ _ hown (by decide)⟩

theorem processFormComponents_leaves_unselected_witness :
    collectReference sampleDom
        [("type", .str "formselect"), ("key", .str "inner"),
          ("selectedFormId", .str "contact")]
      = [("type", .str "formselect"), ("key", .str "inner"),
          ("selectedFormId", .str "contact")] ∧
    ((∀ s : Shape, truthy? (List.lookup s.name
        [("type", Json.str "formselect"), ("key", .str "inner"),
          ("selectedFormId", .str "contact")]) = false) →
      call (collectReference sampleDom) .component
          (.obj [("type", .str "formselect"), ("key", .str "inner"),
            ("selectedFormId", .str "contact")])
        = ⟨.obj [("type", .str "formselect"), ("key", .str "inner"),
            ("selectedFormId", .str "contact")], [[]], none⟩) ∧
    ∀ (root : Json) (p : Path),
      root.at p = some (.obj [("type", .str "formselect"), ("key", .str "inner"),
        ("selectedFormId", .str "contact")]) →
      ∃ fields', (processFormComponents sampleDom root).value.at p = some (.obj fields') ∧
        (Json.obj fields').own = (Json.obj [("type", .str "formselect"),
          ("key", .str "inner"), ("selectedFormId", .str "contact")]).own ∧
        fields'.lookup "selectedFormId" = List.lookup "selectedFormId"
          [("type", Json.str "formselect"), ("key", .str "inner"),
            ("selectedFormId", .str "contact")] ∧
        fields'.lookup "referencedFormDefinition" = List.lookup "referencedFormDefinition"
          [("type", Json.str "formselect"), ("key", .str "inner"),
            ("selectedFormId", .str "contact")] :=
  processFormComponents_leaves_unselected sampleDom
    [("type", .str "formselect"), ("key", .str "inner"), ("selectedFormId", .str "contact")]
    (Or.inr (Or.inl ⟨⟨none⟩, rfl, rfl⟩))

/-! ## The walk follows the pre-order of the spec -/

theorem preorderField_cons (s : Shape) (k : String) (v : Json) (rest : List (String × Json)) :
    preorderField s ((k, v) :: rest) =
      if k = s.name then
        if truthy v then preorderValue s v else []
      else preorderField s rest := by
  rw [preorderField]

theorem preorderValue_arr (s : Shape) (xs : List Json) :
    preorderValue s (.arr xs) = (preorderAll s.callback 0 xs).map (Seg.field s :: ·) := by
  rw [preorderValue]

theorem preorderValue_other (s : Shape) (v : Json) (hv : ∀ xs, v ≠ .arr xs) :
    preorderValue s v = [] := by
  cases v <;> first | exact absurd rfl (hv _) | simp [preorderValue]

/-- A part of the walk that has made the visits `a` of the sequence `x` and
goes on with a part that keeps to the sequence `y`: together they keep to
`x ++ y`. -/
theorem prefix_step (a x b y : List Path) (e1 e2 : Option JsError)
    (h1 : a <+: x ∧ (e1 = none → a = x)) (h2 : b <+: y ∧ (e2 = none → b = y))
    (he : e1 = none) :
    (a ++ b) <+: (x ++ y) ∧ (e2 = none → a ++ b = x ++ y) := by
  have hax : a = x := h1.2 he
  subst hax
  exact ⟨(List.prefix_append_right_inj a).mpr h2.1, fun h => by rw [h2.2 h]⟩

mutual

theorem forEach_preorder (block : List (String × Json) → List (String × Json))
    (cb : Callback) : ∀ (i : Nat) (xs : List Json),
      (forEach block cb i xs).visited <+: preorderAll cb i xs ∧
      ((forEach block cb i xs).error = none →
        (forEach block cb i xs).visited = preorderAll cb i xs)
  | _, [] => by
    rw [forEach, preorderAll]
    exact ⟨List.prefix_refl _, fun _ => rfl⟩
  | i, x :: rest => by
    have h1 := call_preorder block cb x
    have h2 := forEach_preorder block cb (i + 1) rest
    rw [forEach, preorderAll]
    cases he : (call block cb x).error with
    | some e =>
      simp only [he]
      refine ⟨?_, fun h => by cases h⟩
      exact (List.IsPrefix.map _ h1.1).trans (List.prefix_append _ _)
    | none =>
      simp only [he]
      have h1' : (call block cb x).visited.map (Seg.item i :: ·) <+:
            (preorderFor cb x).map (Seg.item i :: ·) ∧
          ((call block cb x).error = none →
            (call block cb x).visited.map (Seg.item i :: ·) =
              (preorderFor cb x).map (Seg.item i :: ·)) :=
        ⟨List.IsPrefix.map _ h1.1, fun h => by rw [h1.2 h]⟩
      exact prefix_step _ _ _ _ _ _ h1' h2 he

theorem call_preorder (block : List (String × Json) → List (String × Json)) :
    ∀ (cb : Callback) (c : Json),
      (call block cb c).visited <+: preorderFor cb c ∧
      ((call block cb c).error = none → (call block cb c).visited = preorderFor cb c)
  | .component, .null => by simp [call, preorderFor]
  | .component, .obj fields => by
    have h1 := descend_preorder block .components fields
    have h2 := descend_preorder block .rows fields
    have h3 := descend_preorder block .tabs fields
    rw [call, preorderFor]
    cases he1 : (descend block .components fields).error with
    | some e =>
      simp only [he1]
      refine ⟨?_, fun h => by cases h⟩
      rw [List.prefix_cons_inj]
      exact h1.1.trans ((List.prefix_append _ _).trans (List.prefix_append _ _))
    | none =>
      simp only [he1]
      cases he2 : (descend block .rows fields).error with
      | some e =>
        simp only [he2]
        refine ⟨?_, fun h => by cases h⟩
        rw [List.prefix_cons_inj]
        exact (prefix_step _ _ _ _ _ _ h1 h2 he1).1.trans (List.prefix_append _ _)
      | none =>
        simp only [he2]
        have h12 := prefix_step _ _ _ _ _ _ h1 h2 he1
        have h123 := prefix_step _ _ _ _ _ _ h12 h3 he2
        refine ⟨?_, fun h => ?_⟩
        · rw [List.prefix_cons_inj]
          exact h123.1
        · rw [h123.2 h]
  | .component, .bool _ => by simp [call, preorderFor]
  | .component, .num _ => by simp [call, preorderFor]
  | .component, .str _ => by simp [call, preorderFor]
  | .component, .arr _ => by simp [call, preorderFor]
  | .row, .arr cols => by
    rw [call, preorderFor]
    exact forEach_preorder block .holder 0 cols
  | .row, .null => by simp [call, preorderFor]
  | .row, .bool _ => by simp [call, preorderFor]
  | .row, .num _ => by simp [call, preorderFor]
  | .row, .str _ => by simp [call, preorderFor]
  | .row, .obj _ => by simp [call, preorderFor]
  | .holder, .null => by simp [call, preorderFor]
  | .holder, .obj fields => by
    rw [call, preorderFor]
    exact descend_preorder block .components fields
  | .holder, .bool _ => by simp [call, preorderFor]
  | .holder, .num _ => by simp [call, preorderFor]
  | .holder, .str _ => by simp [call, preorderFor]
  | .holder, .arr _ => by simp [call, preorderFor]

theorem descend_preorder (block : List (String × Json) → List (String × Json))
    (s : Shape) : ∀ fields : List (String × Json),
      (descend block s fields).visited <+: preorderField s fields ∧
      ((descend block s fields).error = none →
        (descend block s fields).visited = preorderField s fields)
  | [] => by
    rw [descend_nil, preorderField]
    exact ⟨List.prefix_refl _, fun _ => rfl⟩
  | (k, v) :: rest => by
    rw [descend_cons, preorderField_cons]
    by_cases hk : k = s.name
    · simp only [hk, if_true]
      by_cases ht : truthy v = true
      · simp only [ht, if_true]
        exact enter_preorder block s v
      · simp only [ht, Bool.false_eq_true, if_false]
        exact ⟨List.prefix_refl _, fun _ => trivial⟩
    · simp only [hk, if_false]
      exact descend_preorder block s rest

theorem enter_preorder (block : List (String × Json) → List (String × Json))
    (s : Shape) : ∀ v : Json,
      (enter block s v).visited <+: preorderValue s v ∧
      ((enter block s v).error = none → (enter block s v).visited = preorderValue s v)
  | .arr xs => by
    have h := forEach_preorder block s.callback 0 xs
    rw [enter_arr, preorderValue_arr]
    exact ⟨List.IsPrefix.map _ h.1, fun he => by rw [h.2 he]⟩
  | .null => by
    rw [enter_other block s _ (by simp), preorderValue_other s _ (by simp)]
    exact ⟨List.prefix_refl _, fun _ => rfl⟩
  | .bool _ => by
    rw [enter_other block s _ (by simp), preorderValue_other s _ (by simp)]
    exact ⟨List.prefix_refl _, fun _ => rfl⟩
  | .num _ => by
    rw [enter_other block s _ (by simp), preorderValue_other s _ (by simp)]
    exact ⟨List.prefix_refl _, fun _ => rfl⟩
  | .str _ => by
    rw [enter_other block s _ (by simp), preorderValue_other s _ (by simp)]
    exact ⟨List.prefix_refl _, fun _ => rfl⟩
  | .obj _ => by
    rw [enter_other block s _ (by simp), preorderValue_other s _ (by simp)]
    exact ⟨List.prefix_refl _, fun _ => rfl⟩

end

/-- The walk keeps to the pre-order of the spec for as long as it runs: on
every schema its visits are an initial part of the pre-order sequence of the
components; and it makes all of them, in that order, exactly when it returns
normally, which it does on the well-shaped schemas and on no other. -/
theorem walk_preorder (block : List (String × Json) → List (String × Json)) (root : Json) :
    (walk block root).visited <+: preorder root ∧
    ((walk block root).error = none ↔ wellShaped root = true) ∧
    (wellShaped root = true → (walk block root).visited = preorder root) := by
  have key : (walk block root).visited <+: preorder root ∧
      ((walk block root).error = none → (walk block root).visited = preorder root) := by
    cases root with
    | arr components => exact forEach_preorder block .component 0 components
    | null => exact ⟨List.prefix_refl _, fun _ => rfl⟩
    | bool _ => exact ⟨List.prefix_refl _, fun _ => rfl⟩
    | num _ => exact ⟨List.prefix_refl _, fun _ => rfl⟩
    | str _ => exact ⟨List.prefix_refl _, fun _ => rfl⟩
    | obj _ => exact ⟨List.prefix_refl _, fun _ => rfl⟩
  exact ⟨key.1, walk_error_none_iff block root,
    fun h => key.2 ((walk_error_none_iff block root).mpr h)⟩

/-- The sample schema, which is well shaped, is walked in full and in
pre-order: the top-level selector, the panel, the selector in its child list,
the one in its row, the one in its tab, and the text field. -/
theorem walk_preorder_sample :
    (processFormComponents sampleDom sampleSchema).visited = preorder sampleSchema ∧
    (prepareFormComponentsForRender sampleSchema).visited = preorder sampleSchema ∧
    preorder sampleSchema =
      [[.item 0], [.item 1],
       [.item 1, .field .components, .item 0],
       [.item 1, .field .rows, .item 0, .item 0, .field .components, .item 0],
       [.item 1, .field .tabs, .item 0, .field .components, .item 0],
       [.item 2]] :=
  ⟨(walk_preorder _ sampleSchema).2.2 (by decide),
    (walk_preorder _ sampleSchema).2.2 (by decide), by decide⟩

/-- C4, the code at the failing input.  The schema `mixedSchema` nests through
direct child lists, rows and tabs at the same time, with a selector under each
shape and one at top level; the first child of its panel is a text area with
`rows: 3`.  Both walks end with a `TypeError` at the text area, having visited
the panel and the text area only: the four selectors are components of the
schema and none of them is visited. -/
theorem walks_miss_components_after_text_area :
    ((processFormComponents sampleDom mixedSchema).error = some .typeError ∧
      (processFormComponents sampleDom mixedSchema).visited =
        [[.item 0], [.item 0, .field .components, .item 0]]) ∧
    ((prepareFormComponentsForRender mixedSchema).error = some .typeError ∧
      (prepareFormComponentsForRender mixedSchema).visited =
        [[.item 0], [.item 0, .field .components, .item 0]]) ∧
    (∀ p ∈ ([[.item 0, .field .components, .item 1],
        [.item 0, .field .rows, .item 0, .item 0, .field .components, .item 0],
        [.item 0, .field .tabs, .item 0, .field .components, .item 0],
        [.item 1]] : List Path),
      isNodePath p = true ∧
      ((mixedSchema.at p).bind (fun c => c.get? "type")).isSome = true ∧
      p ∉ (processFormComponents sampleDom mixedSchema).visited ∧
      p ∉ (prepareFormComponentsForRender mixedSchema).visited) ∧
    (mixedSchema.at [.item 0, .field .components, .item 1]).bind (fun c => c.get? "key")
      = some (.str "inner") ∧
    (mixedSchema.at [.item 0, .field .rows, .item 0, .item 0, .field .components, .item 0]).bind
      (fun c => c.get? "key") = some (.str "cell") ∧
    (mixedSchema.at [.item 0, .field .tabs, .item 0, .field .components, .item 0]).bind
      (fun c => c.get? "key") = some (.str "tab") ∧
    (mixedSchema.at [.item 1]).bind (fun c => c.get? "key") = some (.str "pick") := by
  refine ⟨⟨rfl, by decide⟩, ⟨rfl, by decide⟩, ?_, rfl, rfl, rfl, rfl⟩
  intro p hp
  simp only [List.mem_cons, List.mem_singleton, List.not_mem_nil, or_false] at hp
  rcases hp with h | h | h | h <;> subst h <;> exact ⟨by decide, rfl, by decide, by decide⟩

/-- C5, the code at the failing input.  On `mixedSchema` the pre-order of the
spec has six places: the panel, the two components of its child list, the
selector in its row, the selector in its tab, and the selector after the panel.
Both walks make the first two visits of that sequence and end there with a
`TypeError`, at the text area's `rows: 3`: the child list of the panel is not
traversed to its end, and neither its rows, nor its tabs, nor the sibling that
follows the panel is reached. -/
theorem walks_leave_preorder_unfinished :
    preorder mixedSchema =
      [[.item 0],
       [.item 0, .field .components, .item 0],
       [.item 0, .field .components, .item 1],
       [.item 0, .field .rows, .item 0, .item 0, .field .components, .item 0],
       [.item 0, .field .tabs, .item 0, .field .components, .item 0],
       [.item 1]] ∧
    (processFormComponents sampleDom mixedSchema).visited = (preorder mixedSchema).take 2 ∧
    (processFormComponents sampleDom mixedSchema).error = some .typeError ∧
    (prepareFormComponentsForRender mixedSchema).visited = (preorder mixedSchema).take 2 ∧
    (prepareFormComponentsForRender mixedSchema).error = some .typeError ∧
    (processFormComponents sampleDom mixedSchema).visited ≠ preorder mixedSchema ∧
    (prepareFormComponentsForRender mixedSchema).visited ≠ preorder mixedSchema := by
  refine ⟨by decide, by decide, rfl, by decide, rfl, by decide, by decide⟩

/-! ## The selector widget -/

/-- The search steps over an element that is not `null` by testing it. -/
theorem find_cons (key : String) (formId form : Json) (rest : List Json)
    (h : form ≠ .null) :
    find key formId (form :: rest) =
      if strictEq (form.get? key) (some formId) then .ok (some form)
      else find key formId rest := by
  cases form with
  | null => exact absurd rfl h
  | bool b => rfl
  | num n => rfl
  | str s => rfl
  | arr xs => rfl
  | obj fields => rfl

/-- Only a property that is there can be equal to the value looked for, so
that an element on which the test holds is an object. -/
theorem truthy_of_strictEq (key : String) (formId form : Json)
    (h : strictEq (form.get? key) (some formId) = true) :
    form ≠ .null ∧ truthy form = true := by
  cases form with
  | obj fields => exact ⟨fun e => Json.noConfusion e, rfl⟩
  | null => simp [Json.get?, strictEq] at h
  | bool b => simp [Json.get?, strictEq] at h
  | num n => simp [Json.get?, strictEq] at h
  | str s => simp [Json.get?, strictEq] at h
  | arr xs => simp [Json.get?, strictEq] at h

/-- The search finds nothing in a list none of whose elements passes the
test. -/
theorem find_none (key : String) (formId : Json) (forms : List Json)
    (h : ∀ form ∈ forms, form ≠ .null ∧ strictEq (form.get? key) (some formId) = false) :
    find key formId forms = .ok none := by
  induction forms with
  | nil => rfl
  | cons form rest ih =>
    have h0 := h form (List.mem_cons_self _ _)
    rw [find_cons key formId form rest h0.1, h0.2]
    exact ih (fun x hx => h x (List.mem_cons_of_mem _ hx))

/-- The search returns the first element that passes the test. -/
theorem find_first (key : String) (formId : Json) (pre post : List Json) (form : Json)
    (hpre : ∀ x ∈ pre, x ≠ .null ∧ strictEq (x.get? key) (some formId) = false)
    (hform : strictEq (form.get? key) (some formId) = true) :
    find key formId (pre ++ form :: post) = .ok (some form) := by
  induction pre with
  | nil =>
    rw [List.nil_append, find_cons key formId form post (truthy_of_strictEq key formId form hform).1,
      hform]
    rfl
  | cons x rest ih =>
    have h0 := hpre x (List.mem_cons_self _ _)
    rw [List.cons_append, find_cons key formId x _ h0.1, h0.2]
    exact ih (fun y hy => hpre y (List.mem_cons_of_mem _ hy))

/-- The call on a candidate list in which the search finds nothing. -/
theorem loadSelectedForm_not_found (toKey : Option Json → String) (formId : Json)
    (w : LiveWidget) (forms : List Json) (hforms : w.forms = .arr forms)
    (h : find (toKey (w.component.lookup "valueProperty")) formId forms = .ok none) :
    loadSelectedForm toKey formId w =
      ({ w with effects := w.effects ++ [.consoleError "Form not found with ID:" formId] },
        none) := by
  unfold loadSelectedForm
  rw [hforms]
  simp only [h]

/-- The call on a candidate list in which the search finds an entry without a
`formDefinition`. -/
theorem loadSelectedForm_no_definition (toKey : Option Json → String) (formId : Json)
    (w : LiveWidget) (forms : List Json) (form : Json) (hforms : w.forms = .arr forms)
    (h : find (toKey (w.component.lookup "valueProperty")) formId forms = .ok (some form))
    (htruthy : truthy form = true)
    (hdef : truthy? (form.get? "formDefinition") = false) :
    loadSelectedForm toKey formId w =
      ({ w with effects := w.effects ++
          [.consoleError "Form definition not found for form with ID:" formId] }, none) := by
  unfold loadSelectedForm
  rw [hforms]
  simp only [h, htruthy, Bool.true_eq_false, if_false]
  cases hfd : form.get? "formDefinition" with
  | none => rfl
  | some fd =>
    rw [hfd] at hdef
    simp only [truthy?] at hdef
    simp only [hdef, if_true]

/-- The call on a candidate list in which the search finds an entry with a
`formDefinition`. -/
theorem loadSelectedForm_found (toKey : Option Json → String) (formId : Json)
    (w : LiveWidget) (forms : List Json) (form formDefinition : Json)
    (hforms : w.forms = .arr forms)
    (h : find (toKey (w.component.lookup "valueProperty")) formId forms = .ok (some form))
    (htruthy : truthy form = true)
    (hdef : form.get? "formDefinition" = some formDefinition)
    (hfd : truthy formDefinition = true) :
    loadSelectedForm toKey formId w =
      match w.element with
      | none =>
        ({ w with
            selectedFormDefinition := formDefinition
            component := setField "selectedFormId" formId w.component },
          some .typeError)
      | some refs =>
        ({ w with
            selectedFormDefinition := formDefinition
            component := setField "selectedFormId" formId w.component
            originalElement := some refs
            element := some
              { select := refs.select.map (fun s => { s with display := "none" })
                resetButton := refs.resetButton.map (fun b => { b with display := "block" })
                formContainer := refs.formContainer.map (fun c => { c with innerHTML := "" }) }
            effects := w.effects ++
              (match refs.formContainer with
                | some _ => [.createForm formDefinition]
                | none => []) },
          none) := by
  unfold loadSelectedForm
  rw [hforms]
  simp only [h, htruthy, hdef, hfd, Bool.true_eq_false, if_false]

/-- The call `loadSelectedForm(formId)` on a widget whose `forms` is a list of
entries, none of them `null` up to the first match, and which holds no entry
with the `valueProperty` field equal to `formId`, or whose first such
entry has no `formDefinition` (or a falsy one): the call returns without an
exception after one `console.error` about `formId`, and that call is the only
thing that happened: `component`, with its `selectedFormId`,
`selectedFormDefinition`, `formInstance`, the element with the visibility of
the select and of the reset button, the candidate list, the value and
`originalElement` are as they were. -/
theorem loadSelectedForm_unknown_leaves_widget (toKey : Option Json → String) (formId : Json)
    (w : LiveWidget) (forms : List Json) (hforms : w.forms = .arr forms)
    (hmiss :
      (∀ form ∈ forms, form ≠ .null ∧
        strictEq (form.get? (toKey (w.component.lookup "valueProperty"))) (some formId)
          = false) ∨
      (∃ pre form post, forms = pre ++ form :: post ∧
        (∀ x ∈ pre, x ≠ .null ∧
          strictEq (x.get? (toKey (w.component.lookup "valueProperty"))) (some formId)
            = false) ∧
        strictEq (form.get? (toKey (w.component.lookup "valueProperty"))) (some formId)
          = true ∧
        truthy? (form.get? "formDefinition") = false)) :
    (loadSelectedForm toKey formId w).2 = none ∧
    (∃ text, (loadSelectedForm toKey formId w).1 =
      { w with effects := w.effects ++ [.consoleError text formId] }) ∧
    (loadSelectedForm toKey formId w).1.component = w.component ∧
    (loadSelectedForm toKey formId w).1.selectedFormDefinition = w.selectedFormDefinition ∧
    (loadSelectedForm toKey formId w).1.formInstance = w.formInstance ∧
    (loadSelectedForm toKey formId w).1.element = w.element ∧
    (loadSelectedForm toKey formId w).1.forms = w.forms := by
  have key : ∃ text, loadSelectedForm toKey formId w =
      ({ w with effects := w.effects ++ [.consoleError text formId] }, none) := by
    rcases hmiss with h | ⟨pre, form, post, hsplit, hpre, hform, hdef⟩
    · exact ⟨_, loadSelectedForm_not_found toKey formId w forms hforms
        (find_none _ formId forms h)⟩
    · refine ⟨_, loadSelectedForm_no_definition toKey formId w forms form hforms ?_
        (truthy_of_strictEq _ formId form hform).2 hdef⟩
      rw [hsplit]
      exact find_first _ formId pre post form hpre hform
  obtain ⟨text, ht⟩ := key
  rw [ht]
  exact ⟨rfl, ⟨text, rfl⟩, rfl, rfl, rfl, rfl, rfl⟩

theorem loadSelectedForm_unknown_leaves_widget_witness :
    (loadSelectedForm sampleToKey (.str "B") sampleWidget).2 = none ∧
    (∃ text, (loadSelectedForm sampleToKey (.str "B") sampleWidget).1 =
      { sampleWidget with
        effects := sampleWidget.effects ++ [.consoleError text (.str "B")] }) ∧
    (loadSelectedForm sampleToKey (.str "B") sampleWidget).1.component
      = sampleWidget.component ∧
    (loadSelectedForm sampleToKey (.str "B") sampleWidget).1.selectedFormDefinition
      = sampleWidget.selectedFormDefinition ∧
    (loadSelectedForm sampleToKey (.str "B") sampleWidget).1.formInstance
      = sampleWidget.formInstance ∧
    (loadSelectedForm sampleToKey (.str "B") sampleWidget).1.element = sampleWidget.element ∧
    (loadSelectedForm sampleToKey (.str "B") sampleWidget).1.forms = sampleWidget.forms :=
  loadSelectedForm_unknown_leaves_widget sampleToKey (.str "B") sampleWidget
    [.obj [("_id", .str "65f0c0ffee0000000000abcd"), ("formId", .str "contact"),
       ("formDefinition", .obj [("title", .str "Contact")])],
     .obj [("_id", .str "65f0c0ffee0000000000beef"), ("formId", .str "draft")],
     .obj [("_id", .str "65f0c0ffee0000000000cafe"), ("formId", .str "contact"),
       ("formDefinition", .obj [("title", .str "Second")])]]
    rfl
    (Or.inl (by
      intro form hform
      simp only [List.mem_cons, List.mem_singleton, List.not_mem_nil, or_false] at hform
      rcases hform with h | h | h <;> subst h <;> exact ⟨fun e => Json.noConfusion e, by decide⟩))

/-- The two ways of the sample widget not to load a form: `B` is not in the
candidate list, and `draft` is there without a `formDefinition`. -/
theorem loadSelectedForm_sample_misses :
    loadSelectedForm sampleToKey (.str "B") sampleWidget =
      ({ sampleWidget with effects := [.consoleError "Form not found with ID:" (.str "B")] },
        none) ∧
    loadSelectedForm sampleToKey (.str "draft") sampleWidget =
      ({ sampleWidget with
          effects := [.consoleError "Form definition not found for form with ID:"
            (.str "draft")] }, none) :=
  ⟨rfl, rfl⟩

/-- C18, the code at the failing input.  On the widget `failedWidget`, whose
`forms` is the body with which `GET /forms` answers 500, an object without an
entry, `loadSelectedForm('B')` ends with a `TypeError` (`this.forms.find` is
not a function): nothing is logged and the call does not return normally.  The
fields of the widget are as they were. -/
theorem loadSelectedForm_throws_on_error_body :
    failedWidget.forms =
      .obj [("message", .str "Error al obtener la lista de formularios."),
        ("error", .str "connection refused")] ∧
    (loadSelectedForm sampleToKey (.str "B") failedWidget).2 = some .typeError ∧
    (loadSelectedForm sampleToKey (.str "B") failedWidget).1.effects = [] ∧
    loadSelectedForm sampleToKey (.str "B") failedWidget = (failedWidget, some .typeError) :=
  ⟨rfl, rfl, rfl, rfl⟩

/-- C19. `resetFormSelect()`, from every state of the widget: afterwards
`formInstance` is `null`, and an instance that was there has been destroyed,
which is the only call made; `component.selectedFormId` is the empty string
and the other properties of `component` are as they were;
`selectedFormDefinition` is `null`; the value of the component is the empty
string; the select, where there is one, is displayed as `block` with the value
`''`, the reset button, where there is one, is not displayed, and the form
container, where there is one, is empty; the candidate list is as it was. -/
theorem resetFormSelect_returns_to_selector (w : LiveWidget) :
    (resetFormSelect w).formInstance = none ∧
    (resetFormSelect w).effects =
      w.effects ++ (match w.formInstance with
        | some form => [.destroy form]
        | none => []) ∧
    (resetFormSelect w).component.lookup "selectedFormId" = some (.str "") ∧
    (∀ k, k ≠ "selectedFormId" →
      (resetFormSelect w).component.lookup k = w.component.lookup k) ∧
    (resetFormSelect w).selectedFormDefinition = .null ∧
    (resetFormSelect w).dataValue = .str "" ∧
    (resetFormSelect w).element =
      w.element.map (fun refs =>
        ⟨refs.select.map (fun _ => ⟨"block", ""⟩),
          refs.formContainer.map (fun _ => ⟨""⟩),
          refs.resetButton.map (fun _ => ⟨"none"⟩)⟩) ∧
    (∀ refs s, (resetFormSelect w).element = some refs → refs.select = some s →
      s.display = "block" ∧ s.value = "") ∧
    (∀ refs b, (resetFormSelect w).element = some refs → refs.resetButton = some b →
      b.display = "none") ∧
    (resetFormSelect w).forms = w.forms := by
  have helem : (resetFormSelect w).element =
      w.element.map (fun refs =>
        ⟨refs.select.map (fun _ => ⟨"block", ""⟩),
          refs.formContainer.map (fun _ => ⟨""⟩),
          refs.resetButton.map (fun _ => ⟨"none"⟩)⟩) := by
    unfold resetFormSelect updateValue
    cases w.formInstance <;> rfl
  have hcomp : (resetFormSelect w).component =
      setField "selectedFormId" (.str "") w.component := by
    unfold resetFormSelect updateValue
    cases w.formInstance <;> rfl
  refine ⟨?_, ?_, ?_, ?_, ?_, ?_, helem, ?_, ?_, ?_⟩
  · unfold resetFormSelect updateValue
    cases h : w.formInstance <;> simp [h]
  · unfold resetFormSelect updateValue
    cases h : w.formInstance <;> simp [h]
  · rw [hcomp]
    exact lookup_setField_self _ _ _
  · intro k hk
    rw [hcomp]
    exact lookup_setField_ne _ _ _ _ hk
  · unfold resetFormSelect updateValue
    cases w.formInstance <;> rfl
  · unfold resetFormSelect updateValue
    cases w.formInstance <;> rfl
  · intro refs s he hs
    rw [helem] at he
    cases hw : w.element with
    | none => rw [hw] at he; cases he
    | some r =>
      rw [hw] at he
      simp only [Option.map_some', Option.some.injEq] at he
      subst he
      cases hsel : r.select with
      | none => rw [hsel] at hs; cases hs
      | some s0 =>
        rw [hsel] at hs
        simp only [Option.map_some', Option.some.injEq] at hs
        subst hs
        exact ⟨rfl, rfl⟩
  · intro refs b he hb
    rw [helem] at he
    cases hw : w.element with
    | none => rw [hw] at he; cases he
    | some r =>
      rw [hw] at he
      simp only [Option.map_some', Option.some.injEq] at he
      subst he
      cases hbtn : r.resetButton with
      | none => rw [hbtn] at hb; cases hb
      | some b0 =>
        rw [hbtn] at hb
        simp only [Option.map_some', Option.some.injEq] at hb
        subst hb
        rfl
  · unfold resetFormSelect updateValue
    cases w.formInstance <;> rfl

/-- The reset of the sample widget in the state `RESOLVED` gives the widget
back in the state `LOADED`: the selector shown and empty, the reset button
hidden, the container empty, the embedded form destroyed. -/
theorem resetFormSelect_sample :
    resetFormSelect resolvedWidget =
      { sampleWidget with
        originalElement := sampleWidget.element
        element := some ⟨some ⟨"block", ""⟩, some ⟨""⟩, some ⟨"none"⟩⟩
        effects := [.createForm (.obj [("title", .str "Contact")]),
          .destroy ⟨.obj [("title", .str "Contact")]⟩] } := rfl

/-- C20. `loadSelectedForm(formId)` on a widget whose candidate list holds an
entry with the `valueProperty` field equal to `formId`, the first of which has
a (truthy) `formDefinition`: afterwards `selectedFormDefinition` is the
`formDefinition` of that first entry and `component.selectedFormId` is
`formId`; a select that the widget has is hidden and a reset button that it
has is shown; the candidate list is as it was, and the only call made is
`Formio.createForm` with that `formDefinition`, so no `fetch`.  On a widget
that is attached to an element the call returns without an exception, with the
element saved in `originalElement`, the container emptied and the form created
in it; on a widget without an element the call throws once the two fields are
assigned. -/
theorem loadSelectedForm_selects_first_match (toKey : Option Json → String) (formId : Json)
    (w : LiveWidget) (pre post : List Json) (form formDefinition : Json)
    (hforms : w.forms = .arr (pre ++ form :: post))
    (hpre : ∀ x ∈ pre, x ≠ .null ∧
      strictEq (x.get? (toKey (w.component.lookup "valueProperty"))) (some formId) = false)
    (hform : strictEq (form.get? (toKey (w.component.lookup "valueProperty"))) (some formId)
      = true)
    (hdef : form.get? "formDefinition" = some formDefinition)
    (hfd : truthy formDefinition = true) :
    (loadSelectedForm toKey formId w).1.selectedFormDefinition = formDefinition ∧
    (loadSelectedForm toKey formId w).1.component.lookup "selectedFormId" = some formId ∧
    (∀ refs s, (loadSelectedForm toKey formId w).1.element = some refs →
      refs.select = some s → s.display = "none") ∧
    (∀ refs b, (loadSelectedForm toKey formId w).1.element = some refs →
      refs.resetButton = some b → b.display = "block") ∧
    (loadSelectedForm toKey formId w).1.forms = w.forms ∧
    (∀ e ∈ (loadSelectedForm toKey formId w).1.effects,
      e ∈ w.effects ∨ e = .createForm formDefinition) ∧
    (∀ refs, w.element = some refs →
      (loadSelectedForm toKey formId w).2 = none ∧
      (loadSelectedForm toKey formId w).1.element =
        some ⟨refs.select.map (fun s => ⟨"none", s.value⟩),
          refs.formContainer.map (fun _ => ⟨""⟩),
          refs.resetButton.map (fun _ => ⟨"block"⟩)⟩ ∧
      (loadSelectedForm toKey formId w).1.originalElement = some refs ∧
      (loadSelectedForm toKey formId w).1.effects =
        w.effects ++ (match refs.formContainer with
          | some _ => [.createForm formDefinition]
          | none => [])) ∧
    (w.element = none →
      (loadSelectedForm toKey formId w).2 = some .typeError ∧
      (loadSelectedForm toKey formId w).1.element = none ∧
      (loadSelectedForm toKey formId w).1.effects = w.effects) := by
  have hfind := find_first (toKey (w.component.lookup "valueProperty")) formId pre post form
    hpre hform
  have hload := loadSelectedForm_found toKey formId w (pre ++ form :: post) form formDefinition
    hforms hfind (truthy_of_strictEq _ formId form hform).2 hdef hfd
  cases hw : w.element with
  | none =>
    rw [hw] at hload
    simp only at hload
    rw [hload]
    refine ⟨rfl, lookup_setField_self _ _ _, ?_, ?_, rfl, ?_, ?_, ?_⟩
    · intro refs s he
      simp only [hw] at he
      cases he
    · intro refs b he
      simp only [hw] at he
      cases he
    · intro e he
      exact Or.inl he
    · intro refs he
      cases he
    · intro _
      exact ⟨rfl, rfl, rfl⟩
  | some r =>
    rw [hw] at hload
    simp only at hload
    rw [hload]
    refine ⟨rfl, lookup_setField_self _ _ _, ?_, ?_, rfl, ?_, ?_, ?_⟩
    · intro refs s he hs
      simp only [Option.some.injEq] at he
      subst he
      cases hsel : r.select with
      | none => simp [hsel] at hs
      | some s0 =>
        simp only [hsel, Option.map_some', Option.some.injEq] at hs
        subst hs
        rfl
    · intro refs b he hb
      simp only [Option.some.injEq] at he
      subst he
      cases hbtn : r.resetButton with
      | none => simp [hbtn] at hb
      | some b0 =>
        simp only [hbtn, Option.map_some', Option.some.injEq] at hb
        subst hb
        rfl
    · intro e he
      simp only [List.mem_append] at he
      rcases he with he | he
      · exact Or.inl he
      · cases hc : r.formContainer with
        | none => simp [hc] at he
        | some c =>
          simp only [hc, List.mem_singleton] at he
          exact Or.inr he
    · intro refs he
      simp only [Option.some.injEq] at he
      subst he
      exact ⟨rfl, rfl, rfl, rfl⟩
    · intro he
      cases he

theorem loadSelectedForm_selects_first_match_witness :
    (loadSelectedForm sampleToKey (.str "contact") sampleWidget).1.selectedFormDefinition
      = .obj [("title", .str "Contact")] ∧
    (loadSelectedForm sampleToKey (.str "contact") sampleWidget).1.component.lookup
      "selectedFormId" = some (.str "contact") ∧
    (∀ refs s, (loadSelectedForm sampleToKey (.str "contact") sampleWidget).1.element
        = some refs →
      refs.select = some s → s.display = "none") ∧
    (∀ refs b, (loadSelectedForm sampleToKey (.str "contact") sampleWidget).1.element
        = some refs →
      refs.resetButton = some b → b.display = "block") ∧
    (loadSelectedForm sampleToKey (.str "contact") sampleWidget).1.forms
      = sampleWidget.forms ∧
    (∀ e ∈ (loadSelectedForm sampleToKey (.str "contact") sampleWidget).1.effects,
      e ∈ sampleWidget.effects ∨ e = .createForm (.obj [("title", .str "Contact")])) ∧
    (∀ refs, sampleWidget.element = some refs →
      (loadSelectedForm sampleToKey (.str "contact") sampleWidget).2 = none ∧
      (loadSelectedForm sampleToKey (.str "contact") sampleWidget).1.element =
        some ⟨refs.select.map (fun s => ⟨"none", s.value⟩),
          refs.formContainer.map (fun _ => ⟨""⟩),
          refs.resetButton.map (fun _ => ⟨"block"⟩)⟩ ∧
      (loadSelectedForm sampleToKey (.str "contact") sampleWidget).1.originalElement
        = some refs ∧
      (loadSelectedForm sampleToKey (.str "contact") sampleWidget).1.effects =
        sampleWidget.effects ++ (match refs.formContainer with
          | some _ => [.createForm (.obj [("title", .str "Contact")])]
          | none => [])) ∧
    (sampleWidget.element = none →
      (loadSelectedForm sampleToKey (.str "contact") sampleWidget).2 = some .typeError ∧
      (loadSelectedForm sampleToKey (.str "contact") sampleWidget).1.element = none ∧
      (loadSelectedForm sampleToKey (.str "contact") sampleWidget).1.effects
        = sampleWidget.effects) :=
  loadSelectedForm_selects_first_match sampleToKey (.str "contact") sampleWidget []
    [.obj [("_id", .str "65f0c0ffee0000000000beef"), ("formId", .str "draft")],
     .obj [("_id", .str "65f0c0ffee0000000000cafe"), ("formId", .str "contact"),
       ("formDefinition", .obj [("title", .str "Second")])]]
    (.obj [("_id", .str "65f0c0ffee0000000000abcd"), ("formId", .str "contact"),
       ("formDefinition", .obj [("title", .str "Contact")])])
    (.obj [("title", .str "Contact")])
    rfl (by intro x hx; cases hx) (by decide) rfl (by decide)

/-- The sample widget after `contact` has been selected: the definition of the
first `contact` of the list is kept, the selector is hidden, the reset button
is shown, and the form is being created in the emptied container. -/
theorem loadSelectedForm_sample :
    loadSelectedForm sampleToKey (.str "contact") sampleWidget =
      ({ sampleWidget with
          selectedFormDefinition := .obj [("title", .str "Contact")]
          component :=
            [("type", .str "formselect"), ("key", .str "formSelect"),
             ("dataUrl", .str "http://localhost:3000/forms"),
             ("valueProperty", .str "formId"), ("selectedFormId", .str "contact")]
          originalElement := sampleWidget.element
          element := some ⟨some ⟨"none", ""⟩, some ⟨""⟩, some ⟨"block"⟩⟩
          effects := [.createForm (.obj [("title", .str "Contact")])] }, none) := rfl

/-! ## The builder page -/

/-- On a page without the element `builder-controls` the call ends with a
`TypeError`, whatever else the page holds, and leaves the page with nothing
more than the new, empty container: after the element `builder` when there is
one, and as the last child of the body otherwise. -/
theorem createBuilderControls_missing (page : Page)
    (h : getElementById "builder-controls" page = none) :
    (createBuilderControls page).2 = some .typeError ∧
    (∀ builderElement, getElementById "builder" page = some builderElement →
      (createBuilderControls page).1 = insertAfter newControlsContainer builderElement page) ∧
    (getElementById "builder" page = none →
      (createBuilderControls page).1 = page ++ [newControlsContainer]) := by
  unfold createBuilderControls
  rw [h]
  refine ⟨rfl, ?_, ?_⟩
  · intro b hb
    simp only [hb]
  · intro hb
    simp only [hb]
    rfl

/-- On a page with the element `builder-controls` the call returns without an
exception, after appending the save button and then the element for messages
to that element. -/
theorem createBuilderControls_present (page : Page) (controlsContainer : List Nat)
    (h : getElementById "builder-controls" page = some controlsContainer) :
    createBuilderControls page =
      (appendChild messageDiv controlsContainer
        (appendChild saveButton controlsContainer page), none) := by
  unfold createBuilderControls
  rw [h]

/-- The call on the recommended page, which has the container: the button and
the element for messages are its two children afterwards. -/
theorem createBuilderControls_recommended :
    createBuilderControls recommendedPage =
      ([.element "div" "form-selector" "" none [],
        .element "div" "formio" "" none [],
        .element "div" "builder" "" none [],
        .element "div" "builder-controls" "" none
          [.element "button" "" "btn btn-primary mr-2" (some .saveFormDefinition)
            [.text "Guardar Formulario"],
           .element "div" "save-message" "mt-2" none []]], none) := rfl

/-- C21, the code at the failing input.  On the page `barePage`, which has the
element `builder` and no element `builder-controls`, `createBuilderControls`
ends with a `TypeError`: the new container stands after `builder`, and it is
empty: neither the button `Guardar Formulario` nor the element `save-message`
has been appended, and the page has no element `save-message`.  The same
happens when the page has no `builder` either, with the container as the last
child of the body, and when `builder` sits deeper in the page. -/
theorem createBuilderControls_throws_without_container :
    getElementById "builder-controls" barePage = none ∧
    createBuilderControls barePage =
      ([.element "div" "form-selector" "" none [],
        .element "div" "formio" "" none [],
        .element "div" "builder" "" none [],
        .element "div" "builder-controls" "mt-3" none []], some .typeError) ∧
    getElementById "save-message" (createBuilderControls barePage).1 = none ∧
    createBuilderControls emptyPage =
      ([.element "div" "formio" "" none [],
        .element "div" "builder-controls" "mt-3" none []], some .typeError) ∧
    createBuilderControls nestedPage =
      ([.element "main" "" "container" none
        [.element "div" "builder" "" none [],
         .element "div" "builder-controls" "mt-3" none [],
         .text "footer"]], some .typeError) :=
  ⟨rfl, rfl, rfl, rfl, rfl⟩

/-- The general statement applied to the bare page. -/
theorem createBuilderControls_missing_sample :
    (createBuilderControls barePage).2 = some .typeError ∧
    (∀ builderElement, getElementById "builder" barePage = some builderElement →
      (createBuilderControls barePage).1 =
        insertAfter newControlsContainer builderElement barePage) ∧
    (getElementById "builder" barePage = none →
      (createBuilderControls barePage).1 = barePage ++ [newControlsContainer]) :=
  createBuilderControls_missing barePage rfl

end FormSelect

namespace FormsApi

open FormSelect (Json truthy)

/-! ## Creating and looking up documents -/

theorem findOne_some_iff (docs : Collection) (formId : String) :
    (∃ d, findOne docs formId = some d) ↔ ∃ d ∈ docs, d.formId = formId := by
  unfold findOne
  constructor
  · rintro ⟨d, h⟩
    exact ⟨d, List.mem_of_find?_eq_some h, by simpa using List.find?_some h⟩
  · rintro ⟨d, hd, hf⟩
    cases h : docs.find? (fun d => d.formId == formId) with
    | some d' => exact ⟨d', rfl⟩
    | none =>
      rw [List.find?_eq_none] at h
      exact absurd (by simpa using hf) (h d hd)

theorem findOne_none_iff (docs : Collection) (formId : String) :
    findOne docs formId = none ↔ ∀ d ∈ docs, d.formId ≠ formId := by
  unfold findOne
  rw [List.find?_eq_none]
  simp

theorem findOne_mem (docs : Collection) (formId : String) (d : Formulario)
    (h : findOne docs formId = some d) : d ∈ docs ∧ d.formId = formId := by
  unfold findOne at h
  exact ⟨List.mem_of_find?_eq_some h, by simpa using List.find?_some h⟩

theorem save_fresh (docs : Collection) (doc : Formulario)
    (h1 : ∀ d ∈ docs, d.formId ≠ doc.formId) :
    save docs doc = .ok (docs ++ [doc]) := by
  unfold save
  have : docs.any (fun d => d.formId == doc.formId) = false := by
    rw [List.any_eq_false]
    intro d hd
    simp [h1 d hd]
  simp [this]

/-- C9. `POST /forms` with a non-empty `formId` and a truthy `formDefinition`:
when a document with that `formId` is stored, the answer is 409 and the
collection is left as it was; when none is, the answer is 201 with the new
document, which carries that `formId` and `formDefinition` and is stored after
the existing ones, themselves unchanged; and a second request with the same
`formId` is then answered 409 and stores nothing. -/
theorem postForms_creates_once (newId : String) (now : Nat) (docs : Collection)
    (formId : String) (formDefinition : Json)
    (hid : formId ≠ "") (hdef : truthy formDefinition = true) :
    ((∃ d ∈ docs, d.formId = formId) →
      postForms newId now docs ⟨some formId, some formDefinition⟩
        = (docs, ⟨409, .message "Ya existe un formulario con ese formId."⟩)) ∧
    ((∀ d ∈ docs, d.formId ≠ formId) →
      postForms newId now docs ⟨some formId, some formDefinition⟩
          = (docs ++ [⟨newId, formId, formDefinition, now⟩],
              ⟨201, .document ⟨newId, formId, formDefinition, now⟩⟩) ∧
      ∀ (newId' : String) (now' : Nat) (formDefinition' : Json),
        truthy formDefinition' = true →
        postForms newId' now'
            (postForms newId now docs ⟨some formId, some formDefinition⟩).1
            ⟨some formId, some formDefinition'⟩
          = (docs ++ [⟨newId, formId, formDefinition, now⟩],
              ⟨409, .message "Ya existe un formulario con ese formId."⟩)) := by
  have conflict : ∀ (i : String) (t : Nat) (ds : Collection) (fd : Json),
      truthy fd = true → (∃ d ∈ ds, d.formId = formId) →
      postForms i t ds ⟨some formId, some fd⟩
        = (ds, ⟨409, .message "Ya existe un formulario con ese formId."⟩) := by
    intro i t ds fd hfd hex
    obtain ⟨d, hd⟩ := (findOne_some_iff ds formId).mpr hex
    simp [postForms, hid, hfd, hd]
  refine ⟨conflict newId now docs formDefinition hdef, ?_⟩
  intro hnew
  have created : postForms newId now docs ⟨some formId, some formDefinition⟩
      = (docs ++ [⟨newId, formId, formDefinition, now⟩],
          ⟨201, .document ⟨newId, formId, formDefinition, now⟩⟩) := by
    have h1 := (findOne_none_iff docs formId).mpr hnew
    have h2 := save_fresh docs ⟨newId, formId, formDefinition, now⟩ hnew
    simp [postForms, hid, hdef, h1, h2]
  refine ⟨created, ?_⟩
  intro newId' now' fd' hfd'
  rw [created]
  exact conflict newId' now' _ fd' hfd'
    ⟨⟨newId, formId, formDefinition, now⟩, by simp, rfl⟩

theorem postForms_creates_once_witness :
    ((∃ d ∈ sampleDocs, d.formId = "A") →
      postForms "65f0c0ffee0000000000beef" 1700000600 sampleDocs
          ⟨some "A", some (.obj [("title", .str "A")])⟩
        = (sampleDocs, ⟨409, .message "Ya existe un formulario con ese formId."⟩)) ∧
    ((∀ d ∈ sampleDocs, d.formId ≠ "A") →
      postForms "65f0c0ffee0000000000beef" 1700000600 sampleDocs
          ⟨some "A", some (.obj [("title", .str "A")])⟩
          = (sampleDocs ++
                [⟨"65f0c0ffee0000000000beef", "A", .obj [("title", .str "A")], 1700000600⟩],
              ⟨201, .document
                ⟨"65f0c0ffee0000000000beef", "A", .obj [("title", .str "A")], 1700000600⟩⟩) ∧
      ∀ (newId' : String) (now' : Nat) (formDefinition' : Json),
        truthy formDefinition' = true →
        postForms newId' now'
            (postForms "65f0c0ffee0000000000beef" 1700000600 sampleDocs
              ⟨some "A", some (.obj [("title", .str "A")])⟩).1
            ⟨some "A", some formDefinition'⟩
          = (sampleDocs ++
                [⟨"65f0c0ffee0000000000beef", "A", .obj [("title", .str "A")], 1700000600⟩],
              ⟨409, .message "Ya existe un formulario con ese formId."⟩)) :=
  postForms_creates_once "65f0c0ffee0000000000beef" 1700000600 sampleDocs "A"
    (.obj [("title", .str "A")]) (by decide) (by decide)

/-- C10. `GET /forms/:id` looks the id up as a storage id first and, when that
lookup is rejected (a malformed id) or finds nothing, as a `formId`.  A
document found by storage id is returned with 200; failing that, a document
found by `formId` is returned with 200; the answer is 404 exactly when both
lookups find nothing, that is when no stored document has the id as its
storage id (for a well-formed id) or as its `formId`; and no id, malformed or
not, is answered with anything but 200 or 404. -/
theorem getForm_resolves_either_id (validId : String → Bool) (docs : Collection)
    (id : String) :
    (∀ d, findById validId docs id = .ok (some d) →
      getForm validId docs id = ⟨200, .document d⟩) ∧
    (∀ d, (findById validId docs id = .ok none ∨ ∃ e, findById validId docs id = .error e) →
      findOne docs id = some d → getForm validId docs id = ⟨200, .document d⟩) ∧
    ((getForm validId docs id).status = 404 ↔
      ((findById validId docs id = .ok none ∨ ∃ e, findById validId docs id = .error e) ∧
        findOne docs id = none)) ∧
    ((getForm validId docs id).status = 404 ↔
      ∀ d ∈ docs, ¬ (validId id = true ∧ d.id = id) ∧ d.formId ≠ id) ∧
    ((getForm validId docs id).status = 200 ∨ (getForm validId docs id).status = 404) ∧
    (validId id = false → findById validId docs id = .error .castError ∧
      (getForm validId docs id).status ≠ 500) := by
  have hfind : ∀ (p : Formulario → Bool), docs.find? p = none ↔ ∀ d ∈ docs, p d = false := by
    intro p
    rw [List.find?_eq_none]
    simp
  refine ⟨?_, ?_, ?_, ?_, ?_, ?_⟩
  · intro d h
    simp [getForm, findByIdOrNull, h]
  · intro d h hone
    rcases h with h | ⟨e, h⟩ <;> simp [getForm, findByIdOrNull, h, hone]
  · unfold getForm findByIdOrNull
    cases h : findById validId docs id with
    | error e =>
      cases h1 : findOne docs id <;> simp
    | ok found =>
      cases found with
      | none => cases h1 : findOne docs id <;> simp
      | some d => simp
  · unfold getForm findByIdOrNull findById
    by_cases hv : validId id = true
    · simp only [hv, if_true]
      cases h : docs.find? (fun d => d.id == id) with
      | some d =>
        have hm := List.mem_of_find?_eq_some h
        have hd : d.id = id := by simpa using List.find?_some h
        simp only [true_and]
        constructor
        · intro h'; simp at h'
        · intro h'; exact absurd hd (h' d hm).1
      | none =>
        have h0 := (hfind _).mp h
        cases h1 : findOne docs id with
        | some d =>
          obtain ⟨hm, hd⟩ := findOne_mem docs id d h1
          simp only [true_and]
          constructor
          · intro h'; simp at h'
          · intro h'; exact absurd hd (h' d hm).2
        | none =>
          have h2 := (findOne_none_iff docs id).mp h1
          simp only [true_and, true_iff]
          intro d hd
          exact ⟨by simpa using h0 d hd, h2 d hd⟩
    · simp only [hv, Bool.false_eq_true, if_false, false_and, not_false_eq_true, true_and]
      cases h1 : findOne docs id with
      | some d =>
        obtain ⟨hm, hd⟩ := findOne_mem docs id d h1
        constructor
        · intro h'; simp at h'
        · intro h'; exact absurd hd (h' d hm)
      | none =>
        have h2 := (findOne_none_iff docs id).mp h1
        simp only [true_iff]
        exact h2
  · unfold getForm
    cases findByIdOrNull validId docs id with
    | some d => simp
    | none => cases findOne docs id <;> simp
  · intro hv
    refine ⟨by simp [findById, hv], ?_⟩
    unfold getForm
    cases findByIdOrNull validId docs id with
    | some d => simp
    | none => cases findOne docs id <;> simp

/-- The sample collection answers a lookup by storage id, a lookup by `formId`
(a malformed storage id) and a lookup of an unknown id. -/
theorem getForm_sample :
    (getForm sampleValidId sampleDocs "65f0c0ffee0000000000abcd").status = 200 ∧
    (getForm sampleValidId sampleDocs "contact").status = 200 ∧
    (getForm sampleValidId sampleDocs "missing").status = 404 := by
  decide

/-! ## Resolving, updating and deleting documents -/

theorem firstMatch_some (p : Formulario → Bool) (docs : Collection) :
    ∀ (i : Nat) (d : Formulario), firstMatch p docs = some (i, d) →
      docs[i]? = some d ∧ p d = true ∧
      ∀ (j : Nat) (e : Formulario), j < i → docs[j]? = some e → p e = false := by
  induction docs with
  | nil => intro i d h; simp [firstMatch] at h
  | cons x rest ih =>
    intro i d h
    rw [firstMatch] at h
    by_cases hp : p x = true
    · simp only [hp, if_true, Option.some.injEq, Prod.mk.injEq] at h
      obtain ⟨rfl, rfl⟩ := h
      exact ⟨by simp, hp, fun j e hj _ => absurd hj (Nat.not_lt_zero j)⟩
    · simp only [hp, Bool.false_eq_true, if_false, Option.map_eq_some', Prod.mk.injEq] at h
      obtain ⟨⟨k, e⟩, hk, rfl, rfl⟩ := h
      obtain ⟨h1, h2, h3⟩ := ih k e hk
      refine ⟨by simpa using h1, h2, ?_⟩
      intro j e' hj he'
      cases j with
      | zero =>
        simp only [List.getElem?_cons_zero, Option.some.injEq] at he'
        subst he'
        simpa using hp
      | succ j =>
        simp only [List.getElem?_cons_succ] at he'
        exact h3 j e' (by omega) he'

theorem firstMatch_none (p : Formulario → Bool) (docs : Collection) :
    firstMatch p docs = none ↔ ∀ d ∈ docs, p d = false := by
  induction docs with
  | nil => simp [firstMatch]
  | cons x rest ih =>
    rw [firstMatch]
    by_cases hp : p x = true
    · simp [hp]
    · simp only [hp, Bool.false_eq_true, if_false, Option.map_eq_none', ih]
      simp [hp]

theorem firstMatch_of_mem (p : Formulario → Bool) (docs : Collection) (x : Formulario)
    (hx : x ∈ docs) (hp : p x = true) : ∃ i d, firstMatch p docs = some (i, d) := by
  cases h : firstMatch p docs with
  | some r => exact ⟨r.1, r.2, rfl⟩
  | none =>
    have := (firstMatch_none p docs).mp h x hx
    rw [hp] at this
    cases this

theorem find?_eq_firstMatch (p : Formulario → Bool) (docs : Collection) :
    docs.find? p = (firstMatch p docs).map (fun r => r.2) := by
  induction docs with
  | nil => rfl
  | cons x rest ih =>
    rw [firstMatch]
    by_cases hp : p x = true
    · simp [List.find?, hp]
    · simp only [Bool.not_eq_true] at hp
      simp only [List.find?, hp, ih, Bool.false_eq_true, if_false, Option.map_map]
      rfl

theorem updateFirst_eq (p : Formulario → Bool) (fd : Json) (docs : Collection) :
    updateFirst p fd docs =
      match firstMatch p docs with
      | some (i, d) =>
        (docs.set i { d with formDefinition := fd }, some { d with formDefinition := fd })
      | none => (docs, none) := by
  induction docs with
  | nil => rfl
  | cons x rest ih =>
    rw [updateFirst, firstMatch]
    by_cases hp : p x = true
    · simp [hp]
    · simp only [hp, Bool.false_eq_true, if_false, ih]
      cases firstMatch p rest with
      | none => rfl
      | some r => rfl

theorem removeFirst_eq (p : Formulario → Bool) (docs : Collection) :
    removeFirst p docs =
      match firstMatch p docs with
      | some (i, d) => (docs.eraseIdx i, some d)
      | none => (docs, none) := by
  induction docs with
  | nil => rfl
  | cons x rest ih =>
    rw [removeFirst, firstMatch]
    by_cases hp : p x = true
    · simp [hp]
    · simp only [hp, Bool.false_eq_true, if_false, ih]
      cases firstMatch p rest with
      | none => rfl
      | some r => rfl

theorem resolve_some (validId : String → Bool) (docs : Collection) (id : String)
    (i : Nat) (d : Formulario) (h : resolve validId docs id = some (i, d)) :
    docs[i]? = some d ∧ (d.id = id ∨ d.formId = id) := by
  unfold resolve at h
  split at h
  · rename_i r hr
    simp only [Option.some.injEq] at h
    subst h
    split at hr
    · obtain ⟨h1, h2, _⟩ := firstMatch_some _ docs i d hr
      exact ⟨h1, Or.inl (by simpa using h2)⟩
    · cases hr
  · obtain ⟨h1, h2, _⟩ := firstMatch_some _ docs i d h
    exact ⟨h1, Or.inr (by simpa using h2)⟩

theorem resolve_none_of_unrelated (validId : String → Bool) (docs : Collection) (id : String)
    (h : ∀ d ∈ docs, d.id ≠ id ∧ d.formId ≠ id) : resolve validId docs id = none := by
  have h1 : firstMatch (fun d => d.id == id) docs = none :=
    (firstMatch_none _ docs).mpr (fun d hd => by simpa using (h d hd).1)
  have h2 : firstMatch (fun d => d.formId == id) docs = none :=
    (firstMatch_none _ docs).mpr (fun d hd => by simpa using (h d hd).2)
  unfold resolve
  by_cases hv : validId id = true <;> simp [hv, h1, h2]

theorem resolve_by_storage_id (validId : String → Bool) (docs : Collection) (x : Formulario)
    (hx : x ∈ docs) (hok : StorageIdsOk validId docs) :
    ∃ i, resolve validId docs x.id = some (i, x) := by
  obtain ⟨i, d, h⟩ := firstMatch_of_mem (fun d => d.id == x.id) docs x hx (by simp)
  obtain ⟨h1, h2, _⟩ := firstMatch_some _ docs i d h
  have hd : d ∈ docs := List.mem_iff_getElem?.mpr ⟨i, h1⟩
  have e : d = x :=
    List.inj_on_of_nodup_map hok.2 hd hx (by simpa using h2)
  subst e
  exact ⟨i, by simp [resolve, hok.1 d hx, h]⟩

theorem resolve_by_formId (validId : String → Bool) (docs : Collection) (x : Formulario)
    (hx : x ∈ docs) (hforms : (docs.map (fun d => d.formId)).Nodup)
    (hfree : ∀ y ∈ docs, y.id ≠ x.formId) :
    ∃ i, resolve validId docs x.formId = some (i, x) := by
  have h0 : firstMatch (fun d => d.id == x.formId) docs = none :=
    (firstMatch_none _ docs).mpr (fun d hd => by simpa using hfree d hd)
  obtain ⟨i, d, h⟩ := firstMatch_of_mem (fun d => d.formId == x.formId) docs x hx (by simp)
  obtain ⟨h1, h2, _⟩ := firstMatch_some _ docs i d h
  have hd : d ∈ docs := List.mem_iff_getElem?.mpr ⟨i, h1⟩
  have e : d = x :=
    List.inj_on_of_nodup_map hforms hd hx (by simpa using h2)
  subst e
  refine ⟨i, ?_⟩
  unfold resolve
  by_cases hv : validId d.formId = true <;> simp [hv, h0, h]

theorem getForm_eq (validId : String → Bool) (docs : Collection) (id : String) :
    getForm validId docs id =
      match resolve validId docs id with
      | some (_, d) => ⟨200, .document d⟩
      | none => ⟨404, .message "Formulario no encontrado."⟩ := by
  unfold getForm findByIdOrNull findById findOne resolve
  rw [find?_eq_firstMatch, find?_eq_firstMatch]
  by_cases hv : validId id = true
  · simp only [hv, if_true]
    cases firstMatch (fun d => d.id == id) docs with
    | some r => rfl
    | none =>
      cases firstMatch (fun d => d.formId == id) docs with
      | some r => rfl
      | none => rfl
  · simp only [hv, Bool.false_eq_true, if_false]
    cases firstMatch (fun d => d.formId == id) docs with
    | some r => rfl
    | none => rfl

theorem putForm_eq (validId : String → Bool) (docs : Collection) (id : String) (fd : Json)
    (hfd : truthy fd = true) :
    putForm validId docs id ⟨some fd⟩ =
      match resolve validId docs id with
      | some (i, d) =>
        (docs.set i { d with formDefinition := fd },
          ⟨200, .document { d with formDefinition := fd }⟩)
      | none => (docs, ⟨404, .message "Formulario no encontrado."⟩) := by
  unfold putForm findByIdAndUpdate findOneAndUpdate resolve
  simp only [hfd, Bool.true_eq_false, if_false]
  rw [updateFirst_eq]
  by_cases hv : validId id = true
  · simp only [hv, if_true]
    cases firstMatch (fun d => d.id == id) docs with
    | some r => rfl
    | none =>
      simp only [updateFirst_eq]
      cases firstMatch (fun d => d.formId == id) docs with
      | some r => rfl
      | none => rfl
  · simp only [hv, Bool.false_eq_true, if_false, updateFirst_eq]
    cases firstMatch (fun d => d.formId == id) docs with
    | some r => rfl
    | none => rfl

theorem deleteForm_eq (validId : String → Bool) (docs : Collection) (id : String) :
    deleteForm validId docs id =
      match resolve validId docs id with
      | some (i, _) =>
        (docs.eraseIdx i, ⟨200, .message "Formulario eliminado correctamente."⟩)
      | none => (docs, ⟨404, .message "Formulario no encontrado."⟩) := by
  unfold deleteForm findByIdAndDelete findOneAndDelete resolve
  rw [removeFirst_eq]
  by_cases hv : validId id = true
  · simp only [hv, if_true]
    cases firstMatch (fun d => d.id == id) docs with
    | some r => rfl
    | none =>
      simp only [removeFirst_eq]
      cases firstMatch (fun d => d.formId == id) docs with
      | some r => rfl
      | none => rfl
  · simp only [hv, Bool.false_eq_true, if_false, removeFirst_eq]
    cases firstMatch (fun d => d.formId == id) docs with
    | some r => rfl
    | none => rfl

theorem mem_set_of_ne (docs : Collection) (i : Nat) (x y z : Formulario)
    (hi : docs[i]? = some x) (hy : y ∈ docs) (hne : x ≠ y) : y ∈ docs.set i z := by
  obtain ⟨j, hj⟩ := List.mem_iff_getElem?.mp hy
  have hij : i ≠ j := by
    intro e
    subst e
    rw [hi] at hj
    exact hne (Option.some.inj hj)
  exact List.mem_iff_getElem?.mpr ⟨j, by rw [List.getElem?_set_ne hij]; exact hj⟩

theorem mem_eraseIdx_of_ne (docs : Collection) :
    ∀ (i : Nat) (x y : Formulario), docs[i]? = some x → y ∈ docs → x ≠ y →
      y ∈ docs.eraseIdx i := by
  induction docs with
  | nil => intro i x y hi; simp at hi
  | cons d rest ih =>
    intro i x y hi hy hne
    cases i with
    | zero =>
      simp only [List.getElem?_cons_zero, Option.some.injEq] at hi
      subst hi
      simp only [List.eraseIdx_cons_zero]
      rcases List.mem_cons.mp hy with e | h
      · exact absurd e.symm hne
      · exact h
    | succ i =>
      simp only [List.getElem?_cons_succ] at hi
      simp only [List.eraseIdx_cons_succ]
      rcases List.mem_cons.mp hy with e | h
      · exact List.mem_cons.mpr (Or.inl e)
      · exact List.mem_cons_of_mem _ (ih i x y hi h hne)

/-! ## The handlers on `/forms/:id` -/

/-- C11. When the id is the storage id of a stored document `X` and the
`formId` of another stored document `Y`, in a collection whose storage ids are
well formed and unique, `GET`, `PUT` and `DELETE /forms/:id` all act on `X`:
`GET` returns `X`, `PUT` gives `X` the new `formDefinition` at its place,
`DELETE` removes `X` from its place, and `Y` is still stored after each.  The
handlers are functions of the collection, the id and the body. -/
theorem handlers_prefer_storage_id (validId : String → Bool) (docs : Collection)
    (id : String) (x y : Formulario) (fd : Json)
    (hx : x ∈ docs) (hy : y ∈ docs) (hxy : x ≠ y)
    (hid : x.id = id) (_hform : y.formId = id)
    (hok : StorageIdsOk validId docs) (hfd : truthy fd = true) :
    ∃ i, docs[i]? = some x ∧
      getForm validId docs id = ⟨200, .document x⟩ ∧
      putForm validId docs id ⟨some fd⟩ =
        (docs.set i { x with formDefinition := fd },
          ⟨200, .document { x with formDefinition := fd }⟩) ∧
      deleteForm validId docs id =
        (docs.eraseIdx i, ⟨200, .message "Formulario eliminado correctamente."⟩) ∧
      y ∈ (putForm validId docs id ⟨some fd⟩).1 ∧
      y ∈ (deleteForm validId docs id).1 := by
  obtain ⟨i, hr⟩ := resolve_by_storage_id validId docs x hx hok
  rw [hid] at hr
  have hi := (resolve_some validId docs id i x hr).1
  have hget : getForm validId docs id = ⟨200, .document x⟩ := by
    rw [getForm_eq, hr]
  have hput : putForm validId docs id ⟨some fd⟩ =
      (docs.set i { x with formDefinition := fd },
        ⟨200, .document { x with formDefinition := fd }⟩) := by
    rw [putForm_eq validId docs id fd hfd, hr]
  have hdel : deleteForm validId docs id =
      (docs.eraseIdx i, ⟨200, .message "Formulario eliminado correctamente."⟩) := by
    rw [deleteForm_eq, hr]
  refine ⟨i, hi, hget, hput, hdel, ?_, ?_⟩
  · rw [hput]
    exact mem_set_of_ne docs i x y _ hi hy hxy
  · rw [hdel]
    exact mem_eraseIdx_of_ne docs i x y hi hy hxy

theorem handlers_prefer_storage_id_witness :
    ∃ i, collidingDocs[i]? =
        some ⟨"65f0c0ffee0000000000abcd", "contact", .obj [("title", .str "Contact")],
          1700000000⟩ ∧
      getForm sampleValidId collidingDocs "65f0c0ffee0000000000abcd" =
        ⟨200, .document ⟨"65f0c0ffee0000000000abcd", "contact",
          .obj [("title", .str "Contact")], 1700000000⟩⟩ ∧
      putForm sampleValidId collidingDocs "65f0c0ffee0000000000abcd"
          ⟨some (.obj [("title", .str "New")])⟩ =
        (collidingDocs.set i
            { (⟨"65f0c0ffee0000000000abcd", "contact", .obj [("title", .str "Contact")],
                1700000000⟩ : Formulario) with formDefinition := .obj [("title", .str "New")] },
          ⟨200, .document
            { (⟨"65f0c0ffee0000000000abcd", "contact", .obj [("title", .str "Contact")],
                1700000000⟩ : Formulario) with
              formDefinition := .obj [("title", .str "New")] }⟩) ∧
      deleteForm sampleValidId collidingDocs "65f0c0ffee0000000000abcd" =
        (collidingDocs.eraseIdx i,
          ⟨200, .message "Formulario eliminado correctamente."⟩) ∧
      (⟨"65f0c0ffee0000000000beef", "65f0c0ffee0000000000abcd",
          .obj [("title", .str "Survey")], 1700000600⟩ : Formulario) ∈
        (putForm sampleValidId collidingDocs "65f0c0ffee0000000000abcd"
          ⟨some (.obj [("title", .str "New")])⟩).1 ∧
      (⟨"65f0c0ffee0000000000beef", "65f0c0ffee0000000000abcd",
          .obj [("title", .str "Survey")], 1700000600⟩ : Formulario) ∈
        (deleteForm sampleValidId collidingDocs "65f0c0ffee0000000000abcd").1 :=
  handlers_prefer_storage_id sampleValidId collidingDocs "65f0c0ffee0000000000abcd"
    ⟨"65f0c0ffee0000000000abcd", "contact", .obj [("title", .str "Contact")], 1700000000⟩
    ⟨"65f0c0ffee0000000000beef", "65f0c0ffee0000000000abcd",
      .obj [("title", .str "Survey")], 1700000600⟩
    (.obj [("title", .str "New")])
    (by simp [collidingDocs]) (by simp [collidingDocs]) (by simp) rfl rfl
    ⟨by decide, by decide⟩ (by decide)

/-- C12, the claim fails.  In a collection with well-formed, unique storage ids
and unique `formId`s, the second document is stored, and `GET /forms/:id` with
its `formId` answers 200 with the first document, whose storage id that
`formId` is, and not with the second. -/
theorem getForm_by_formId_returns_other :
    StorageIdsOk sampleValidId collidingDocs ∧
    (collidingDocs.map (fun d => d.formId)).Nodup ∧
    collidingDocs[1]? =
      some ⟨"65f0c0ffee0000000000beef", "65f0c0ffee0000000000abcd",
        .obj [("title", .str "Survey")], 1700000600⟩ ∧
    getForm sampleValidId collidingDocs "65f0c0ffee0000000000abcd" =
      ⟨200, .document ⟨"65f0c0ffee0000000000abcd", "contact",
        .obj [("title", .str "Contact")], 1700000000⟩⟩ ∧
    getForm sampleValidId collidingDocs "65f0c0ffee0000000000abcd" ≠
      ⟨200, .document ⟨"65f0c0ffee0000000000beef", "65f0c0ffee0000000000abcd",
        .obj [("title", .str "Survey")], 1700000600⟩⟩ := by
  refine ⟨⟨by decide, by decide⟩, by decide, rfl, rfl, ?_⟩
  intro h
  have h' : getForm sampleValidId collidingDocs "65f0c0ffee0000000000abcd" =
      ⟨200, .document ⟨"65f0c0ffee0000000000abcd", "contact",
        .obj [("title", .str "Contact")], 1700000000⟩⟩ := rfl
  rw [h'] at h
  simp at h

/-- C12, as amended.  In a collection with well-formed, unique storage ids and
unique `formId`s, for every stored document `D`: `GET /forms/:id` with `D`'s
storage id answers 200 with `D`; with `D`'s `formId` it answers 200 with `D`
when that `formId` is the storage id of no stored document, and 200 with the
document whose storage id it is otherwise. -/
theorem getForm_finds_stored_document (validId : String → Bool) (docs : Collection)
    (d : Formulario) (hd : d ∈ docs) (hok : StorageIdsOk validId docs)
    (hforms : (docs.map (fun e => e.formId)).Nodup) :
    getForm validId docs d.id = ⟨200, .document d⟩ ∧
    ((∀ x ∈ docs, x.id ≠ d.formId) →
      getForm validId docs d.formId = ⟨200, .document d⟩) ∧
    (∀ x ∈ docs, x.id = d.formId →
      getForm validId docs d.formId = ⟨200, .document x⟩) := by
  refine ⟨?_, ?_, ?_⟩
  · obtain ⟨i, hr⟩ := resolve_by_storage_id validId docs d hd hok
    rw [getForm_eq, hr]
  · intro hfree
    obtain ⟨i, hr⟩ := resolve_by_formId validId docs d hd hforms hfree
    rw [getForm_eq, hr]
  · intro x hx hxid
    obtain ⟨i, hr⟩ := resolve_by_storage_id validId docs x hx hok
    rw [hxid] at hr
    rw [getForm_eq, hr]

theorem getForm_finds_stored_document_witness :
    getForm sampleValidId sampleDocs "65f0c0ffee0000000000abcd" =
      ⟨200, .document ⟨"65f0c0ffee0000000000abcd", "contact",
        .obj [("title", .str "Contact")], 1700000000⟩⟩ ∧
    ((∀ x ∈ sampleDocs, x.id ≠ "contact") →
      getForm sampleValidId sampleDocs "contact" =
        ⟨200, .document ⟨"65f0c0ffee0000000000abcd", "contact",
          .obj [("title", .str "Contact")], 1700000000⟩⟩) ∧
    (∀ x ∈ sampleDocs, x.id = "contact" →
      getForm sampleValidId sampleDocs "contact" = ⟨200, .document x⟩) :=
  getForm_finds_stored_document sampleValidId sampleDocs
    ⟨"65f0c0ffee0000000000abcd", "contact", .obj [("title", .str "Contact")], 1700000000⟩
    (by simp [sampleDocs]) ⟨by decide, by decide⟩ (by decide)

/-- C13. `PUT /forms/:id` with a truthy `formDefinition` acts on the document
the id resolves to, storage id first and then `formId`, which is the document
`GET /forms/:id` returns.  When there is one, at place `i`, the answer is 200
with that document carrying the request's `formDefinition` and its own
`formId`, `createdAt` and storage id, the collection holds this updated
document at place `i` and, at every other place, what it held; when there is
none, the answer is 404, as for `GET`, and the collection is left as it was. -/
theorem putForm_updates_resolved (validId : String → Bool) (docs : Collection)
    (id : String) (fd : Json) (hfd : truthy fd = true) :
    (∀ (i : Nat) (d : Formulario), resolve validId docs id = some (i, d) →
      docs[i]? = some d ∧
      getForm validId docs id = ⟨200, .document d⟩ ∧
      putForm validId docs id ⟨some fd⟩ =
        (docs.set i ⟨d.id, d.formId, fd, d.createdAt⟩,
          ⟨200, .document ⟨d.id, d.formId, fd, d.createdAt⟩⟩) ∧
      (putForm validId docs id ⟨some fd⟩).1[i]? = some ⟨d.id, d.formId, fd, d.createdAt⟩ ∧
      (putForm validId docs id ⟨some fd⟩).1.length = docs.length ∧
      ∀ j, j ≠ i → (putForm validId docs id ⟨some fd⟩).1[j]? = docs[j]?) ∧
    (resolve validId docs id = none →
      getForm validId docs id = ⟨404, .message "Formulario no encontrado."⟩ ∧
      putForm validId docs id ⟨some fd⟩ =
        (docs, ⟨404, .message "Formulario no encontrado."⟩)) := by
  refine ⟨?_, ?_⟩
  · intro i d hr
    have hi := (resolve_some validId docs id i d hr).1
    have hput : putForm validId docs id ⟨some fd⟩ =
        (docs.set i ⟨d.id, d.formId, fd, d.createdAt⟩,
          ⟨200, .document ⟨d.id, d.formId, fd, d.createdAt⟩⟩) := by
      rw [putForm_eq validId docs id fd hfd, hr]
    refine ⟨hi, by rw [getForm_eq, hr], hput, ?_, ?_, ?_⟩
    · rw [hput]
      have hlt : i < docs.length := (List.getElem?_eq_some_iff.mp hi).1
      simp [List.getElem?_set_self hlt]
    · rw [hput]; simp
    · intro j hj
      rw [hput]
      simp [List.getElem?_set_ne (Ne.symm hj)]
  · intro hr
    exact ⟨by rw [getForm_eq, hr], by rw [putForm_eq validId docs id fd hfd, hr]⟩

theorem putForm_updates_resolved_witness :
    (∀ (i : Nat) (d : Formulario), resolve sampleValidId sampleDocs "contact" = some (i, d) →
      sampleDocs[i]? = some d ∧
      getForm sampleValidId sampleDocs "contact" = ⟨200, .document d⟩ ∧
      putForm sampleValidId sampleDocs "contact" ⟨some (.obj [("title", .str "New")])⟩ =
        (sampleDocs.set i ⟨d.id, d.formId, .obj [("title", .str "New")], d.createdAt⟩,
          ⟨200, .document ⟨d.id, d.formId, .obj [("title", .str "New")], d.createdAt⟩⟩) ∧
      (putForm sampleValidId sampleDocs "contact"
          ⟨some (.obj [("title", .str "New")])⟩).1[i]?
        = some ⟨d.id, d.formId, .obj [("title", .str "New")], d.createdAt⟩ ∧
      (putForm sampleValidId sampleDocs "contact"
          ⟨some (.obj [("title", .str "New")])⟩).1.length = sampleDocs.length ∧
      ∀ j, j ≠ i →
        (putForm sampleValidId sampleDocs "contact"
          ⟨some (.obj [("title", .str "New")])⟩).1[j]? = sampleDocs[j]?) ∧
    (resolve sampleValidId sampleDocs "contact" = none →
      getForm sampleValidId sampleDocs "contact"
        = ⟨404, .message "Formulario no encontrado."⟩ ∧
      putForm sampleValidId sampleDocs "contact" ⟨some (.obj [("title", .str "New")])⟩ =
        (sampleDocs, ⟨404, .message "Formulario no encontrado."⟩)) :=
  putForm_updates_resolved sampleValidId sampleDocs "contact"
    (.obj [("title", .str "New")]) (by decide)

/-- The sample collection after `PUT /forms/contact`: the document keeps its
storage id, `formId` and `createdAt` and carries the new definition. -/
theorem putForm_sample :
    putForm sampleValidId sampleDocs "contact" ⟨some (.obj [("title", .str "New")])⟩ =
      ([⟨"65f0c0ffee0000000000abcd", "contact", .obj [("title", .str "New")], 1700000000⟩],
        ⟨200, .document
          ⟨"65f0c0ffee0000000000abcd", "contact", .obj [("title", .str "New")],
            1700000000⟩⟩) := rfl

/-- C14. `DELETE /forms/:id` acts on the document the id resolves to, storage
id first and then `formId`.  When there is one, at place `i`, the answer is
200 and the collection is the old one without its element at place `i`: the
documents before it and those after it are kept, in order.  When the id is
neither the storage id nor the `formId` of a stored document, the answer is 404
and the collection is left as it was.  A stored document of which the id is
neither the storage id nor the `formId` is never removed. -/
theorem deleteForm_removes_resolved (validId : String → Bool) (docs : Collection)
    (id : String) :
    (∀ (i : Nat) (d : Formulario), resolve validId docs id = some (i, d) →
      docs[i]? = some d ∧ (d.id = id ∨ d.formId = id) ∧
      deleteForm validId docs id =
        (docs.eraseIdx i, ⟨200, .message "Formulario eliminado correctamente."⟩) ∧
      (deleteForm validId docs id).1.length + 1 = docs.length ∧
      (∀ j, j < i → (deleteForm validId docs id).1[j]? = docs[j]?) ∧
      (∀ j, i ≤ j → (deleteForm validId docs id).1[j]? = docs[j + 1]?)) ∧
    (resolve validId docs id = none →
      deleteForm validId docs id = (docs, ⟨404, .message "Formulario no encontrado."⟩)) ∧
    ((∀ d ∈ docs, d.id ≠ id ∧ d.formId ≠ id) →
      deleteForm validId docs id = (docs, ⟨404, .message "Formulario no encontrado."⟩)) ∧
    (∀ d ∈ docs, d.id ≠ id → d.formId ≠ id → d ∈ (deleteForm validId docs id).1) := by
  have hnone : resolve validId docs id = none →
      deleteForm validId docs id =
        (docs, ⟨404, .message "Formulario no encontrado."⟩) := by
    intro hr
    rw [deleteForm_eq, hr]
  refine ⟨?_, hnone, fun h => hnone (resolve_none_of_unrelated validId docs id h), ?_⟩
  · intro i d hr
    obtain ⟨hi, hkey⟩ := resolve_some validId docs id i d hr
    have hdel : deleteForm validId docs id =
        (docs.eraseIdx i, ⟨200, .message "Formulario eliminado correctamente."⟩) := by
      rw [deleteForm_eq, hr]
    have hlt : i < docs.length := (List.getElem?_eq_some_iff.mp hi).1
    refine ⟨hi, hkey, hdel, ?_, ?_, ?_⟩
    · rw [hdel]
      simp only [List.length_eraseIdx, hlt, if_true]
      omega
    · intro j hj
      rw [hdel]
      simp [List.getElem?_eraseIdx, hj]
    · intro j hj
      rw [hdel]
      have : ¬ j < i := by omega
      simp [List.getElem?_eraseIdx, this]
  · intro d hd h1 h2
    cases hr : resolve validId docs id with
    | none => rw [hnone hr]; exact hd
    | some r =>
      obtain ⟨i, x⟩ := r
      obtain ⟨hi, hkey⟩ := resolve_some validId docs id i x hr
      rw [deleteForm_eq, hr]
      refine mem_eraseIdx_of_ne docs i x d hi hd ?_
      intro e
      subst e
      rcases hkey with h | h
      · exact h1 h
      · exact h2 h

/-- The sample collection: deleting by `formId` removes the document, deleting
with an unknown id answers 404 and removes nothing. -/
theorem deleteForm_sample :
    (deleteForm sampleValidId sampleDocs "contact").1 = [] ∧
    (deleteForm sampleValidId sampleDocs "contact").2.status = 200 ∧
    (deleteForm sampleValidId sampleDocs "missing").1 = sampleDocs ∧
    (deleteForm sampleValidId sampleDocs "missing").2.status = 404 := by
  refine ⟨rfl, rfl, rfl, rfl⟩

/-- C15. A request that lacks a required field is answered 400 and leaves the
collection as it was, whatever the collection holds and, for `PUT`, whatever
the id: `POST /forms` when `formId` is missing or empty or `formDefinition` is
missing or falsy, `PUT /forms/:id` when `formDefinition` is missing or
falsy. -/
theorem missing_field_is_rejected (validId : String → Bool) (newId : String) (now : Nat)
    (docs : Collection) (id : String) :
    (∀ body : PostBody,
      (body.formId = none ∨ body.formId = some "" ∨
        FormSelect.truthy? body.formDefinition = false) →
      postForms newId now docs body =
        (docs, ⟨400,
          .message "Se requiere 'formId' y 'formDefinition' en el cuerpo de la petición."⟩)) ∧
    (∀ body : PutBody, FormSelect.truthy? body.formDefinition = false →
      putForm validId docs id body =
        (docs, ⟨400, .message "Se requiere 'formDefinition' en el cuerpo de la petición."⟩)) := by
  refine ⟨?_, ?_⟩
  · rintro ⟨formId, formDefinition⟩ h
    cases formId with
    | none => rfl
    | some f =>
      cases formDefinition with
      | none => rfl
      | some fd =>
        simp only [FormSelect.truthy?] at h
        simp only [postForms]
        rcases h with h | h | h
        · cases h
        · simp only [Option.some.injEq] at h
          simp [h]
        · simp [h]
  · rintro ⟨formDefinition⟩ h
    cases formDefinition with
    | none => rfl
    | some fd =>
      simp only [FormSelect.truthy?] at h
      simp [putForm, h]

/-! ## The uniqueness invariant of the collection -/

/-- An update changes neither a `formId` nor a storage id, nor the order of the
documents. -/
theorem updateFirst_keys (p : Formulario → Bool) (fd : Json) (docs : Collection) :
    (updateFirst p fd docs).1.map (fun d => d.formId) = docs.map (fun d => d.formId) ∧
    (updateFirst p fd docs).1.map (fun d => d.id) = docs.map (fun d => d.id) := by
  induction docs with
  | nil => exact ⟨rfl, rfl⟩
  | cons d rest ih =>
    by_cases hp : p d = true
    · simp [updateFirst, hp]
    · simp only [updateFirst, hp, Bool.false_eq_true, if_false, List.map_cons, ih.1, ih.2]
      exact ⟨trivial, trivial⟩

/-- A removal leaves a sublist of the collection. -/
theorem removeFirst_sublist (p : Formulario → Bool) (docs : Collection) :
    (removeFirst p docs).1.Sublist docs := by
  induction docs with
  | nil => exact List.Sublist.refl _
  | cons d rest ih =>
    by_cases hp : p d = true
    · simp [removeFirst, hp]
    · simp only [removeFirst, hp, Bool.false_eq_true, if_false]
      exact ih.cons₂ d

/-- The handler `PUT /forms/:id` changes neither a `formId` nor a storage id. -/
theorem putForm_keys (validId : String → Bool) (docs : Collection) (id : String)
    (body : PutBody) :
    (putForm validId docs id body).1.map (fun d => d.formId) = docs.map (fun d => d.formId) ∧
    (putForm validId docs id body).1.map (fun d => d.id) = docs.map (fun d => d.id) := by
  obtain ⟨formDefinition⟩ := body
  cases formDefinition with
  | none => exact ⟨rfl, rfl⟩
  | some fd =>
    by_cases hfd : truthy fd = true
    · rw [putForm_eq validId docs id fd hfd]
      cases hr : resolve validId docs id with
      | none => exact ⟨rfl, rfl⟩
      | some r =>
        obtain ⟨i, d⟩ := r
        have hi := (resolve_some validId docs id i d hr).1
        have hlt : i < docs.length := (List.getElem?_eq_some_iff.mp hi).1
        have hd : docs[i] = d := (List.getElem?_eq_some_iff.mp hi).2
        simp only
        constructor
        · apply List.ext_getElem?
          intro j
          by_cases hj : i = j
          · subst hj
            simp [hlt, hd]
          · simp [List.getElem?_set_ne hj]
        · apply List.ext_getElem?
          intro j
          by_cases hj : i = j
          · subst hj
            simp [hlt, hd]
          · simp [List.getElem?_set_ne hj]
    · have hfd' : truthy fd = false := by simpa using hfd
      simp [putForm, hfd']

/-- The handler `DELETE /forms/:id` leaves a sublist of the collection. -/
theorem deleteForm_sublist (validId : String → Bool) (docs : Collection) (id : String) :
    (deleteForm validId docs id).1.Sublist docs := by
  rw [deleteForm_eq]
  cases hr : resolve validId docs id with
  | none => exact List.Sublist.refl _
  | some r => exact List.eraseIdx_sublist docs r.1

/-- The handler `POST /forms` leaves the collection as it was, or appends one
document whose `formId` no stored document has and whose storage id is the
one drawn. -/
theorem postForms_appends (newId : String) (now : Nat) (docs : Collection) (body : PostBody) :
    (postForms newId now docs body).1 = docs ∨
    ∃ formId formDefinition, (∀ d ∈ docs, d.formId ≠ formId) ∧
      (postForms newId now docs body).1 = docs ++ [⟨newId, formId, formDefinition, now⟩] := by
  obtain ⟨formId, formDefinition⟩ := body
  cases formId with
  | none => exact Or.inl rfl
  | some f =>
    cases formDefinition with
    | none => exact Or.inl rfl
    | some fd =>
      simp only [postForms]
      split
      · exact Or.inl rfl
      · cases hf : findOne docs f with
        | some x => exact Or.inl rfl
        | none =>
          have hfree : ∀ d ∈ docs, d.formId ≠ f := (findOne_none_iff docs f).mp hf
          have hsave : save docs ⟨newId, f, fd, now⟩ = .ok (docs ++ [⟨newId, f, fd, now⟩]) :=
            save_fresh docs ⟨newId, f, fd, now⟩ hfree
          simp only [hsave]
          exact Or.inr ⟨f, fd, hfree, rfl⟩

/-- Handling one request keeps the `formId`s of the collection distinct. -/
theorem handle_formIds_nodup (validId : String → Bool) (docs : Collection) (r : Request)
    (h : (docs.map (fun d => d.formId)).Nodup) :
    ((handle validId docs r).1.map (fun d => d.formId)).Nodup := by
  cases r with
  | post newId now body =>
    simp only [handle]
    rcases postForms_appends newId now docs body with h1 | ⟨f, fd, hfree, h1⟩
    · rw [h1]; exact h
    · rw [h1, List.map_append, List.nodup_append]
      refine ⟨h, by simp, ?_⟩
      intro a ha hb
      simp only [List.map_cons, List.map_nil, List.mem_singleton] at hb
      obtain ⟨d, hd, hda⟩ := List.mem_map.mp ha
      exact hfree d hd (hda.trans hb)
  | put id body =>
    simp only [handle]
    rw [(putForm_keys validId docs id body).1]
    exact h
  | delete id =>
    simp only [handle]
    exact ((deleteForm_sublist validId docs id).map _).nodup h

/-- Handling one request keeps the storage ids of the collection distinct, when
a `POST` draws a storage id that no stored document has. -/
theorem handle_ids_nodup (validId : String → Bool) (docs : Collection) (r : Request)
    (hfresh : drawsFreshIds validId docs [r] = true)
    (h : (docs.map (fun d => d.id)).Nodup) :
    ((handle validId docs r).1.map (fun d => d.id)).Nodup := by
  cases r with
  | post newId now body =>
    simp only [handle]
    simp only [drawsFreshIds, Bool.and_true, List.all_eq_true, bne_iff_ne, ne_eq] at hfresh
    rcases postForms_appends newId now docs body with h1 | ⟨f, fd, _, h1⟩
    · rw [h1]; exact h
    · rw [h1, List.map_append, List.nodup_append]
      refine ⟨h, by simp, ?_⟩
      intro a ha hb
      simp only [List.map_cons, List.map_nil, List.mem_singleton] at hb
      obtain ⟨d, hd, hda⟩ := List.mem_map.mp ha
      exact hfresh d hd (hda.trans hb)
  | put id body =>
    simp only [handle]
    rw [(putForm_keys validId docs id body).2]
    exact h
  | delete id =>
    simp only [handle]
    exact ((deleteForm_sublist validId docs id).map _).nodup h

/-- The `formId`s stay distinct along every sequence of requests. -/
theorem handleAll_formIds_nodup (validId : String → Bool) (reqs : List Request) :
    ∀ docs : Collection, (docs.map (fun d => d.formId)).Nodup →
      ((handleAll validId docs reqs).map (fun d => d.formId)).Nodup := by
  induction reqs with
  | nil => intro docs h; exact h
  | cons r rest ih =>
    intro docs h
    simp only [handleAll]
    exact ih _ (handle_formIds_nodup validId docs r h)

/-- The storage ids stay distinct along every sequence of requests whose
`POST`s draw fresh storage ids. -/
theorem handleAll_ids_nodup (validId : String → Bool) (reqs : List Request) :
    ∀ docs : Collection, drawsFreshIds validId docs reqs = true →
      (docs.map (fun d => d.id)).Nodup →
      ((handleAll validId docs reqs).map (fun d => d.id)).Nodup := by
  induction reqs with
  | nil => intro docs _ h; exact h
  | cons r rest ih =>
    intro docs hfresh h
    simp only [handleAll]
    simp only [drawsFreshIds, Bool.and_eq_true] at hfresh
    refine ih _ hfresh.2 (handle_ids_nodup validId docs r ?_ h)
    simp only [drawsFreshIds, Bool.and_true]
    exact hfresh.1

/-- C17. Starting from the empty collection, after every sequence of
`POST /forms`, `PUT /forms/:id` and `DELETE /forms/:id` requests handled one
after another, no two stored documents have the same `formId`; and when each
`POST` of the sequence draws a storage id that no stored document has at that
moment, as the store guarantees, no two stored documents have the same storage
id. -/
theorem stored_keys_stay_unique (validId : String → Bool) (reqs : List Request) :
    ((handleAll validId [] reqs).map (fun d => d.formId)).Nodup ∧
    (drawsFreshIds validId [] reqs = true →
      ((handleAll validId [] reqs).map (fun d => d.id)).Nodup) :=
  ⟨handleAll_formIds_nodup validId reqs [] List.nodup_nil,
    fun hfresh => handleAll_ids_nodup validId reqs [] hfresh List.nodup_nil⟩

theorem stored_keys_stay_unique_witness :
    drawsFreshIds sampleValidId [] sampleRequests = true ∧
    ((handleAll sampleValidId [] sampleRequests).map (fun d => d.formId)).Nodup ∧
    ((handleAll sampleValidId [] sampleRequests).map (fun d => d.id)).Nodup :=
  ⟨by decide, (stored_keys_stay_unique sampleValidId sampleRequests).1,
    (stored_keys_stay_unique sampleValidId sampleRequests).2 (by decide)⟩

/-- The sample session leaves the one document `contact`, with its new
definition. -/
theorem handleAll_sample :
    handleAll sampleValidId [] sampleRequests =
      [⟨"65f0c0ffee0000000000abcd", "contact", .obj [("title", .str "Contact v2")],
        1700000000⟩] := rfl

open FormSelect (Json truthy truthy? setField Dom saveFormDefinition postDefinition
  defaultFormId processFormComponents wellShaped SaveOutcome FormData sampleDom
  untitledSchema titledSchema)

/-! ## Saving from the builder page -/

/-- The statements that send the definition: on a definition whose component
list the walk gets through, `formData` is posted with the `formId` and the
`title` that the definition has at that point. -/
theorem postDefinition_posts (dom : Dom) (formDefinition : List (String × Json))
    (hwalk : ∀ c, formDefinition.lookup "components" = some c → wellShaped c = true) :
    ∃ fd, postDefinition dom formDefinition =
        .posted ⟨formDefinition.lookup "formId", formDefinition.lookup "title", .obj fd⟩ ∧
      fd.lookup "formId" = formDefinition.lookup "formId" ∧
      fd.lookup "title" = formDefinition.lookup "title" := by
  unfold postDefinition
  cases hc : formDefinition.lookup "components" with
  | none => exact ⟨formDefinition, rfl, rfl, rfl⟩
  | some c =>
    have herr : (processFormComponents dom c).error = none :=
      (FormSelect.walk_error_none_iff _ c).mpr (hwalk c hc)
    have h1 : (setField "components" (processFormComponents dom c).value
        formDefinition).lookup "formId" = formDefinition.lookup "formId" :=
      FormSelect.lookup_setField_ne _ _ _ _ (by decide)
    have h2 : (setField "components" (processFormComponents dom c).value
        formDefinition).lookup "title" = formDefinition.lookup "title" :=
      FormSelect.lookup_setField_ne _ _ _ _ (by decide)
    simp only [herr, h1, h2]
    exact ⟨_, rfl, h1, h2⟩

/-- The default of index.js 116-119 leaves the component list alone. -/
theorem defaultFormId_components (formDefinition : List (String × Json)) :
    (defaultFormId formDefinition).lookup "components" = formDefinition.lookup "components" := by
  unfold defaultFormId
  split
  · split
    · exact FormSelect.lookup_setField_ne _ _ _ _ (by decide)
    · rfl
  · rfl

/-- The default of index.js 116-119 leaves the title alone. -/
theorem defaultFormId_title (formDefinition : List (String × Json)) :
    (defaultFormId formDefinition).lookup "title" = formDefinition.lookup "title" := by
  unfold defaultFormId
  split
  · split
    · exact FormSelect.lookup_setField_ne _ _ _ _ (by decide)
    · rfl
  · rfl

/-- The default of index.js 116-119 gives a definition with a truthy title and
no `formId` the title as its `formId`, and keeps a `formId` that is there. -/
theorem defaultFormId_formId (formDefinition : List (String × Json)) (title : Json)
    (ht : formDefinition.lookup "title" = some title) (htruthy : truthy title = true) :
    (truthy? (formDefinition.lookup "formId") = false →
      (defaultFormId formDefinition).lookup "formId" = some title) ∧
    (truthy? (formDefinition.lookup "formId") = true →
      (defaultFormId formDefinition).lookup "formId" = formDefinition.lookup "formId") := by
  unfold defaultFormId
  rw [ht]
  refine ⟨?_, ?_⟩
  · intro h
    simp only [h, htruthy, Bool.not_false, Bool.and_self, if_true]
    exact FormSelect.lookup_setField_self _ _ _
  · intro h
    simp [h]

/-- C16, the claim fails.  The form `untitledSchema` has the `formId`
`contact` and no title.  Saved with the title `Survey` entered at the prompt,
it is posted with the `formId` `Survey` and the title `Survey`; the document
that `POST /forms` then creates has the `formId` `Survey`, no title of its
own, and a `formDefinition` whose title is `Survey`, not `contact`.  Saved
with the prompt cancelled, it is not posted at all. -/
theorem saved_title_is_not_formId :
    untitledSchema.lookup "formId" = some (.str "contact") ∧
    untitledSchema.lookup "title" = none ∧
    saveFormDefinition sampleDom (some "Survey") (some untitledSchema) =
      .posted ⟨some (.str "Survey"), some (.str "Survey"),
        .obj [("formId", .str "Survey"),
          ("components", .arr [.obj [("type", .str "textfield"), ("key", .str "name")]]),
          ("title", .str "Survey")]⟩ ∧
    postBodyOf ⟨some (.str "Survey"), some (.str "Survey"),
        .obj [("formId", .str "Survey"),
          ("components", .arr [.obj [("type", .str "textfield"), ("key", .str "name")]]),
          ("title", .str "Survey")]⟩ =
      some ⟨some "Survey", some (.obj [("formId", .str "Survey"),
          ("components", .arr [.obj [("type", .str "textfield"), ("key", .str "name")]]),
          ("title", .str "Survey")])⟩ ∧
    postForms "65f0c0ffee0000000000abcd" 1700000000 []
        ⟨some "Survey", some (.obj [("formId", .str "Survey"),
          ("components", .arr [.obj [("type", .str "textfield"), ("key", .str "name")]]),
          ("title", .str "Survey")])⟩ =
      ([⟨"65f0c0ffee0000000000abcd", "Survey",
          .obj [("formId", .str "Survey"),
            ("components", .arr [.obj [("type", .str "textfield"), ("key", .str "name")]]),
            ("title", .str "Survey")], 1700000000⟩],
        ⟨201, .document ⟨"65f0c0ffee0000000000abcd", "Survey",
          .obj [("formId", .str "Survey"),
            ("components", .arr [.obj [("type", .str "textfield"), ("key", .str "name")]]),
            ("title", .str "Survey")], 1700000000⟩⟩) ∧
    "Survey" ≠ "contact" ∧
    saveFormDefinition sampleDom none (some untitledSchema) =
      .refused "Error: Se requiere un título para guardar el formulario" :=
  ⟨rfl, rfl, rfl, rfl, rfl, by decide, rfl⟩

/-- C16, as amended.  When a form is saved without a `formId`, its `formId`
defaults to its title.  For every form definition whose component list the
walk gets through: with a (truthy) title and no `formId`, it is posted with
that title as `formId` and as title, and the definition posted carries both;
with a title and a `formId`, it is posted with both as they are; without a
title, it is not posted when the prompt is cancelled or left empty, and
otherwise it is posted with the text entered as its title and as its `formId`,
whatever `formId` it had.  The document that `POST /forms` creates from what
is posted has the posted `formId` and the posted definition, and no title of
its own. -/
theorem saveFormDefinition_formId_defaults_to_title (dom : Dom) (answer : Option String)
    (schema : List (String × Json))
    (hwalk : ∀ c, schema.lookup "components" = some c → wellShaped c = true) :
    (∀ title, schema.lookup "title" = some title → truthy title = true →
      truthy? (schema.lookup "formId") = false →
      ∃ fd, saveFormDefinition dom answer (some schema) =
          .posted ⟨some title, some title, .obj fd⟩ ∧
        fd.lookup "formId" = some title ∧ fd.lookup "title" = some title) ∧
    (∀ title, schema.lookup "title" = some title → truthy title = true →
      truthy? (schema.lookup "formId") = true →
      ∃ fd, saveFormDefinition dom answer (some schema) =
          .posted ⟨schema.lookup "formId", some title, .obj fd⟩ ∧
        fd.lookup "formId" = schema.lookup "formId" ∧ fd.lookup "title" = some title) ∧
    (truthy? (schema.lookup "title") = false →
      ((answer = none ∨ answer = some "") →
        saveFormDefinition dom answer (some schema) =
          .refused "Error: Se requiere un título para guardar el formulario") ∧
      (∀ t, answer = some t → t ≠ "" →
        ∃ fd, saveFormDefinition dom answer (some schema) =
            .posted ⟨some (.str t), some (.str t), .obj fd⟩ ∧
          fd.lookup "formId" = some (.str t) ∧ fd.lookup "title" = some (.str t))) ∧
    (∀ (t : String) (fd : List (String × Json)) (newId : String) (now : Nat)
        (docs : Collection), t ≠ "" → (∀ d ∈ docs, d.formId ≠ t) →
      postBodyOf ⟨some (.str t), some (.str t), .obj fd⟩ = some ⟨some t, some (.obj fd)⟩ ∧
      postForms newId now docs ⟨some t, some (.obj fd)⟩ =
        (docs ++ [⟨newId, t, .obj fd, now⟩],
          ⟨201, .document ⟨newId, t, .obj fd, now⟩⟩)) := by
  refine ⟨?_, ?_, ?_, ?_⟩
  · intro title ht htruthy hform
    have htt : truthy? (schema.lookup "title") = true := by rw [ht]; exact htruthy
    obtain ⟨fd, hp, h1, h2⟩ := postDefinition_posts dom (defaultFormId schema)
      (fun c hc => hwalk c (by rw [← defaultFormId_components schema]; exact hc))
    simp only [(defaultFormId_formId schema title ht htruthy).1 hform, defaultFormId_title, ht]
      at hp h1 h2
    refine ⟨fd, ?_, h1, h2⟩
    simp only [saveFormDefinition, htt, if_true]
    exact hp
  · intro title ht htruthy hform
    have htt : truthy? (schema.lookup "title") = true := by rw [ht]; exact htruthy
    obtain ⟨fd, hp, h1, h2⟩ := postDefinition_posts dom (defaultFormId schema)
      (fun c hc => hwalk c (by rw [← defaultFormId_components schema]; exact hc))
    simp only [(defaultFormId_formId schema title ht htruthy).2 hform, defaultFormId_title, ht]
      at hp h1 h2
    refine ⟨fd, ?_, h1, h2⟩
    simp only [saveFormDefinition, htt, if_true]
    exact hp
  · intro htitle
    refine ⟨?_, ?_⟩
    · intro ha
      rcases ha with ha | ha <;> simp [saveFormDefinition, htitle, ha]
    · intro t ha hne
      have ht : (setField "formId" (.str t) (setField "title" (.str t) schema)).lookup "title"
          = some (.str t) := by
        rw [FormSelect.lookup_setField_ne _ _ _ _ (by decide)]
        exact FormSelect.lookup_setField_self _ _ _
      have hf : (setField "formId" (.str t) (setField "title" (.str t) schema)).lookup "formId"
          = some (.str t) := FormSelect.lookup_setField_self _ _ _
      have htr : truthy (.str t) = true := by simpa [truthy] using hne
      have hc : (setField "formId" (.str t) (setField "title" (.str t) schema)).lookup
          "components" = schema.lookup "components" := by
        rw [FormSelect.lookup_setField_ne _ _ _ _ (by decide),
          FormSelect.lookup_setField_ne _ _ _ _ (by decide)]
      obtain ⟨fd, hp, h1, h2⟩ := postDefinition_posts dom
        (defaultFormId (setField "formId" (.str t) (setField "title" (.str t) schema)))
        (fun c hc' => hwalk c (by rw [← hc, ← defaultFormId_components]; exact hc'))
      have hf' := (defaultFormId_formId _ (.str t) ht htr).2
        (by rw [hf]; exact htr)
      simp only [hf', hf, defaultFormId_title, ht] at hp h1 h2
      refine ⟨fd, ?_, h1, h2⟩
      simp only [saveFormDefinition, htitle, ha, hne, Bool.false_eq_true, if_false]
      exact hp
  · intro t fd newId now docs hne hfree
    refine ⟨rfl, ?_⟩
    have hnone : findOne docs t = none := (findOne_none_iff docs t).mpr hfree
    have hsave : save docs ⟨newId, t, .obj fd, now⟩ = .ok (docs ++ [⟨newId, t, .obj fd, now⟩]) :=
      save_fresh docs ⟨newId, t, .obj fd, now⟩ hfree
    simp [postForms, hne, truthy, hnone, hsave]

theorem saveFormDefinition_formId_defaults_to_title_witness :
    (∀ title, titledSchema.lookup "title" = some title → truthy title = true →
      truthy? (titledSchema.lookup "formId") = false →
      ∃ fd, saveFormDefinition sampleDom none (some titledSchema) =
          .posted ⟨some title, some title, .obj fd⟩ ∧
        fd.lookup "formId" = some title ∧ fd.lookup "title" = some title) ∧
    (∀ title, titledSchema.lookup "title" = some title → truthy title = true →
      truthy? (titledSchema.lookup "formId") = true →
      ∃ fd, saveFormDefinition sampleDom none (some titledSchema) =
          .posted ⟨titledSchema.lookup "formId", some title, .obj fd⟩ ∧
        fd.lookup "formId" = titledSchema.lookup "formId" ∧ fd.lookup "title" = some title) ∧
    (truthy? (titledSchema.lookup "title") = false →
      (((none : Option String) = none ∨ (none : Option String) = some "") →
        saveFormDefinition sampleDom none (some titledSchema) =
          .refused "Error: Se requiere un título para guardar el formulario") ∧
      (∀ t, (none : Option String) = some t → t ≠ "" →
        ∃ fd, saveFormDefinition sampleDom none (some titledSchema) =
            .posted ⟨some (.str t), some (.str t), .obj fd⟩ ∧
          fd.lookup "formId" = some (.str t) ∧ fd.lookup "title" = some (.str t))) ∧
    (∀ (t : String) (fd : List (String × Json)) (newId : String) (now : Nat)
        (docs : Collection), t ≠ "" → (∀ d ∈ docs, d.formId ≠ t) →
      postBodyOf ⟨some (.str t), some (.str t), .obj fd⟩ = some ⟨some t, some (.obj fd)⟩ ∧
      postForms newId now docs ⟨some t, some (.obj fd)⟩ =
        (docs ++ [⟨newId, t, .obj fd, now⟩],
          ⟨201, .document ⟨newId, t, .obj fd, now⟩⟩)) :=
  saveFormDefinition_formId_defaults_to_title sampleDom none titledSchema
    (by
      intro c hc
      have h : c = .arr [.obj [("type", .str "textfield"), ("key", .str "name")]] := by
        have h0 : titledSchema.lookup "components" =
            some (.arr [.obj [("type", .str "textfield"), ("key", .str "name")]]) := rfl
        rw [h0] at hc
        exact (Option.some.inj hc).symm
      subst h
      decide)

/-- The form `titledSchema`, which has the title `Contact` and no `formId`, is
posted with the `formId` `Contact`. -/
theorem saveFormDefinition_sample :
    saveFormDefinition sampleDom none (some titledSchema) =
      .posted ⟨some (.str "Contact"), some (.str "Contact"),
        .obj [("title", .str "Contact"),
          ("components", .arr [.obj [("type", .str "textfield"), ("key", .str "name")]]),
          ("formId", .str "Contact")]⟩ := rfl

end FormsApi
